import Mathlib

/-!
# Goal orchestrator of `path_control` (src/path_control/src/pathcontroller.cpp)

The class `PathController` runs its execute-callback `navToGoalActionCallback`
in the thread of the goal server, while the subscriber callback `pathCallback`
and the callbacks of the follow-path client run in the spinner thread and write
the members the execute-callback polls in its empty-bodied wait loops.

Embedding.

* `Sys` holds the members of `PathController` together with the observable
  state of the ROS / actionlib objects the code talks to (goal server flags,
  follow client state, `ros::ok()`, `ros::Time::now()`) and the chronological
  record `calls` of every outgoing call (publish, sendGoal, cancelGoal,
  setSucceeded / setAborted / setPreempted, publishFeedback, warnings, errors).
* Whatever the other threads do is an `Event`; `deliver` runs the callback the
  event stands for.  A `Script` is a list of batches of events.  Every time a
  wait loop finds its condition true it lets the next batch happen and tests
  again, so the batches are what the execute-callback can observe between two
  successive polls.  A script that ends while a loop is still waiting yields
  `Res.waiting` (the callback has not returned yet).
* Pointers that the constructor leaves null are `Option`s; dereferencing
  `none` yields `Res.nullDeref`.
-/

namespace PathControl

/-! ## Messages -/

/-- Value of a `ros::Time` / `ros::Duration` in nanoseconds. -/
abbrev Time := Nat

/-- Model of `ros::Time::isZero`. -/
def isZero (t : Time) : Bool := t == 0

/-- Model of `ros::Duration(sec)`. -/
def Duration (sec : Nat) : Time := sec * 1000000000

/-- Velocities are `float` values that the controller only copies. -/
abbrev Velocity := Rat

/-- Model of `std_msgs::Header`, of which only the stamp is read. -/
structure Header where
  stamp : Time
  deriving DecidableEq, Repr

/-- Model of `geometry_msgs::PoseStamped`; the pose itself is never inspected. -/
structure PoseStamped where
  header : Header
  pose : Nat
  deriving DecidableEq, Repr

/-- Model of `nav_msgs::Path`. -/
structure Path where
  header : Header
  poses : List PoseStamped
  deriving DecidableEq, Repr

/-- Values of `NavigateToGoalGoal::failure_mode`: the two named constants and
every other code. -/
inductive FailureMode where
  | FAILURE_MODE_ABORT
  | FAILURE_MODE_REPLAN
  | invalid (code : Nat)
  deriving DecidableEq, Repr

/-- Model of `path_msgs::NavigateToGoalGoal`. -/
structure NavigateToGoalGoal where
  goal_pose : PoseStamped
  velocity : Velocity
  failure_mode : FailureMode
  debug_test : Nat
  deriving DecidableEq, Repr

/-- Values of `NavigateToGoalResult::status`. -/
inductive NavResultStatus where
  | STATUS_SUCCESS
  | STATUS_NO_PATH_FOUND
  | STATUS_COLLISION
  | STATUS_LOST_PATH
  | STATUS_TIMEOUT
  | STATUS_OTHER_ERROR
  deriving DecidableEq, Repr

/-- Model of `path_msgs::NavigateToGoalResult`; a default-constructed message
has `reached_goal = false` and `debug_test = 0`. -/
structure NavigateToGoalResult where
  reached_goal : Bool := false
  status : NavResultStatus
  debug_test : Nat := 0
  deriving DecidableEq, Repr

/-- Values of `NavigateToGoalFeedback::status`; `unassigned` is the value of the
field of a default-constructed message that was never written. -/
inductive NavFeedbackStatus where
  | STATUS_MOVING
  | STATUS_COLLISION
  | STATUS_PATH_READY
  | STATUS_REPLAN
  | unassigned
  deriving DecidableEq, Repr

/-- Model of `path_msgs::NavigateToGoalFeedback`. -/
structure NavigateToGoalFeedback where
  status : NavFeedbackStatus := NavFeedbackStatus.unassigned
  debug_test : Nat := 0
  deriving DecidableEq, Repr

/-- Model of `path_msgs::FollowPathGoal`. -/
structure FollowPathGoal where
  debug_test : Nat
  path : Path
  velocity : Velocity
  deriving DecidableEq, Repr

/-- Values of `FollowPathResult::status`: the four constants the controller
names and every other code. -/
inductive FollowResultStatus where
  | MOTION_STATUS_SUCCESS
  | MOTION_STATUS_COLLISION
  | MOTION_STATUS_PATH_LOST
  | MOTION_STATUS_TIMEOUT
  | other (code : Nat)
  deriving DecidableEq, Repr

/-- Model of `path_msgs::FollowPathResult`. -/
structure FollowPathResult where
  status : FollowResultStatus
  debug_test : Nat
  deriving DecidableEq, Repr

/-- Values of `FollowPathFeedback::status`: the two constants the controller
names and every other code. -/
inductive FollowFeedbackStatus where
  | MOTION_STATUS_MOVING
  | MOTION_STATUS_COLLISION
  | other (code : Nat)
  deriving DecidableEq, Repr

/-- Model of `path_msgs::FollowPathFeedback`. -/
structure FollowPathFeedback where
  status : FollowFeedbackStatus
  debug_test : Nat
  deriving DecidableEq, Repr

/-- Model of `actionlib::SimpleClientGoalState::StateEnum`. -/
inductive GoalState where
  | PENDING
  | ACTIVE
  | RECALLED
  | REJECTED
  | PREEMPTED
  | ABORTED
  | SUCCEEDED
  | LOST
  deriving DecidableEq, Repr

/-! ## Outgoing calls -/

/-- The `ROS_WARN` and `ROS_ERROR` lines of the controller. -/
inductive LogMsg where
  | warnInvalidPath
  | warnReplan
  | warnNoReactionToCancel
  | warnFollowDoneTimeout
  | errorInvalidFailureMode
  | errorPreemptedFinalState
  | errorUnexpectedFinalState
  | errorUnknownFeedbackStatus (code : Nat)
  deriving DecidableEq, Repr

/-- One outgoing call of the controller. -/
inductive Call where
  | publishGoal (pose : PoseStamped)
  | sendGoal (g : FollowPathGoal)
  | cancelGoal
  | setSucceeded (r : NavigateToGoalResult)
  | setAborted (r : NavigateToGoalResult)
  | setPreempted
  | publishFeedback (f : NavigateToGoalFeedback)
  | rosLog (m : LogMsg)
  deriving DecidableEq, Repr

/-- Which done-callback the last `sendGoal` registered with the follow client. -/
inductive DoneCallback where
  | none
  | followPathDoneCB
  | followUnexpectedPathDoneCB
  deriving DecidableEq, Repr

/-- Model of `PathController::Options`. -/
structure Options where
  unexpected_path_velocity : Velocity
  deriving DecidableEq, Repr

/-! ## State -/

/-- The members of `PathController` and the observable state of the objects it
uses. -/
structure Sys where
  /-- Member `goal_timestamp_`: token of the outstanding plan request, zero if none. -/
  goal_timestamp_ : Time
  /-- Member `unexpected_path_`. -/
  unexpected_path_ : Bool
  /-- Member `current_goal_` (a pointer). -/
  current_goal_ : Option NavigateToGoalGoal
  /-- Member `requested_path_` (a pointer). -/
  requested_path_ : Option Path
  /-- Member `follow_path_done_`. -/
  follow_path_done_ : Bool
  /-- Member `follow_path_final_state_`. -/
  follow_path_final_state_ : GoalState
  /-- Member `follow_path_result_` (a pointer). -/
  follow_path_result_ : Option FollowPathResult
  /-- Member `opt_`. -/
  opt_ : Options
  /-- Value of `navigate_to_goal_server_.isActive()`. -/
  server_active : Bool
  /-- Value of `navigate_to_goal_server_.isPreemptRequested()`. -/
  server_preempt_request : Bool
  /-- Value of `navigate_to_goal_server_.isNewGoalAvailable()`. -/
  server_new_goal : Bool
  /-- Value of `follow_path_client_.getState().isDone()`. -/
  client_done : Bool
  /-- Done-callback registered by the last `sendGoal`. -/
  client_done_cb : DoneCallback
  /-- Whether the last `sendGoal` registered `followPathFeedbackCB`. -/
  client_feedback_cb : Bool
  /-- Value of `ros::ok()`. -/
  ros_ok : Bool
  /-- Value of `ros::Time::now()`. -/
  now : Time
  /-- Every outgoing call so far, oldest first. -/
  calls : List Call
  deriving DecidableEq, Repr

/-- Constructor `PathController::PathController`: the token is zero, no
unsolicited run is active, the pointers are null, and the velocity of
unsolicited runs is the parameter `~nonaction_velocity` or its default 0.5.
The members the constructor does not initialise (`follow_path_done_`,
`follow_path_final_state_`) are arguments.  The goal server has no active goal
yet and the follow client tracks no goal, for which `getState().isDone()` holds. -/
def PathController (nonaction_velocity : Option Velocity)
    (follow_path_done_ : Bool) (follow_path_final_state_ : GoalState) : Sys :=
  { goal_timestamp_ := 0
    unexpected_path_ := false
    current_goal_ := none
    requested_path_ := none
    follow_path_done_ := follow_path_done_
    follow_path_final_state_ := follow_path_final_state_
    follow_path_result_ := none
    opt_ := { unexpected_path_velocity := nonaction_velocity.getD (1 / 2) }
    server_active := false
    server_preempt_request := false
    server_new_goal := false
    client_done := true
    client_done_cb := DoneCallback.none
    client_feedback_cb := false
    ros_ok := true
    now := 0
    calls := [] }

/-- Record one outgoing call. -/
def Sys.emit (s : Sys) (c : Call) : Sys := { s with calls := s.calls ++ [c] }

/-- Record a terminal call on the goal server, after which the goal is no
longer active. -/
def Sys.terminate (s : Sys) (c : Call) : Sys :=
  { s with calls := s.calls ++ [c], server_active := false }

/-- Model of the goal server accepting a goal right before it runs the
execute-callback: the goal is active, no preemption is requested for it and no
further goal is waiting. -/
def Sys.acceptNewGoal (s : Sys) : Sys :=
  { s with server_active := true, server_preempt_request := false, server_new_goal := false }

/-- Model of `follow_path_client_.sendGoal`: the request goes out, the client
tracks the new goal (not done) with the callbacks given. -/
def Sys.sendGoal (s : Sys) (g : FollowPathGoal) (done_cb : DoneCallback)
    (feedback_cb : Bool) : Sys :=
  { s with calls := s.calls ++ [Call.sendGoal g], client_done := false,
           client_done_cb := done_cb, client_feedback_cb := feedback_cb }

/-! ## Callbacks run by the spinner thread -/

/-- Method `PathController::pathCallback`. -/
def pathCallback (path : Path) (s : Sys) : Sys :=
  if isZero s.goal_timestamp_ then
    if !s.server_active then
      let s := { s with unexpected_path_ := true }
      let path_action_goal : FollowPathGoal :=
        { debug_test := 255, path := path, velocity := s.opt_.unexpected_path_velocity }
      s.sendGoal path_action_goal DoneCallback.followUnexpectedPathDoneCB false
    else
      s
  else
    if path.header.stamp = s.goal_timestamp_ then
      { s with requested_path_ := some path, goal_timestamp_ := 0 }
    else
      s

/-- Method `PathController::followPathDoneCB`. -/
def followPathDoneCB (state : GoalState) (result : FollowPathResult) (s : Sys) : Sys :=
  { s with follow_path_final_state_ := state, follow_path_result_ := some result,
           follow_path_done_ := true }

/-- Method `PathController::followPathFeedbackCB`. -/
def followPathFeedbackCB (feedback : FollowPathFeedback) (s : Sys) : Sys :=
  let nav_feedback : NavigateToGoalFeedback := { debug_test := feedback.debug_test }
  match feedback.status with
  | FollowFeedbackStatus.MOTION_STATUS_MOVING =>
    s.emit (Call.publishFeedback
      { nav_feedback with status := NavFeedbackStatus.STATUS_MOVING })
  | FollowFeedbackStatus.MOTION_STATUS_COLLISION =>
    s.emit (Call.publishFeedback
      { nav_feedback with status := NavFeedbackStatus.STATUS_COLLISION })
  | FollowFeedbackStatus.other code =>
    (s.emit (Call.rosLog (LogMsg.errorUnknownFeedbackStatus code))).emit
      (Call.publishFeedback nav_feedback)

/-- Method `PathController::followUnexpectedPathDoneCB`. -/
def followUnexpectedPathDoneCB (_state : GoalState) (_result : FollowPathResult)
    (s : Sys) : Sys :=
  { s with unexpected_path_ := false }

/-! ## Events of the other threads -/

/-- What the planner, the follower, the goal client and the clock can do between
two polls of the execute-callback. -/
inductive Event where
  /-- A message arrives on the topic `/path`. -/
  | path (p : Path)
  /-- The follower streams a feedback message for the tracked goal. -/
  | followFeedback (fb : FollowPathFeedback)
  /-- The tracked follow goal becomes done in the client; its done-callback has
  not run yet. -/
  | followStateDone
  /-- The tracked follow goal is done and its done-callback runs. -/
  | followDone (state : GoalState) (result : FollowPathResult)
  /-- The goal client cancels the active goal. -/
  | cancelRequest
  /-- A new goal arrives at the goal server, which also requests preemption of
  an active goal. -/
  | newGoal
  /-- The node is shut down. -/
  | shutdown
  /-- Time passes. -/
  | clock (dt : Time)
  deriving DecidableEq, Repr

/-- Effect of one event. -/
def deliver (e : Event) (s : Sys) : Sys :=
  match e with
  | Event.path p => pathCallback p s
  | Event.followFeedback fb =>
    if s.client_feedback_cb then followPathFeedbackCB fb s else s
  | Event.followStateDone => { s with client_done := true }
  | Event.followDone state result =>
    let s := { s with client_done := true }
    match s.client_done_cb with
    | DoneCallback.none => s
    | DoneCallback.followPathDoneCB => followPathDoneCB state result s
    | DoneCallback.followUnexpectedPathDoneCB => followUnexpectedPathDoneCB state result s
  | Event.cancelRequest => { s with server_preempt_request := true }
  | Event.newGoal =>
    { s with server_new_goal := true,
             server_preempt_request := s.server_preempt_request || s.server_active }
  | Event.clock dt => { s with now := s.now + dt }
  | Event.shutdown => { s with ros_ok := false }

/-- Events that happen between two successive polls. -/
abbrev Batch := List Event

/-- Effect of a batch, oldest event first. -/
def deliverAll (b : Batch) (s : Sys) : Sys := b.foldl (fun s e => deliver e s) s

/-- Everything the other threads do while the execute-callback runs. -/
abbrev Script := List Batch

/-! ## The execute-callback -/

/-- Outcome of running a piece of the execute-callback against a script. -/
inductive Res (α : Type) where
  /-- It returned `a` in state `s`; `rest` has not happened yet. -/
  | ret (a : α) (s : Sys) (rest : Script)
  /-- It dereferenced a null pointer in state `s`. -/
  | nullDeref (s : Sys)
  /-- The script ended in state `s` with a wait loop still polling. -/
  | waiting (s : Sys)
  deriving DecidableEq, Repr

/-- State in which the outcome was reached. -/
def Res.sys {α : Type} : Res α → Sys
  | Res.ret _ s _ => s
  | Res.nullDeref s => s
  | Res.waiting s => s

/-- Code of the execute-callback thread. -/
def M (α : Type) : Type := Sys → Script → Res α

/-- Sequencing: statements after a null dereference or an unfinished wait do
not run. -/
def M.bind {α β : Type} (m : M α) (f : α → M β) : M β := fun s sc =>
  match m s sc with
  | Res.ret a s1 sc1 => f a s1 sc1
  | Res.nullDeref s1 => Res.nullDeref s1
  | Res.waiting s1 => Res.waiting s1

instance : Monad M where
  pure a := fun s sc => Res.ret a s sc
  bind := M.bind

/-- Read the state. -/
def getSys : M Sys := fun s sc => Res.ret s s sc

/-- Write the state. -/
def modifySys (f : Sys → Sys) : M Unit := fun s sc => Res.ret () (f s) sc

/-- Dereference a pointer. -/
def deref {α : Type} (p : Option α) : M α := fun s sc =>
  match p with
  | some a => Res.ret a s sc
  | none => Res.nullDeref s

/-- Make an outgoing call that changes nothing else. -/
def call (c : Call) : M Unit := modifySys (fun s => s.emit c)

/-- Model of `navigate_to_goal_server_.setAborted`: the goal leaves the active state. -/
def setAborted (r : NavigateToGoalResult) : M Unit :=
  modifySys (fun s => s.terminate (Call.setAborted r))

/-- Model of `navigate_to_goal_server_.setSucceeded`. -/
def setSucceeded (r : NavigateToGoalResult) : M Unit :=
  modifySys (fun s => s.terminate (Call.setSucceeded r))

/-- Model of `navigate_to_goal_server_.setPreempted`. -/
def setPreempted : M Unit :=
  modifySys (fun s => s.terminate Call.setPreempted)

/-- Condition of the wait loop of `waitForPath`. -/
def waitForPathCond (s : Sys) : Bool :=
  !isZero s.goal_timestamp_ && s.ros_ok && !s.server_preempt_request && !s.server_new_goal

/-- The empty-bodied `while` loop of `waitForPath`. -/
def waitForPathLoop : Script → Sys → Res Unit
  | sc, s =>
    if waitForPathCond s then
      match sc with
      | [] => Res.waiting s
      | b :: rest => waitForPathLoop rest (deliverAll b s)
    else
      Res.ret () s sc

/-- Method `PathController::waitForPath`. -/
def waitForPath (goal_pose : PoseStamped) : M Unit := do
  modifySys (fun s => { s with goal_timestamp_ := goal_pose.header.stamp })
  call (Call.publishGoal goal_pose)
  fun s sc => waitForPathLoop sc s

/-- The empty-bodied `while` loop of `waitForFollowPathDone`. -/
def waitForFollowPathDoneLoop (expire_time : Time) : Script → Sys → Res Unit
  | sc, s =>
    if !s.follow_path_done_ && decide (expire_time > s.now) then
      match sc with
      | [] => Res.waiting s
      | b :: rest => waitForFollowPathDoneLoop expire_time rest (deliverAll b s)
    else
      Res.ret () s sc

/-- Method `PathController::waitForFollowPathDone`. -/
def waitForFollowPathDone (timeout : Time) : M Bool := do
  let expire_time := (← getSys).now + timeout
  fun s sc => waitForFollowPathDoneLoop expire_time sc s
  return (← getSys).follow_path_done_

/-- The `while` loop of `processGoal` that polls the follow client; `some false`
is the `return false` inside the loop, `none` is leaving the loop. -/
def followLoop : Script → Sys → Res (Option Bool)
  | sc, s =>
    if !s.client_done then
      if s.server_preempt_request then
        (do
          call Call.cancelGoal
          if !(← waitForFollowPathDone (Duration 10)) then
            call (Call.rosLog LogMsg.warnNoReactionToCancel)
          setPreempted
          return some false : M (Option Bool)) s sc
      else
        match sc with
        | [] => Res.waiting s
        | b :: rest => followLoop rest (deliverAll b s)
    else
      Res.ret none s sc

/-- Method `PathController::processGoal`. -/
def processGoal : M Bool := do
  modifySys (fun s => { s with follow_path_done_ := false })
  let current_goal ← deref (← getSys).current_goal_
  waitForPath current_goal.goal_pose
  let requested_path ← deref (← getSys).requested_path_
  if requested_path.poses.length < 2 then
    call (Call.rosLog LogMsg.warnInvalidPath)
    setAborted { reached_goal := false, status := NavResultStatus.STATUS_NO_PATH_FOUND }
    return false
  else if (← getSys).server_preempt_request then
    setPreempted
    return false
  else
    call (Call.publishFeedback { status := NavFeedbackStatus.STATUS_PATH_READY })
    let path_action_goal : FollowPathGoal :=
      { debug_test := current_goal.debug_test, path := requested_path,
        velocity := current_goal.velocity }
    modifySys (fun s => s.sendGoal path_action_goal DoneCallback.followPathDoneCB true)
    match ← (fun s sc => followLoop sc s : M (Option Bool)) with
    | some r => return r
    | none =>
      if !(← waitForFollowPathDone (Duration 10)) then
        call (Call.rosLog LogMsg.warnFollowDoneTimeout)
        setAborted { status := NavResultStatus.STATUS_TIMEOUT }
        return false
      else
        return true

/-- Method `PathController::handleFollowPathResult`. -/
def handleFollowPathResult : M Unit := do
  let follow_path_result ← deref (← getSys).follow_path_result_
  let reached_goal :=
    decide (follow_path_result.status = FollowResultStatus.MOTION_STATUS_SUCCESS)
  let status :=
    if reached_goal then NavResultStatus.STATUS_SUCCESS
    else
      match follow_path_result.status with
      | FollowResultStatus.MOTION_STATUS_COLLISION => NavResultStatus.STATUS_COLLISION
      | FollowResultStatus.MOTION_STATUS_PATH_LOST => NavResultStatus.STATUS_LOST_PATH
      | FollowResultStatus.MOTION_STATUS_TIMEOUT => NavResultStatus.STATUS_TIMEOUT
      | _ => NavResultStatus.STATUS_OTHER_ERROR
  let nav_result : NavigateToGoalResult :=
    { reached_goal := reached_goal, status := status,
      debug_test := follow_path_result.debug_test }
  match (← getSys).follow_path_final_state_ with
  | GoalState.REJECTED => setAborted nav_result
  | GoalState.RECALLED => setAborted nav_result
  | GoalState.ABORTED => setAborted nav_result
  | GoalState.PREEMPTED =>
    call (Call.rosLog LogMsg.errorPreemptedFinalState)
    setAborted nav_result
  | GoalState.SUCCEEDED => setSucceeded nav_result
  | _ =>
    call (Call.rosLog LogMsg.errorUnexpectedFinalState)
    setAborted nav_result

/-- The `while(true)` loop of the replan mode; `true` is leaving it by `break`,
`false` is the `return` inside it.  An iteration that goes round lets at least
one batch of the script happen, so `fuel` above the length of the script is
never used up. -/
def replanLoop : Nat → M Bool
  | 0 => fun s _ => Res.waiting s
  | fuel + 1 => do
    if !(← processGoal) then
      return false
    else
      let follow_path_result ← deref (← getSys).follow_path_result_
      if follow_path_result.status = FollowResultStatus.MOTION_STATUS_SUCCESS then
        return true
      else
        call (Call.rosLog LogMsg.warnReplan)
        call (Call.publishFeedback { status := NavFeedbackStatus.STATUS_REPLAN })
        replanLoop fuel

/-- Method `PathController::navToGoalActionCallback`, the execute-callback. -/
def navToGoalActionCallback (goal : NavigateToGoalGoal) : M Unit := do
  if (← getSys).unexpected_path_ then
    call Call.cancelGoal
  modifySys (fun s => { s with current_goal_ := some goal })
  match goal.failure_mode with
  | FailureMode.FAILURE_MODE_ABORT =>
    let _ ← processGoal
    handleFollowPathResult
  | FailureMode.FAILURE_MODE_REPLAN =>
    if ← (fun s sc => replanLoop (sc.length + 1) s sc : M Bool) then
      handleFollowPathResult
  | FailureMode.invalid _ =>
    call (Call.rosLog LogMsg.errorInvalidFailureMode)
    setAborted { status := NavResultStatus.STATUS_OTHER_ERROR }

/-! ## Reading the record of calls -/

/-- Terminal results for the goal: `setSucceeded`, `setAborted`, `setPreempted`. -/
def Call.isTerminal : Call → Bool
  | Call.setSucceeded _ => true
  | Call.setAborted _ => true
  | Call.setPreempted => true
  | _ => false

/-- Follow requests: `follow_path_client_.sendGoal`. -/
def Call.isSendGoal : Call → Bool
  | Call.sendGoal _ => true
  | _ => false

/-- Plan requests: a goal pose published to the planner. -/
def Call.isPublishGoal : Call → Bool
  | Call.publishGoal _ => true
  | _ => false

/-- Cancellations: `follow_path_client_.cancelGoal`. -/
def Call.isCancelGoal : Call → Bool
  | Call.cancelGoal => true
  | _ => false

/-- Goal feedback with status `STATUS_PATH_READY`. -/
def Call.isPathReadyFeedback : Call → Bool
  | Call.publishFeedback f => f.status = NavFeedbackStatus.STATUS_PATH_READY
  | _ => false

/-- Calls that `followPathFeedbackCB` makes when it relays follower feedback. -/
def Call.isRelayed : Call → Bool
  | Call.publishFeedback f =>
    f.status = NavFeedbackStatus.STATUS_MOVING || f.status = NavFeedbackStatus.STATUS_COLLISION
      || f.status = NavFeedbackStatus.unassigned
  | Call.rosLog (LogMsg.errorUnknownFeedbackStatus _) => true
  | _ => false

/-- The record without the relayed follower feedback. -/
def ownCalls (l : List Call) : List Call := l.filter (fun c => !c.isRelayed)

/-- The goal result a terminal call carries; `setPreempted` and all other calls
carry none. -/
def Call.navResult : Call → Option NavigateToGoalResult
  | Call.setSucceeded r => some r
  | Call.setAborted r => some r
  | _ => none

/-- The token of a plan request: the stamp of the published pose, which is the
value `waitForPath` gives `goal_timestamp_`. -/
def Call.token : Call → Option Time
  | Call.publishGoal pose => some pose.header.stamp
  | _ => none

/-! ## Scripts of a co-operative environment -/

/-- Events that neither answer a plan request with token `t` nor end a follow
request nor interrupt the goal: the clock, follower feedback, and paths with
another stamp. -/
def Event.quiet (t : Time) : Event → Bool
  | Event.clock _ => true
  | Event.followFeedback _ => true
  | Event.path p => p.header.stamp ≠ t
  | _ => false

/-- A script all of whose events are quiet. -/
def quietScript (t : Time) (sc : Script) : Bool := sc.all (fun b => b.all (Event.quiet t))

/-- One plan-and-follow cycle as the environment plays it: while the planner
works only quiet events happen, then the planner answers with `path`; while the
follower drives only quiet events happen, then it finishes with lifecycle state
`final_state` and result `result`. -/
structure Cycle where
  planning : Script
  path : Path
  following : Script
  final_state : GoalState
  result : FollowPathResult
  deriving DecidableEq, Repr

/-- The script of one cycle. -/
def Cycle.script (c : Cycle) : Script :=
  c.planning ++ [Event.path c.path] :: (c.following ++ [[Event.followDone c.final_state c.result]])

/-- The cycle answers the plan request with token `t` by a usable path and is
otherwise quiet. -/
def Cycle.answers (t : Time) (c : Cycle) : Bool :=
  quietScript t c.planning && decide (c.path.header.stamp = t) && decide (2 ≤ c.path.poses.length)
    && quietScript t c.following

/-- The script of several cycles in a row. -/
def cyclesScript : List Cycle → Script
  | [] => []
  | c :: cs => c.script ++ cyclesScript cs

/-- The follow request `processGoal` builds for goal `g` and path `p`. -/
def followRequest (g : NavigateToGoalGoal) (p : Path) : FollowPathGoal :=
  { debug_test := g.debug_test, path := p, velocity := g.velocity }

/-- Effect of several batches in a row. -/
def deliverScript (sc : Script) (s : Sys) : Sys := sc.foldl (fun s b => deliverAll b s) s

/-- The polls of the follow loop of `processGoal` before each batch of `sc` find the follower
not done and no preemption requested, so the loop lets all of `sc` happen. -/
def keepsFollowing : Script → Sys → Bool
  | [], _ => true
  | b :: rest, s =>
    !s.client_done && !s.server_preempt_request && keepsFollowing rest (deliverAll b s)

/-- The state right after `processGoal` has dispatched the follow request for goal
`g` and path `p` from state `s`: the `STATUS_PATH_READY` feedback is published and
the request is sent. -/
def dispatched (g : NavigateToGoalGoal) (p : Path) (s : Sys) : Sys :=
  (s.emit (Call.publishFeedback { status := NavFeedbackStatus.STATUS_PATH_READY })).sendGoal
    (followRequest g p) DoneCallback.followPathDoneCB true

/-- Everything of the state but the clock and the record of calls. -/
def Sys.frame (s : Sys) : Sys := { s with now := 0, calls := [] }

/-- From `s` to `s1` the goal stayed active and the stored goal is the same, and
nothing was called but relayed follower feedback. -/
def Undisturbed (s s1 : Sys) : Prop :=
  s1.server_active = true ∧ s1.current_goal_ = s.current_goal_ ∧
    ownCalls s1.calls = ownCalls s.calls

/-- The goal result `handleFollowPathResult` builds from a follower result. -/
def navResultOf (r : FollowPathResult) : NavigateToGoalResult :=
  { reached_goal := decide (r.status = FollowResultStatus.MOTION_STATUS_SUCCESS)
    status :=
      if r.status = FollowResultStatus.MOTION_STATUS_SUCCESS then NavResultStatus.STATUS_SUCCESS
      else
        match r.status with
        | FollowResultStatus.MOTION_STATUS_COLLISION => NavResultStatus.STATUS_COLLISION
        | FollowResultStatus.MOTION_STATUS_PATH_LOST => NavResultStatus.STATUS_LOST_PATH
        | FollowResultStatus.MOTION_STATUS_TIMEOUT => NavResultStatus.STATUS_TIMEOUT
        | _ => NavResultStatus.STATUS_OTHER_ERROR
    debug_test := r.debug_test }

/-- The calls by which `handleFollowPathResult` ends the goal for a final state of
the follow request and the goal result built. -/
def finalCalls (st : GoalState) (nav_result : NavigateToGoalResult) : List Call :=
  match st with
  | GoalState.REJECTED => [Call.setAborted nav_result]
  | GoalState.RECALLED => [Call.setAborted nav_result]
  | GoalState.ABORTED => [Call.setAborted nav_result]
  | GoalState.PREEMPTED =>
    [Call.rosLog LogMsg.errorPreemptedFinalState, Call.setAborted nav_result]
  | GoalState.SUCCEEDED => [Call.setSucceeded nav_result]
  | _ => [Call.rosLog LogMsg.errorUnexpectedFinalState, Call.setAborted nav_result]

/-- The state in which the execute-callback reaches its `switch`: a running
unsolicited run has been cancelled and the goal is stored. -/
def entered (goal : NavigateToGoalGoal) (s : Sys) : Sys :=
  { (if s.unexpected_path_ = true then s.emit Call.cancelGoal else s) with
    current_goal_ := some goal }

/-- A list of calls without plan requests and follow requests. -/
def NoRequests (l : List Call) : Prop :=
  l.filter Call.isPublishGoal = [] ∧ l.filter Call.isSendGoal = []

/-- The event is the planner's answer to the plan request with token `t`: a path
that carries the stamp `t`, the token being a non-zero value. -/
def Event.answers (t : Time) : Event → Bool
  | Event.path p => decide (t ≠ 0) && decide (p.header.stamp = t)
  | _ => false

/-- No event of the script answers the plan request with token `t`. -/
def noAnswer (t : Time) (sc : Script) : Bool :=
  sc.all (fun b => b.all (fun e => !e.answers t))

/-- The token, the stored path and the stored goal of `s` are `t`, `rp` and `cg`. -/
def Kept (t : Time) (rp : Option Path) (cg : Option NavigateToGoalGoal) (s : Sys) : Prop :=
  s.goal_timestamp_ = t ∧ s.requested_path_ = rp ∧ s.current_goal_ = cg

/-! ## Concrete data for the examples -/

/-- A goal pose stamped 5. -/
def pose5 : PoseStamped := { header := { stamp := 5 }, pose := 7 }

/-- A path of two poses stamped 5. -/
def path2 : Path := { header := { stamp := 5 }, poses := [pose5, pose5] }

/-- A path of one pose stamped 5. -/
def path1 : Path := { header := { stamp := 5 }, poses := [pose5] }

/-- A path of two poses stamped 9. -/
def path9 : Path := { header := { stamp := 9 }, poses := [pose5, pose5] }

/-- A goal in abort mode for `pose5`. -/
def goalAbort : NavigateToGoalGoal :=
  { goal_pose := pose5, velocity := 2, failure_mode := FailureMode.FAILURE_MODE_ABORT,
    debug_test := 3 }

/-- A goal in replan mode for `pose5`. -/
def goalReplan : NavigateToGoalGoal :=
  { goal_pose := pose5, velocity := 2, failure_mode := FailureMode.FAILURE_MODE_REPLAN,
    debug_test := 3 }

/-- A goal in replan mode whose pose carries the stamp zero. -/
def goalZeroStamp : NavigateToGoalGoal :=
  { goal_pose := { header := { stamp := 0 }, pose := 7 }, velocity := 2,
    failure_mode := FailureMode.FAILURE_MODE_REPLAN, debug_test := 3 }

/-- A freshly constructed controller whose goal server has accepted its first goal. -/
def firstGoalAccepted : Sys := (PathController none false GoalState.PENDING).acceptNewGoal

/-- A follower result with the given status for the goals above. -/
def followResult (status : FollowResultStatus) : FollowPathResult :=
  { status := status, debug_test := 3 }

/-- The controller after a first goal in abort mode that was planned, followed and
succeeded, with the goal server having accepted the next goal. -/
def secondGoalAccepted : Sys :=
  (navToGoalActionCallback goalAbort firstGoalAccepted
    [[Event.path path2],
     [Event.followDone GoalState.SUCCEEDED
       (followResult FollowResultStatus.MOTION_STATUS_SUCCESS)]]).sys.acceptNewGoal

/-- The controller after a first goal in replan mode that the planner answered with
a path of one pose (answered `setAborted`), with the goal server having accepted
the next goal. -/
def goalAcceptedAfterShortPath : Sys :=
  (navToGoalActionCallback goalReplan firstGoalAccepted [[Event.path path1]]).sys.acceptNewGoal

/-- A controller that holds the goal `goalReplan` and is about to run `processGoal`. -/
def holdingGoal : Sys := { firstGoalAccepted with current_goal_ := some goalReplan }

/-- The planner answers, the follower drives for a second, the goal is cancelled,
and the follower does not react for ten seconds. -/
def cancelledWhileFollowing : Script :=
  [[Event.path path2], [Event.clock 1000000000], [Event.cancelRequest],
   [Event.clock 10000000000]]

/-- A cycle in which the planner answers at once with `path2` and the follower
finishes at once with the given lifecycle state and status. -/
def promptCycle (state : GoalState) (status : FollowResultStatus) : Cycle :=
  { planning := [], path := path2, following := [], final_state := state,
    result := followResult status }

/-- A goal whose failure mode is neither of the two constants. -/
def goalInvalid : NavigateToGoalGoal :=
  { goal_pose := pose5, velocity := 2, failure_mode := FailureMode.invalid 7, debug_test := 3 }

/-- A fresh controller that received an unsolicited path and is driving it. -/
def unsolicitedRun : Sys := pathCallback path9 (PathController none false GoalState.PENDING)

/-- A controller whose follower finished with the given lifecycle state and status. -/
def followerFinished (state : GoalState) (status : FollowResultStatus) : Sys :=
  followPathDoneCB state (followResult status) holdingGoal

end PathControl

/-!
# Scan filters of `scan2cloud` (src/tools/scan2cloud/src/scan2cloud/scan_processor.cpp)

The free functions `tukey`, `normSqr`, `norm`, `GetWeight`, `TestSegmentDist` and
`SegmentFilter` that `ScanProcessor` applies to the points of a laser scan.

Embedding.

* A `std::vector<tf::Point>` is a `List`; element access outside the vector and
  `back()` / `front()` of an empty vector are undefined and yield `none`.
* The `float` values and the points are the carriers `F` and `P` of an `Arith`, which
  holds the operations the functions apply to them.  Nothing is assumed about the
  operations, so whatever is proved holds for the rounding arithmetic of the machine
  as for any other.
* An `int` is an `Int`.  A sum or difference of `int` values that does not fit 32
  bits is undefined in C++.  `GetWeight` stores its sums in `int` variables before it
  uses them, and `wrapInt` gives these the two's complement value.  The sum
  `i+windowSize` of `SegmentFilter` stands in the condition of a loop over `k` that
  starts at `i`, which a compiler is free to evaluate as if the sum were exact;
  `addInt` gives the sum no value when it overflows, and the filter has no result
  then.  A comparison of an `int` with a size converts the `int` by `toSize`.  The
  sizes of the vectors are taken to fit an `int`, so the counters that run over a
  vector do not wrap.
-/

namespace ScanProcessor

/-- The value of type `int` that the machine computes for the exact result `x`:
32-bit two's complement wrap-around. -/
def wrapInt (x : Int) : Int := (x + 2147483648) % 4294967296 - 2147483648

/-- Conversion of an `int` to `size_t` (64 bit), as in a comparison of an `int` with
`size()`. -/
def toSize (x : Int) : Int := x % 18446744073709551616

/-- The sum `a+b` of two `int` values where an overflow is left undefined: `none`
when the exact sum does not fit 32 bits. -/
def addInt (a b : Int) : Option Int :=
  if -2147483648 ≤ a + b ∧ a + b < 2147483648 then some (a + b) else none

/-- The operations on `float` values (`F`) and on `tf::Point` values (`P`) that the
filters use: the constants `0.0f` and `1.0f`, `+`, `-`, `*`, `/`, `std::abs`,
`sqrt`, `<` (and `a > b` as `b < a`), the difference of two points and the dot
product of two points as a `float`. -/
structure Arith (F P : Type) where
  zero : F
  one : F
  add : F → F → F
  sub : F → F → F
  mul : F → F → F
  div : F → F → F
  abs : F → F
  sqrt : F → F
  lt : F → F → Bool
  psub : P → P → P
  dot : P → P → F

/-- Function `tukey`. -/
def tukey {F P : Type} (o : Arith F P) (x k : F) : F :=
  if o.lt k (o.abs x) then o.zero
  else
    let xok := o.div x k
    let d := o.sub o.one (o.mul xok xok)
    o.mul d d

/-- Function `normSqr`. -/
def normSqr {F P : Type} (o : Arith F P) (v : P) : F := o.dot v v

/-- Function `norm`. -/
def norm {F P : Type} (o : Arith F P) (v : P) : F := o.sqrt (normSqr o v)

/-- Element access `v[i]` with an `int` index. -/
def elemAt {P : Type} (v : List P) (i : Int) : Option P :=
  if 0 ≤ i then v[i.toNat]? else none

/-- The `for` loop of `GetWeight` from the counter value `i` on, `sumW` being the sum
so far.  The loop is entered with `i = start` and as many steps as it has
iterations, `end - start` of them when `start < end`. -/
def weightLoop {F P : Type} (o : Arith F P) (points : List P) (pc : P) (k : F)
    (end_ : Int) : Nat → Int → F → Option F
  | 0, _, sumW => some sumW
  | fuel + 1, i, sumW =>
    if i < end_ then
      match elemAt points i with
      | none => none
      | some p =>
        weightLoop o points pc k end_ fuel (i + 1)
          (o.add sumW (tukey o (norm o (o.psub p pc)) k))
    else some sumW

/-- Function `GetWeight`. -/
def GetWeight {F P : Type} (o : Arith F P) (points : List P) (k : F)
    (windowSize idx : Int) : Option F :=
  let start := wrapInt (idx - windowSize)
  let end_ := wrapInt (wrapInt (idx + windowSize) + 1)
  let start := max 0 start
  let end_ := min (wrapInt (wrapInt points.length - 1)) end_
  match elemAt points idx with
  | none => none
  | some pc => weightLoop o points pc k end_ (end_ - start).toNat start o.zero

/-- Function `TestSegmentDist`. -/
def TestSegmentDist {F P : Type} (o : Arith F P) (P1 P2 : P) (minDist : F)
    (useDist : Bool) : Bool :=
  if useDist then o.lt (norm o (o.psub P1 P2)) (o.mul minDist (norm o P1))
  else o.lt (norm o (o.psub P1 P2)) minDist

/-- The condition of `SegmentFilter` under which a finished segment goes to the
output: `curSegment.size() > minPoints && norm(front - back) > minSegmentSize`. -/
def keepSegment {F P : Type} (o : Arith F P) (curSegment : List P) (minPoints : Int)
    (minSegmentSize : F) : Option Bool :=
  if toSize minPoints < (curSegment.length : Int) then
    match curSegment.head?, curSegment.getLast? with
    | some front, some back => some (o.lt minSegmentSize (norm o (o.psub front back)))
    | _, _ => none
  else some false

/-- The inner `for` loop of `SegmentFilter` over `k`, from the counter value `k` on;
the result is `found`.  `limit` is the value of `i+windowSize`, `size` is
`in_points.size()`.  The loop is entered with `k = i` and `size` steps, which it
never uses up, the counter being below `size` in every iteration. -/
def windowLoop {F P : Type} (o : Arith F P) (curSegment : List P) (curP : P)
    (distThresh : F) (useDist : Bool) (limit : Int) (size : Nat) : Nat → Int → Option Bool
  | 0, _ => some false
  | fuel + 1, k =>
    if k < limit ∧ toSize k < (size : Int) then
      match curSegment.getLast? with
      | none => none
      | some back =>
        if TestSegmentDist o back curP distThresh useDist then some true
        else windowLoop o curSegment curP distThresh useDist limit size fuel (k + 1)
    else some false

/-- The outer `for` loop of `SegmentFilter` from the counter value `i` on: the
points `in_points[i]`, `in_points[i+1]`, ... still to come, the current segment and
the output so far; the result is the current segment and the output at the end of
the loop.  The condition of the inner loop is evaluated at least once for every
`i`, and with it the sum `i+windowSize`. -/
def segmentLoop {F P : Type} (o : Arith F P) (size : Nat) (distThresh : F)
    (windowSize minPoints : Int) (minSegmentSize : F) (useDist : Bool) :
    List P → Int → List P → List P → Option (List P × List P)
  | [], _, curSegment, out_points => some (curSegment, out_points)
  | curP :: rest, i, curSegment, out_points =>
    match addInt i windowSize with
    | none => none
    | some limit =>
      match windowLoop o curSegment curP distThresh useDist limit size size i with
      | none => none
      | some true =>
        segmentLoop o size distThresh windowSize minPoints minSegmentSize useDist rest
          (i + 1) (curSegment ++ [curP]) out_points
      | some false =>
        match keepSegment o curSegment minPoints minSegmentSize with
        | none => none
        | some keep =>
          segmentLoop o size distThresh windowSize minPoints minSegmentSize useDist rest
            (i + 1) [curP] (if keep then out_points ++ curSegment else out_points)

/-- Function `SegmentFilter`; the result is `out_points`. -/
def SegmentFilter {F P : Type} (o : Arith F P) (in_points : List P) (distThresh : F)
    (windowSize minPoints : Int) (minSegmentSize : F) (useDist : Bool) : Option (List P) :=
  match in_points with
  | [] => some []
  | p0 :: rest =>
    match segmentLoop o in_points.length distThresh windowSize minPoints minSegmentSize
        useDist rest 1 [p0] [] with
    | none => none
    | some (curSegment, out_points) =>
      match keepSegment o curSegment minPoints minSegmentSize with
      | none => none
      | some keep => some (if keep then out_points ++ curSegment else out_points)

/-! ## The window of `GetWeight` in words -/

/-- The indices `i` with `max(0, idx - windowSize) <= i < min(n - 1, idx +
windowSize + 1)` of a list of `n` points, in increasing order. -/
def windowIndices (n : Nat) (windowSize idx : Int) : List Nat :=
  (List.range n).filter (fun i =>
    decide (max 0 (idx - windowSize) ≤ (i : Int)
      ∧ (i : Int) < min ((n : Int) - 1) (idx + windowSize + 1)))

/-- The sum of the tukey terms of the points at the indices `is`, added to zero one
after the other in the order of `is`; `pc` is the centre point. -/
def sumTerms {F P : Type} (o : Arith F P) (points : List P) (pc : P) (k : F)
    (is : List Nat) : F :=
  is.foldl (fun sumW i => o.add sumW (tukey o (norm o (o.psub (points.getD i pc) pc)) k))
    o.zero

/-! ## Concrete data for the examples -/

/-- Arithmetic on integer values and points with integer coordinates, for the examples;
on the values that occur there (0, 1 and -1) every operation is exact, as it is
for `float`. -/
def intArith : Arith Int (Int × Int × Int) :=
  { zero := 0
    one := 1
    add := fun a b => a + b
    sub := fun a b => a - b
    mul := fun a b => a * b
    div := fun a b => a / b
    abs := fun a => Int.natAbs a
    sqrt := fun a => Int.sqrt a
    lt := fun a b => decide (a < b)
    psub := fun a b => (a.1 - b.1, a.2.1 - b.2.1, a.2.2 - b.2.2)
    dot := fun a b => a.1 * b.1 + a.2.1 * b.2.1 + a.2.2 * b.2.2 }

/-- The origin. -/
def origin : Int × Int × Int := (0, 0, 0)

end ScanProcessor

namespace PathControl

/-! ## Running the primitives -/

@[simp] theorem bind_run {α β : Type} (m : M α) (f : α → M β) (s : Sys) (sc : Script) :
    (m >>= f) s sc = match m s sc with
      | Res.ret a s1 sc1 => f a s1 sc1
      | Res.nullDeref s1 => Res.nullDeref s1
      | Res.waiting s1 => Res.waiting s1 := rfl

@[simp] theorem pure_run {α : Type} (a : α) (s : Sys) (sc : Script) :
    (pure a : M α) s sc = Res.ret a s sc := rfl

@[simp] theorem getSys_run (s : Sys) (sc : Script) : getSys s sc = Res.ret s s sc := rfl

@[simp] theorem modifySys_run (f : Sys → Sys) (s : Sys) (sc : Script) :
    modifySys f s sc = Res.ret () (f s) sc := rfl

@[simp] theorem call_run (c : Call) (s : Sys) (sc : Script) :
    call c s sc = Res.ret () (s.emit c) sc := rfl

@[simp] theorem deref_some_run {α : Type} (a : α) (s : Sys) (sc : Script) :
    deref (some a) s sc = Res.ret a s sc := rfl

@[simp] theorem deref_none_run {α : Type} (s : Sys) (sc : Script) :
    deref (none : Option α) s sc = Res.nullDeref s := rfl

@[simp] theorem ite_run {α : Type} (c : Prop) [Decidable c] (m1 m2 : M α) (s : Sys)
    (sc : Script) : (if c then m1 else m2) s sc = if c then m1 s sc else m2 s sc := by
  split <;> rfl

@[simp] theorem setAborted_run (r : NavigateToGoalResult) (s : Sys) (sc : Script) :
    setAborted r s sc = Res.ret () (s.terminate (Call.setAborted r)) sc := rfl

@[simp] theorem setSucceeded_run (r : NavigateToGoalResult) (s : Sys) (sc : Script) :
    setSucceeded r s sc = Res.ret () (s.terminate (Call.setSucceeded r)) sc := rfl

@[simp] theorem setPreempted_run (s : Sys) (sc : Script) :
    setPreempted s sc = Res.ret () (s.terminate Call.setPreempted) sc := rfl

/-! ## The path callback -/

/-- C7. With a plan token outstanding (`goal_timestamp_` non-zero), a path whose
stamp differs from the token leaves the whole state as it is: token and stored
path are unchanged and nothing is sent to the follower.  So the condition of the
wait loop of `waitForPath` keeps its value, and a wait that is pending stays
pending when such a path arrives. -/
theorem pathCallback_other_stamp_ignored (s : Sys) (p : Path)
    (htoken : s.goal_timestamp_ ≠ 0) (hstamp : p.header.stamp ≠ s.goal_timestamp_) :
    pathCallback p s = s
      ∧ (pathCallback p s).goal_timestamp_ = s.goal_timestamp_
      ∧ (pathCallback p s).requested_path_ = s.requested_path_
      ∧ (pathCallback p s).calls = s.calls
      ∧ waitForPathCond (pathCallback p s) = waitForPathCond s
      ∧ (waitForPathCond s = true →
          ∀ rest, waitForPathLoop ([Event.path p] :: rest) s = waitForPathLoop rest s) := by
  have h : pathCallback p s = s := by
    simp [pathCallback, isZero, htoken, hstamp]
  refine ⟨h, by rw [h], by rw [h], by rw [h], by rw [h], ?_⟩
  intro hc rest
  rw [waitForPathLoop]
  simp [hc, deliverAll, deliver, h]

/-- Witness of C7: token 5 outstanding, a path stamped 9 arrives. -/
theorem pathCallback_other_stamp_ignored_witness :
    pathCallback path9 { firstGoalAccepted with goal_timestamp_ := 5 }
        = { firstGoalAccepted with goal_timestamp_ := 5 }
      ∧ waitForPathLoop [[Event.path path9]] { firstGoalAccepted with goal_timestamp_ := 5 }
        = Res.waiting { firstGoalAccepted with goal_timestamp_ := 5 } :=
  have h := pathCallback_other_stamp_ignored
    { firstGoalAccepted with goal_timestamp_ := 5 } path9 (by decide) (by decide)
  ⟨h.1, by rw [h.2.2.2.2.2 (by decide) []]; rfl⟩

/-- C8. With a plan token outstanding, a path whose stamp equals the token is
stored as `requested_path_` and the token is reset to zero; nothing else changes,
in particular nothing is sent to the follower. -/
theorem pathCallback_matching_stamp_delivered (s : Sys) (p : Path)
    (htoken : s.goal_timestamp_ ≠ 0) (hstamp : p.header.stamp = s.goal_timestamp_) :
    pathCallback p s = { s with requested_path_ := some p, goal_timestamp_ := 0 }
      ∧ (pathCallback p s).requested_path_ = some p
      ∧ (pathCallback p s).goal_timestamp_ = 0
      ∧ (pathCallback p s).calls = s.calls := by
  have h : pathCallback p s = { s with requested_path_ := some p, goal_timestamp_ := 0 } := by
    simp [pathCallback, isZero, htoken, hstamp]
  refine ⟨h, by rw [h], by rw [h], by rw [h]⟩

/-- Witness of C8: token 5 outstanding, a path stamped 5 arrives. -/
theorem pathCallback_matching_stamp_delivered_witness :
    (pathCallback path2 { firstGoalAccepted with goal_timestamp_ := 5 }).requested_path_
        = some path2
      ∧ (pathCallback path2 { firstGoalAccepted with goal_timestamp_ := 5 }).goal_timestamp_ = 0
      ∧ (pathCallback path2 { firstGoalAccepted with goal_timestamp_ := 5 }).calls = [] :=
  (pathCallback_matching_stamp_delivered
    { firstGoalAccepted with goal_timestamp_ := 5 } path2 (by decide) (by decide)).2

/-- A path that arrives while the goal is active and that does not match an
outstanding token is dropped. -/
theorem pathCallback_drops (s : Sys) (p : Path) (hactive : s.server_active = true)
    (hnot : s.goal_timestamp_ = 0 ∨ p.header.stamp ≠ s.goal_timestamp_) :
    pathCallback p s = s := by
  rcases hnot with h0 | hne
  · simp [pathCallback, isZero, h0, hactive]
  · by_cases h0 : s.goal_timestamp_ = 0
    · simp [pathCallback, isZero, h0, hactive]
    · simp [pathCallback, isZero, h0, hne]

/-- C9. While the goal server has an active goal, a path that is not the awaited
plan response (the token is zero, or the stamp differs from the token) changes
nothing: no follow request is sent and `unexpected_path_` keeps its value. -/
theorem pathCallback_dropped_while_goal_active (s : Sys) (p : Path)
    (hactive : s.server_active = true)
    (hnot : s.goal_timestamp_ = 0 ∨ p.header.stamp ≠ s.goal_timestamp_) :
    pathCallback p s = s
      ∧ (pathCallback p s).calls = s.calls
      ∧ (pathCallback p s).unexpected_path_ = s.unexpected_path_ := by
  have h : pathCallback p s = s := pathCallback_drops s p hactive hnot
  refine ⟨h, by rw [h], by rw [h]⟩

/-- Witness of C9: a goal is active and being followed (token zero), a path arrives. -/
theorem pathCallback_dropped_while_goal_active_witness :
    pathCallback path2 firstGoalAccepted = firstGoalAccepted
      ∧ (pathCallback path2 firstGoalAccepted).calls = firstGoalAccepted.calls
      ∧ (pathCallback path2 firstGoalAccepted).unexpected_path_
          = firstGoalAccepted.unexpected_path_ :=
  pathCallback_dropped_while_goal_active firstGoalAccepted path2 (by decide)
    (Or.inl (by decide))

/-- Counterexample to C10 as stated. A goal is cancelled while the planner is
still working: the execute-callback answers `setPreempted` and returns with the
token 5 still set.  The controller is idle now (no goal active), yet a path that
arrives sends nothing to the follower and leaves `unexpected_path_` false. -/
theorem idle_path_not_followed_with_stale_token :
    (navToGoalActionCallback goalReplan secondGoalAccepted [[Event.cancelRequest]]).sys.server_active
        = false
      ∧ (navToGoalActionCallback goalReplan secondGoalAccepted [[Event.cancelRequest]]).sys.goal_timestamp_
        = 5
      ∧ (pathCallback path9
          (navToGoalActionCallback goalReplan secondGoalAccepted [[Event.cancelRequest]]).sys).calls
        = (navToGoalActionCallback goalReplan secondGoalAccepted [[Event.cancelRequest]]).sys.calls
      ∧ (pathCallback path9
          (navToGoalActionCallback goalReplan secondGoalAccepted
            [[Event.cancelRequest]]).sys).unexpected_path_ = false := by
  decide

/-- C10, amended. When no goal is active and no plan token is outstanding, a path
that arrives makes `pathCallback` send exactly one follow request; it carries that
path, the id 255 and the configured velocity `opt_.unexpected_path_velocity`,
whatever the stored goal is, and `unexpected_path_` becomes true.  A controller
constructed without the parameter has the velocity 0.5. -/
theorem pathCallback_idle_starts_unsolicited_run (s : Sys) (p : Path)
    (hidle : s.server_active = false) (htoken : s.goal_timestamp_ = 0) :
    (pathCallback p s).calls
        = s.calls ++ [Call.sendGoal
            { debug_test := 255, path := p, velocity := s.opt_.unexpected_path_velocity }]
      ∧ (pathCallback p s).unexpected_path_ = true
      ∧ (pathCallback p { s with current_goal_ := none }).calls = (pathCallback p s).calls
      ∧ (∀ d st, (PathController none d st).opt_.unexpected_path_velocity = 1 / 2)
      ∧ (∀ v d st, (PathController (some v) d st).opt_.unexpected_path_velocity = v) := by
  refine ⟨?_, ?_, ?_, ?_, ?_⟩
  · simp [pathCallback, isZero, htoken, hidle, Sys.sendGoal]
  · simp [pathCallback, isZero, htoken, hidle, Sys.sendGoal]
  · simp [pathCallback, isZero, htoken, hidle, Sys.sendGoal]
  · intro d st; rfl
  · intro v d st; rfl

/-- Witness of C10, amended: a path arrives at a freshly constructed controller. -/
theorem pathCallback_idle_starts_unsolicited_run_witness :
    (pathCallback path2 (PathController none false GoalState.PENDING)).calls
        = [Call.sendGoal { debug_test := 255, path := path2, velocity := 1 / 2 }]
      ∧ (pathCallback path2 (PathController none false GoalState.PENDING)).unexpected_path_
        = true :=
  have h := pathCallback_idle_starts_unsolicited_run
    (PathController none false GoalState.PENDING) path2 (by decide) (by decide)
  ⟨h.1, h.2.1⟩

/-! ## The record of calls -/

theorem ownCalls_append (l1 l2 : List Call) : ownCalls (l1 ++ l2) = ownCalls l1 ++ ownCalls l2 := by
  simp [ownCalls]

theorem ownCalls_relayed (l : List Call) (c : Call) (h : c.isRelayed = true) :
    ownCalls (l ++ [c]) = ownCalls l := by
  simp [ownCalls, h]

theorem ownCalls_own (l : List Call) (c : Call) (h : c.isRelayed = false) :
    ownCalls (l ++ [c]) = ownCalls l ++ [c] := by
  simp [ownCalls, h]

/-- A test that rejects relayed feedback sees the same calls in the full record. -/
theorem filter_ownCalls (q : Call → Bool) (hq : ∀ c, q c = true → c.isRelayed = false)
    (l : List Call) : (ownCalls l).filter q = l.filter q := by
  induction l with
  | nil => rfl
  | cons c l ih =>
    by_cases hc : c.isRelayed = true
    · have hqc : q c = false := by
        cases h : q c
        · rfl
        · have := hq c h; rw [hc] at this; exact absurd this (by decide)
      simp [ownCalls, hc, hqc] at ih ⊢
      exact ih
    · have hc' : c.isRelayed = false := by simpa using hc
      cases h : q c <;> simp [ownCalls, hc', h] at ih ⊢ <;> exact ih

theorem isTerminal_own (c : Call) (h : c.isTerminal = true) : c.isRelayed = false := by
  cases c <;> first | rfl | simp [Call.isTerminal] at h

theorem isSendGoal_own (c : Call) (h : c.isSendGoal = true) : c.isRelayed = false := by
  cases c <;> first | rfl | simp [Call.isSendGoal] at h

theorem isPublishGoal_own (c : Call) (h : c.isPublishGoal = true) : c.isRelayed = false := by
  cases c <;> first | rfl | simp [Call.isPublishGoal] at h

theorem isCancelGoal_own (c : Call) (h : c.isCancelGoal = true) : c.isRelayed = false := by
  cases c <;> first | rfl | simp [Call.isCancelGoal] at h

theorem isPathReadyFeedback_own (c : Call) (h : c.isPathReadyFeedback = true) :
    c.isRelayed = false := by
  cases c <;> simp [Call.isPathReadyFeedback] at h
  simp [Call.isRelayed, h]

/-! ## Events -/

theorem followPathFeedbackCB_frame (fb : FollowPathFeedback) (s : Sys) :
    (followPathFeedbackCB fb s).frame = s.frame
      ∧ ownCalls (followPathFeedbackCB fb s).calls = ownCalls s.calls := by
  rcases fb with ⟨st, d⟩
  cases st <;> simp [followPathFeedbackCB, Sys.emit, Sys.frame, ownCalls, Call.isRelayed]

/-- While the goal is active no event makes the controller call anything but
relayed feedback, and none ends the goal or replaces it. -/
theorem deliver_undisturbed (e : Event) (s : Sys) (h : s.server_active = true) :
    Undisturbed s (deliver e s) := by
  cases e with
  | path p =>
    simp only [deliver, pathCallback, h]
    by_cases h0 : isZero s.goal_timestamp_ = true
    · simp [h0, Undisturbed, h]
    · by_cases h1 : p.header.stamp = s.goal_timestamp_ <;> simp [h0, h1, Undisturbed, h]
  | followFeedback fb =>
    simp only [deliver]
    by_cases hcb : s.client_feedback_cb = true
    · have hf := followPathFeedbackCB_frame fb s
      have h1 := congrArg Sys.server_active hf.1
      have h2 := congrArg Sys.current_goal_ hf.1
      simp only [Sys.frame] at h1 h2
      simp [hcb, Undisturbed, h1, h2, hf.2, h]
    · simp [hcb, Undisturbed, h]
  | followStateDone => simp [deliver, Undisturbed, h]
  | followDone st r =>
    simp only [deliver]
    cases s.client_done_cb <;>
      simp [Undisturbed, h, followPathDoneCB, followUnexpectedPathDoneCB]
  | cancelRequest => simp [deliver, Undisturbed, h]
  | newGoal => simp [deliver, Undisturbed, h]
  | shutdown => simp [deliver, Undisturbed, h]
  | clock dt => simp [deliver, Undisturbed, h]

theorem Undisturbed.refl (s : Sys) (h : s.server_active = true) : Undisturbed s s :=
  ⟨h, rfl, rfl⟩

theorem Undisturbed.trans {s s1 s2 : Sys} (h1 : Undisturbed s s1) (h2 : Undisturbed s1 s2) :
    Undisturbed s s2 :=
  ⟨h2.1, h2.2.1.trans h1.2.1, h2.2.2.trans h1.2.2⟩

theorem deliverAll_undisturbed (b : Batch) (s : Sys) (h : s.server_active = true) :
    Undisturbed s (deliverAll b s) := by
  induction b generalizing s with
  | nil => exact Undisturbed.refl s h
  | cons e b ih =>
    have h1 := deliver_undisturbed e s h
    exact h1.trans (ih (deliver e s) h1.1)

theorem deliverScript_undisturbed (sc : Script) (s : Sys) (h : s.server_active = true) :
    Undisturbed s (deliverScript sc s) := by
  induction sc generalizing s with
  | nil => exact Undisturbed.refl s h
  | cons b sc ih =>
    have h1 := deliverAll_undisturbed b s h
    exact h1.trans (ih (deliverAll b s) h1.1)

/-! ## The wait loops -/

theorem waitForPathLoop_nil (s : Sys) :
    waitForPathLoop [] s = if waitForPathCond s then Res.waiting s else Res.ret () s [] := by
  rw [waitForPathLoop]

theorem waitForPathLoop_cons (b : Batch) (rest : Script) (s : Sys) :
    waitForPathLoop (b :: rest) s
      = if waitForPathCond s then waitForPathLoop rest (deliverAll b s)
        else Res.ret () s (b :: rest) := by
  rw [waitForPathLoop]

theorem waitForFollowPathDoneLoop_nil (x : Time) (s : Sys) :
    waitForFollowPathDoneLoop x [] s
      = if (!s.follow_path_done_ && decide (x > s.now)) = true then Res.waiting s
        else Res.ret () s [] := by
  rw [waitForFollowPathDoneLoop]

theorem waitForFollowPathDoneLoop_cons (x : Time) (b : Batch) (rest : Script) (s : Sys) :
    waitForFollowPathDoneLoop x (b :: rest) s
      = if (!s.follow_path_done_ && decide (x > s.now)) = true then
          waitForFollowPathDoneLoop x rest (deliverAll b s)
        else Res.ret () s (b :: rest) := by
  rw [waitForFollowPathDoneLoop]

/-- The wait loop of `waitForPath` never dereferences anything; while the goal is
active it leaves the goal undisturbed; when it returns its condition is false. -/
theorem waitForPathLoop_spec (sc : Script) (s : Sys) (h : s.server_active = true) :
    Undisturbed s (waitForPathLoop sc s).sys
      ∧ (∀ s1, waitForPathLoop sc s ≠ Res.nullDeref s1)
      ∧ (∀ a s1 sc1, waitForPathLoop sc s = Res.ret a s1 sc1 → waitForPathCond s1 = false) := by
  induction sc generalizing s with
  | nil =>
    rw [waitForPathLoop_nil]
    by_cases hc : waitForPathCond s = true
    · simp [hc, Res.sys, Undisturbed.refl s h]
    · simp [hc, Res.sys, Undisturbed.refl s h]
  | cons b rest ih =>
    rw [waitForPathLoop_cons]
    by_cases hc : waitForPathCond s = true
    · simp only [hc, if_true]
      have h1 := deliverAll_undisturbed b s h
      have h2 := ih (deliverAll b s) h1.1
      exact ⟨h1.trans h2.1, h2.2⟩
    · simp [hc, Res.sys, Undisturbed.refl s h]

/-- The wait loop of `waitForFollowPathDone` never dereferences anything; while the
goal is active it leaves the goal undisturbed; it returns only when the done flag
is set or the expiry time is reached, and it is still waiting at the end of the
script only if neither is the case. -/
theorem waitForFollowPathDoneLoop_spec (x : Time) (sc : Script) (s : Sys)
    (h : s.server_active = true) :
    Undisturbed s (waitForFollowPathDoneLoop x sc s).sys
      ∧ (∀ s1, waitForFollowPathDoneLoop x sc s ≠ Res.nullDeref s1)
      ∧ (∀ a s1 sc1, waitForFollowPathDoneLoop x sc s = Res.ret a s1 sc1 →
          s1.follow_path_done_ = true ∨ x ≤ s1.now)
      ∧ (∀ s1, waitForFollowPathDoneLoop x sc s = Res.waiting s1 →
          s1.follow_path_done_ = false ∧ s1.now < x) := by
  induction sc generalizing s with
  | nil =>
    rw [waitForFollowPathDoneLoop_nil]
    by_cases hc : (!s.follow_path_done_ && decide (x > s.now)) = true
    · simp only [hc, if_true, Res.sys]
      refine ⟨Undisturbed.refl s h, by simp, by simp, ?_⟩
      intro s1 h1
      injection h1 with h1
      subst h1
      simpa using hc
    · simp only [hc, Res.sys]
      refine ⟨Undisturbed.refl s h, by simp, ?_, by simp⟩
      intro a s1 sc1 h1
      simp only [Bool.false_eq_true, if_false] at h1
      injection h1 with _ h1 _
      subst h1
      simp at hc
      by_cases hd : s.follow_path_done_ = true
      · exact Or.inl hd
      · exact Or.inr (hc (by simpa using hd))
  | cons b rest ih =>
    rw [waitForFollowPathDoneLoop_cons]
    by_cases hc : (!s.follow_path_done_ && decide (x > s.now)) = true
    · simp only [hc, if_true]
      have h1 := deliverAll_undisturbed b s h
      have h2 := ih (deliverAll b s) h1.1
      exact ⟨h1.trans h2.1, h2.2⟩
    · simp only [hc, Res.sys]
      refine ⟨Undisturbed.refl s h, by simp, ?_, by simp⟩
      intro a s1 sc1 h1
      simp only [Bool.false_eq_true, if_false] at h1
      injection h1 with _ h1 _
      subst h1
      simp at hc
      by_cases hd : s.follow_path_done_ = true
      · exact Or.inl hd
      · exact Or.inr (hc (by simpa using hd))

theorem waitForFollowPathDone_run (timeout : Time) (s : Sys) (sc : Script) :
    waitForFollowPathDone timeout s sc
      = match waitForFollowPathDoneLoop (s.now + timeout) sc s with
        | Res.ret _ s1 sc1 => Res.ret s1.follow_path_done_ s1 sc1
        | Res.nullDeref s1 => Res.nullDeref s1
        | Res.waiting s1 => Res.waiting s1 := by
  simp only [waitForFollowPathDone, bind_run, getSys_run, pure_run]
  cases waitForFollowPathDoneLoop (s.now + timeout) sc s <;> rfl

/-- The follow loop at a poll that finds the follower not done and preemption
requested: cancel, wait for the done flag, warn if it did not come, answer
`setPreempted`, return false. -/
theorem followLoop_preempt (sc : Script) (s : Sys) (hd : s.client_done = false)
    (hp : s.server_preempt_request = true) :
    followLoop sc s
      = match waitForFollowPathDoneLoop (s.now + Duration 10) sc (s.emit Call.cancelGoal) with
        | Res.ret _ s1 sc1 =>
          Res.ret (some false)
            ((if s1.follow_path_done_ then s1
              else s1.emit (Call.rosLog LogMsg.warnNoReactionToCancel)).terminate
              Call.setPreempted) sc1
        | Res.nullDeref s1 => Res.nullDeref s1
        | Res.waiting s1 => Res.waiting s1 := by
  rw [followLoop.eq_def]
  simp only [hd, hp, Bool.not_false, if_true, bind_run, call_run, waitForFollowPathDone_run]
  have hnow : (s.emit Call.cancelGoal).now = s.now := rfl
  rw [hnow]
  cases waitForFollowPathDoneLoop (s.now + Duration 10) sc (s.emit Call.cancelGoal) with
  | ret a s1 sc1 =>
    cases h : s1.follow_path_done_ <;> simp [h]
  | nullDeref s1 => rfl
  | waiting s1 => rfl

theorem followLoop_done (sc : Script) (s : Sys) (hd : s.client_done = true) :
    followLoop sc s = Res.ret none s sc := by
  rw [followLoop.eq_def]
  simp [hd]

theorem followLoop_step (b : Batch) (rest : Script) (s : Sys) (hd : s.client_done = false)
    (hp : s.server_preempt_request = false) :
    followLoop (b :: rest) s = followLoop rest (deliverAll b s) := by
  rw [followLoop]
  simp [hd, hp]

theorem followLoop_end (s : Sys) (hd : s.client_done = false)
    (hp : s.server_preempt_request = false) :
    followLoop [] s = Res.waiting s := by
  rw [followLoop]
  simp [hd, hp]

/-- As long as the polls find the follower not done and no preemption requested,
the follow loop lets the script happen. -/
theorem followLoop_keepsFollowing (pre rest : Script) (s : Sys)
    (h : keepsFollowing pre s = true) :
    followLoop (pre ++ rest) s = followLoop rest (deliverScript pre s) := by
  induction pre generalizing s with
  | nil => rfl
  | cons b pre ih =>
    simp only [keepsFollowing, Bool.and_eq_true, Bool.not_eq_true'] at h
    rw [List.cons_append, followLoop_step b (pre ++ rest) s h.1.1 h.1.2, ih (deliverAll b s) h.2]
    rfl

/-! ## `processGoal` stage by stage -/

theorem waitForPath_run (pose : PoseStamped) (s : Sys) (sc : Script) :
    waitForPath pose s sc
      = waitForPathLoop sc
          (({ s with goal_timestamp_ := pose.header.stamp }).emit (Call.publishGoal pose)) := by
  simp only [waitForPath, bind_run, modifySys_run, call_run]

/-- The body of `processGoal` written out on outcomes. -/
theorem processGoal_run (s : Sys) (sc : Script) (g : NavigateToGoalGoal)
    (hg : s.current_goal_ = some g) :
    processGoal s sc
      = match waitForPath g.goal_pose { s with follow_path_done_ := false } sc with
        | Res.ret _ s1 sc1 =>
          match s1.requested_path_ with
          | none => Res.nullDeref s1
          | some p =>
            if p.poses.length < 2 then
              Res.ret false
                ((s1.emit (Call.rosLog LogMsg.warnInvalidPath)).terminate
                  (Call.setAborted
                    { reached_goal := false, status := NavResultStatus.STATUS_NO_PATH_FOUND }))
                sc1
            else if s1.server_preempt_request = true then
              Res.ret false (s1.terminate Call.setPreempted) sc1
            else
              match followLoop sc1 (dispatched g p s1) with
              | Res.ret (some r) s3 sc3 => Res.ret r s3 sc3
              | Res.ret none s3 sc3 =>
                (match waitForFollowPathDoneLoop (s3.now + Duration 10) sc3 s3 with
                 | Res.ret _ s4 sc4 =>
                   if s4.follow_path_done_ = true then Res.ret true s4 sc4
                   else
                     Res.ret false
                       ((s4.emit (Call.rosLog LogMsg.warnFollowDoneTimeout)).terminate
                         (Call.setAborted { status := NavResultStatus.STATUS_TIMEOUT })) sc4
                 | Res.nullDeref s4 => Res.nullDeref s4
                 | Res.waiting s4 => Res.waiting s4)
              | Res.nullDeref s3 => Res.nullDeref s3
              | Res.waiting s3 => Res.waiting s3
        | Res.nullDeref s1 => Res.nullDeref s1
        | Res.waiting s1 => Res.waiting s1 := by
  have hd : (deref s.current_goal_ : M NavigateToGoalGoal) = deref (some g) := by rw [hg]
  simp only [processGoal, bind_run, modifySys_run, getSys_run, hd, deref_some_run]
  cases waitForPath g.goal_pose { s with follow_path_done_ := false } sc with
  | nullDeref s1 => rfl
  | waiting s1 => rfl
  | ret a s1 sc1 =>
    cases hp : s1.requested_path_ with
    | none => simp [hp]
    | some p =>
      simp only [hp, deref_some_run, ite_run, bind_run, call_run, setAborted_run, pure_run,
        getSys_run, setPreempted_run, modifySys_run]
      by_cases hlen : p.poses.length < 2
      · simp [hlen]
      · by_cases hpre : s1.server_preempt_request = true
        · simp [hlen, hpre]
        · simp only [hlen, hpre, if_false]
          have hdis : (s1.emit (Call.publishFeedback
              { status := NavFeedbackStatus.STATUS_PATH_READY })).sendGoal
              { debug_test := g.debug_test, path := p, velocity := g.velocity }
              DoneCallback.followPathDoneCB true = dispatched g p s1 := rfl
          rw [hdis]
          cases followLoop sc1 (dispatched g p s1) with
          | nullDeref s3 => rfl
          | waiting s3 => rfl
          | ret r s3 sc3 =>
            cases r with
            | some r => rfl
            | none =>
              simp only [waitForFollowPathDone_run, bind_run]
              cases waitForFollowPathDoneLoop (s3.now + Duration 10) sc3 s3 with
              | nullDeref s4 => rfl
              | waiting s4 => rfl
              | ret a4 s4 sc4 =>
                cases h4 : s4.follow_path_done_ <;> simp [h4]

/-- Planning while the goal is active: the pose is published, nothing else is
called but relayed feedback, the goal stays active and stored, and no pointer is
dereferenced. -/
theorem waitForPath_spec (pose : PoseStamped) (s : Sys) (sc : Script)
    (h : s.server_active = true) :
    (waitForPath pose s sc).sys.server_active = true
      ∧ (waitForPath pose s sc).sys.current_goal_ = s.current_goal_
      ∧ ownCalls (waitForPath pose s sc).sys.calls = ownCalls s.calls ++ [Call.publishGoal pose]
      ∧ (∀ s1, waitForPath pose s sc ≠ Res.nullDeref s1) := by
  rw [waitForPath_run]
  have h0 : (({ s with goal_timestamp_ := pose.header.stamp }).emit
      (Call.publishGoal pose)).server_active = true := h
  have hs := waitForPathLoop_spec sc _ h0
  refine ⟨hs.1.1, hs.1.2.1, ?_, hs.2.1⟩
  rw [hs.1.2.2]
  exact ownCalls_own s.calls (Call.publishGoal pose) rfl

theorem dispatched_calls (g : NavigateToGoalGoal) (p : Path) (s : Sys) :
    ownCalls (dispatched g p s).calls
      = ownCalls s.calls ++
        [Call.publishFeedback { status := NavFeedbackStatus.STATUS_PATH_READY },
         Call.sendGoal (followRequest g p)] := by
  simp [dispatched, Sys.sendGoal, Sys.emit, ownCalls, Call.isRelayed]

/-- C4. When the path that `processGoal` holds after the planning wait has fewer
than two poses, `processGoal` logs the warning, answers `setAborted` with
`reached_goal = false` and status `STATUS_NO_PATH_FOUND`, and returns false.
Since the start of `processGoal` exactly this one terminal result was given, no
follow request was sent and no `STATUS_PATH_READY` feedback was published. -/
theorem processGoal_short_path_aborts (s : Sys) (sc : Script) (g : NavigateToGoalGoal)
    (s1 : Sys) (sc1 : Script) (p : Path)
    (hgoal : s.current_goal_ = some g) (hactive : s.server_active = true)
    (hwait : waitForPath g.goal_pose { s with follow_path_done_ := false } sc
      = Res.ret () s1 sc1)
    (hpath : s1.requested_path_ = some p) (hshort : p.poses.length < 2) :
    processGoal s sc
        = Res.ret false
            ((s1.emit (Call.rosLog LogMsg.warnInvalidPath)).terminate
              (Call.setAborted
                { reached_goal := false, status := NavResultStatus.STATUS_NO_PATH_FOUND }))
            sc1
      ∧ (processGoal s sc).sys.calls.filter Call.isTerminal
        = s.calls.filter Call.isTerminal ++
          [Call.setAborted
            { reached_goal := false, status := NavResultStatus.STATUS_NO_PATH_FOUND }]
      ∧ (processGoal s sc).sys.calls.filter Call.isSendGoal = s.calls.filter Call.isSendGoal
      ∧ (processGoal s sc).sys.calls.filter Call.isPathReadyFeedback
        = s.calls.filter Call.isPathReadyFeedback := by
  have hrun : processGoal s sc
      = Res.ret false
          ((s1.emit (Call.rosLog LogMsg.warnInvalidPath)).terminate
            (Call.setAborted
              { reached_goal := false, status := NavResultStatus.STATUS_NO_PATH_FOUND }))
          sc1 := by
    rw [processGoal_run s sc g hgoal, hwait]
    simp [hpath, hshort]
  have hs := waitForPath_spec g.goal_pose { s with follow_path_done_ := false } sc hactive
  rw [hwait] at hs
  have hown : ownCalls s1.calls = ownCalls s.calls ++ [Call.publishGoal g.goal_pose] := hs.2.2.1
  have hfin : ownCalls (processGoal s sc).sys.calls
      = ownCalls s.calls ++ [Call.publishGoal g.goal_pose,
          Call.rosLog LogMsg.warnInvalidPath,
          Call.setAborted
            { reached_goal := false, status := NavResultStatus.STATUS_NO_PATH_FOUND }] := by
    rw [hrun]
    simp only [Res.sys, Sys.terminate, Sys.emit, ownCalls_append, hown]
    simp [ownCalls, Call.isRelayed]
  refine ⟨hrun, ?_, ?_, ?_⟩
  · rw [← filter_ownCalls _ isTerminal_own, hfin, List.filter_append,
      filter_ownCalls _ isTerminal_own]
    rfl
  · rw [← filter_ownCalls _ isSendGoal_own, hfin, List.filter_append,
      filter_ownCalls _ isSendGoal_own]
    simp [Call.isSendGoal]
  · rw [← filter_ownCalls _ isPathReadyFeedback_own, hfin, List.filter_append,
      filter_ownCalls _ isPathReadyFeedback_own]
    simp [Call.isPathReadyFeedback]

/-- Witness of C4: the planner answers the first goal with a path of one pose. -/
theorem processGoal_short_path_aborts_witness :
    processGoal { firstGoalAccepted with current_goal_ := some goalAbort } [[Event.path path1]]
      = Res.ret false
          { firstGoalAccepted with
            current_goal_ := some goalAbort
            requested_path_ := some path1
            server_active := false
            calls := [Call.publishGoal pose5, Call.rosLog LogMsg.warnInvalidPath,
              Call.setAborted
                { reached_goal := false, status := NavResultStatus.STATUS_NO_PATH_FOUND }] }
          [] :=
  (processGoal_short_path_aborts { firstGoalAccepted with current_goal_ := some goalAbort }
    [[Event.path path1]] goalAbort
    { firstGoalAccepted with
      current_goal_ := some goalAbort
      requested_path_ := some path1
      calls := [Call.publishGoal pose5] }
    [] path1 rfl rfl rfl rfl (by decide)).1

/-- C6. Let `processGoal` have dispatched the follow request (path of at least two
poses, no preemption requested before), let the polls of the follow loop let the
batches `pre` happen, and let the next poll find the follower not done and
preemption requested.  Then `cancelGoal` is called exactly once and the done flag
is awaited.  If the wait ends, `processGoal` returns false, the done flag is set or
10 s have passed since the cancellation, the warning is logged exactly when the
flag is not set, and the one terminal result is `setPreempted`.  The wait is still
going on at the end of the script only if the flag is not set and less than 10 s
have passed. -/
theorem processGoal_preempted_while_following (s : Sys) (sc : Script)
    (g : NavigateToGoalGoal) (s1 : Sys) (pre rest : Script) (p : Path)
    (hgoal : s.current_goal_ = some g) (hactive : s.server_active = true)
    (hwait : waitForPath g.goal_pose { s with follow_path_done_ := false } sc
      = Res.ret () s1 (pre ++ rest))
    (hpath : s1.requested_path_ = some p) (hlen : 2 ≤ p.poses.length)
    (hbefore : s1.server_preempt_request = false)
    (hkeep : keepsFollowing pre (dispatched g p s1) = true)
    (hnotdone : (deliverScript pre (dispatched g p s1)).client_done = false)
    (hpreempt : (deliverScript pre (dispatched g p s1)).server_preempt_request = true) :
    (∃ s2 sc2, processGoal s sc = Res.ret false s2 sc2
        ∧ ownCalls s2.calls
          = ownCalls s.calls ++
            [Call.publishGoal g.goal_pose,
             Call.publishFeedback { status := NavFeedbackStatus.STATUS_PATH_READY },
             Call.sendGoal (followRequest g p), Call.cancelGoal] ++
            (if s2.follow_path_done_ = true then []
             else [Call.rosLog LogMsg.warnNoReactionToCancel]) ++ [Call.setPreempted]
        ∧ (s2.calls.filter Call.isCancelGoal).length
          = (s.calls.filter Call.isCancelGoal).length + 1
        ∧ s2.calls.filter Call.isTerminal = s.calls.filter Call.isTerminal ++ [Call.setPreempted]
        ∧ (s2.follow_path_done_ = true
            ∨ (deliverScript pre (dispatched g p s1)).now + Duration 10 ≤ s2.now))
      ∨ (∃ s2, processGoal s sc = Res.waiting s2
        ∧ ownCalls s2.calls
          = ownCalls s.calls ++
            [Call.publishGoal g.goal_pose,
             Call.publishFeedback { status := NavFeedbackStatus.STATUS_PATH_READY },
             Call.sendGoal (followRequest g p), Call.cancelGoal]
        ∧ s2.follow_path_done_ = false
        ∧ s2.now < (deliverScript pre (dispatched g p s1)).now + Duration 10) := by
  have hs := waitForPath_spec g.goal_pose { s with follow_path_done_ := false } sc hactive
  rw [hwait] at hs
  have hown1 : ownCalls s1.calls = ownCalls s.calls ++ [Call.publishGoal g.goal_pose] :=
    hs.2.2.1
  have hact1 : s1.server_active = true := hs.1
  have hact2 : (dispatched g p s1).server_active = true := hact1
  have hu3 := deliverScript_undisturbed pre (dispatched g p s1) hact2
  generalize hs3 : deliverScript pre (dispatched g p s1) = s3 at hu3 hnotdone hpreempt ⊢
  have hown3 : ownCalls s3.calls
      = ownCalls s.calls ++
        [Call.publishGoal g.goal_pose,
         Call.publishFeedback { status := NavFeedbackStatus.STATUS_PATH_READY },
         Call.sendGoal (followRequest g p)] := by
    rw [hu3.2.2, dispatched_calls, hown1]
    simp
  have hact3c : (s3.emit Call.cancelGoal).server_active = true := hu3.1
  have hloop := waitForFollowPathDoneLoop_spec (s3.now + Duration 10) rest
    (s3.emit Call.cancelGoal) hact3c
  have hlen' : ¬ p.poses.length < 2 := by omega
  have hrun : processGoal s sc
      = match waitForFollowPathDoneLoop (s3.now + Duration 10) rest
            (s3.emit Call.cancelGoal) with
        | Res.ret _ s4 sc4 =>
          Res.ret false
            ((if s4.follow_path_done_ then s4
              else s4.emit (Call.rosLog LogMsg.warnNoReactionToCancel)).terminate
              Call.setPreempted) sc4
        | Res.nullDeref s4 => Res.nullDeref s4
        | Res.waiting s4 => Res.waiting s4 := by
    rw [processGoal_run s sc g hgoal, hwait]
    simp only [hpath, hlen', hbefore, if_false, Bool.false_eq_true]
    rw [followLoop_keepsFollowing pre rest _ hkeep, hs3,
      followLoop_preempt rest s3 hnotdone hpreempt]
    cases waitForFollowPathDoneLoop (s3.now + Duration 10) rest (s3.emit Call.cancelGoal)
      <;> rfl
  have hown3c : ownCalls (s3.emit Call.cancelGoal).calls
      = ownCalls s.calls ++
        [Call.publishGoal g.goal_pose,
         Call.publishFeedback { status := NavFeedbackStatus.STATUS_PATH_READY },
         Call.sendGoal (followRequest g p), Call.cancelGoal] := by
    simp only [Sys.emit, ownCalls_append, hown3]
    simp [ownCalls, Call.isRelayed]
  cases hw : waitForFollowPathDoneLoop (s3.now + Duration 10) rest (s3.emit Call.cancelGoal) with
  | nullDeref s4 => exact absurd hw (hloop.2.1 s4)
  | waiting s4 =>
    right
    rw [hw] at hrun hloop
    refine ⟨s4, hrun, ?_, (hloop.2.2.2 s4 rfl).1, (hloop.2.2.2 s4 rfl).2⟩
    rw [← hown3c]
    exact hloop.1.2.2
  | ret a s4 sc4 =>
    left
    rw [hw] at hrun hloop
    have hown4 : ownCalls s4.calls
        = ownCalls s.calls ++
          [Call.publishGoal g.goal_pose,
           Call.publishFeedback { status := NavFeedbackStatus.STATUS_PATH_READY },
           Call.sendGoal (followRequest g p), Call.cancelGoal] := by
      rw [← hown3c]
      exact hloop.1.2.2
    have hexit := hloop.2.2.1 a s4 sc4 rfl
    refine ⟨_, sc4, hrun, ?_⟩
    have hfin : ownCalls ((if s4.follow_path_done_ = true then s4
          else s4.emit (Call.rosLog LogMsg.warnNoReactionToCancel)).terminate
          Call.setPreempted).calls
        = ownCalls s.calls ++
          [Call.publishGoal g.goal_pose,
           Call.publishFeedback { status := NavFeedbackStatus.STATUS_PATH_READY },
           Call.sendGoal (followRequest g p), Call.cancelGoal] ++
          (if s4.follow_path_done_ = true then []
           else [Call.rosLog LogMsg.warnNoReactionToCancel]) ++ [Call.setPreempted] := by
      cases hd : s4.follow_path_done_
      · simp only [Bool.false_eq_true, if_false, Sys.terminate, Sys.emit, ownCalls_append,
          hown4]
        simp [ownCalls, Call.isRelayed]
      · simp only [if_true, Sys.terminate, ownCalls_append, hown4]
        simp [ownCalls, Call.isRelayed]
    have hdone : ((if s4.follow_path_done_ = true then s4
          else s4.emit (Call.rosLog LogMsg.warnNoReactionToCancel)).terminate
          Call.setPreempted).follow_path_done_ = s4.follow_path_done_ := by
      by_cases hd : s4.follow_path_done_ = true <;> simp [hd, Sys.terminate, Sys.emit]
    have hnow : ((if s4.follow_path_done_ = true then s4
          else s4.emit (Call.rosLog LogMsg.warnNoReactionToCancel)).terminate
          Call.setPreempted).now = s4.now := by
      by_cases hd : s4.follow_path_done_ = true <;> simp [hd, Sys.terminate, Sys.emit]
    refine ⟨?_, ?_, ?_, ?_⟩
    · rw [hfin, hdone]
    · rw [← filter_ownCalls _ isCancelGoal_own, hfin, ← filter_ownCalls _ isCancelGoal_own s.calls]
      by_cases hd : s4.follow_path_done_ = true <;>
        simp [hd, List.filter_append, Call.isCancelGoal]
    · rw [← filter_ownCalls _ isTerminal_own, hfin, ← filter_ownCalls _ isTerminal_own s.calls]
      by_cases hd : s4.follow_path_done_ = true <;>
        simp [hd, List.filter_append, Call.isTerminal]
    · rw [hdone, hnow]
      exact hexit

/-- Witness of C6: the goal is cancelled one second after the follow request was
sent and the follower does not react; `processGoal` returns false after
`cancelGoal`, the warning and `setPreempted`. -/
theorem processGoal_preempted_while_following_witness :
    ∃ s2 sc2, processGoal holdingGoal cancelledWhileFollowing = Res.ret false s2 sc2
      ∧ ownCalls s2.calls
        = [Call.publishGoal pose5,
           Call.publishFeedback { status := NavFeedbackStatus.STATUS_PATH_READY },
           Call.sendGoal (followRequest goalReplan path2), Call.cancelGoal] ++
          (if s2.follow_path_done_ = true then []
           else [Call.rosLog LogMsg.warnNoReactionToCancel]) ++ [Call.setPreempted]
      ∧ s2.calls.filter Call.isTerminal = [Call.setPreempted] := by
  rcases processGoal_preempted_while_following holdingGoal cancelledWhileFollowing goalReplan
      { holdingGoal with
        requested_path_ := some path2
        calls := [Call.publishGoal pose5] }
      [[Event.clock 1000000000], [Event.cancelRequest]] [[Event.clock 10000000000]] path2
      rfl rfl rfl rfl (by decide) rfl rfl rfl rfl with
    ⟨s2, sc2, h1, h2, -, h4, -⟩ | ⟨s2, h, -⟩
  · exact ⟨s2, sc2, h1, h2, h4⟩
  · have h0 : processGoal holdingGoal cancelledWhileFollowing
        = Res.ret false (processGoal holdingGoal cancelledWhileFollowing).sys [] := rfl
    rw [h0] at h
    cases h

/-- C1 fails on the code. In abort mode the execute-callback ignores the value
`processGoal` returns.  A second goal in abort mode that the planner answers with a
path of one pose is answered twice: `setAborted` with `STATUS_NO_PATH_FOUND` inside
`processGoal`, then `setSucceeded` by `handleFollowPathResult` from the follower
result of the goal before.  On a fresh controller the same goal is answered
`setAborted` and then the null `follow_path_result_` is dereferenced. -/
theorem abort_mode_short_path_answered_twice :
    navToGoalActionCallback goalAbort secondGoalAccepted [[Event.path path1]]
        = Res.ret ()
            { secondGoalAccepted with
              current_goal_ := some goalAbort
              requested_path_ := some path1
              follow_path_done_ := false
              server_active := false
              calls := secondGoalAccepted.calls ++
                [Call.publishGoal pose5, Call.rosLog LogMsg.warnInvalidPath,
                 Call.setAborted
                   { reached_goal := false, status := NavResultStatus.STATUS_NO_PATH_FOUND },
                 Call.setSucceeded
                   { reached_goal := true, status := NavResultStatus.STATUS_SUCCESS,
                     debug_test := 3 }] }
            []
      ∧ navToGoalActionCallback goalAbort firstGoalAccepted [[Event.path path1]]
        = Res.nullDeref
            { firstGoalAccepted with
              current_goal_ := some goalAbort
              requested_path_ := some path1
              server_active := false
              calls :=
                [Call.publishGoal pose5, Call.rosLog LogMsg.warnInvalidPath,
                 Call.setAborted
                   { reached_goal := false,
                     status := NavResultStatus.STATUS_NO_PATH_FOUND }] } :=
  ⟨rfl, rfl⟩

/-- A goal is cancelled while the planner is still working, before any follow
request.  `processGoal` tests the size of the stored path before it tests for
preemption, and the stored path is the one of the goal before (one pose): the
goal is answered `setAborted` with `STATUS_NO_PATH_FOUND`, not `setPreempted`.  On
a fresh controller the stored path is null and is dereferenced, so the goal gets
no answer. -/
theorem cancel_during_planning_reads_stale_path :
    navToGoalActionCallback goalReplan goalAcceptedAfterShortPath [[Event.cancelRequest]]
        = Res.ret ()
            { goalAcceptedAfterShortPath with
              goal_timestamp_ := 5
              server_active := false
              server_preempt_request := true
              calls := goalAcceptedAfterShortPath.calls ++
                [Call.publishGoal pose5, Call.rosLog LogMsg.warnInvalidPath,
                 Call.setAborted
                   { reached_goal := false,
                     status := NavResultStatus.STATUS_NO_PATH_FOUND }] }
            []
      ∧ navToGoalActionCallback goalReplan firstGoalAccepted [[Event.cancelRequest]]
        = Res.nullDeref
            { firstGoalAccepted with
              goal_timestamp_ := 5
              current_goal_ := some goalReplan
              server_preempt_request := true
              calls := [Call.publishGoal pose5] } :=
  ⟨rfl, rfl⟩

/-! ## Quiet events -/

/-- Two states with the same frame agree on every member and flag. -/
theorem frame_fields {s1 s : Sys} (h : s1.frame = s.frame) :
    s1.goal_timestamp_ = s.goal_timestamp_ ∧ s1.unexpected_path_ = s.unexpected_path_
      ∧ s1.current_goal_ = s.current_goal_ ∧ s1.requested_path_ = s.requested_path_
      ∧ s1.follow_path_done_ = s.follow_path_done_
      ∧ s1.follow_path_final_state_ = s.follow_path_final_state_
      ∧ s1.follow_path_result_ = s.follow_path_result_
      ∧ s1.server_active = s.server_active
      ∧ s1.server_preempt_request = s.server_preempt_request
      ∧ s1.server_new_goal = s.server_new_goal ∧ s1.client_done = s.client_done
      ∧ s1.client_done_cb = s.client_done_cb ∧ s1.client_feedback_cb = s.client_feedback_cb
      ∧ s1.ros_ok = s.ros_ok := by
  have h1 := congrArg Sys.goal_timestamp_ h
  have h2 := congrArg Sys.unexpected_path_ h
  have h3 := congrArg Sys.current_goal_ h
  have h4 := congrArg Sys.requested_path_ h
  have h5 := congrArg Sys.follow_path_done_ h
  have h6 := congrArg Sys.follow_path_final_state_ h
  have h7 := congrArg Sys.follow_path_result_ h
  have h8 := congrArg Sys.server_active h
  have h9 := congrArg Sys.server_preempt_request h
  have h10 := congrArg Sys.server_new_goal h
  have h11 := congrArg Sys.client_done h
  have h12 := congrArg Sys.client_done_cb h
  have h13 := congrArg Sys.client_feedback_cb h
  have h14 := congrArg Sys.ros_ok h
  exact ⟨h1, h2, h3, h4, h5, h6, h7, h8, h9, h10, h11, h12, h13, h14⟩

theorem waitForPathLoop_exit (sc : Script) (s : Sys) (h : waitForPathCond s = false) :
    waitForPathLoop sc s = Res.ret () s sc := by
  cases sc with
  | nil => rw [waitForPathLoop_nil]; simp [h]
  | cons b rest => rw [waitForPathLoop_cons]; simp [h]

/-- What `handleFollowPathResult` does with a recorded follower result: it ends the
goal by the calls `finalCalls` of the recorded final state. -/
theorem handleFollowPathResult_run (s : Sys) (sc : Script) (r : FollowPathResult)
    (hres : s.follow_path_result_ = some r) :
    handleFollowPathResult s sc
      = Res.ret ()
          { s with
            calls := s.calls ++ finalCalls s.follow_path_final_state_ (navResultOf r)
            server_active := false } sc := by
  have hd : (deref s.follow_path_result_ : M FollowPathResult) = deref (some r) := by rw [hres]
  simp only [handleFollowPathResult, bind_run, getSys_run, hd, deref_some_run]
  cases h : s.follow_path_final_state_ <;>
    simp [h, finalCalls, navResultOf, Sys.terminate, Sys.emit]

theorem handleFollowPathResult_null (s : Sys) (sc : Script)
    (hres : s.follow_path_result_ = none) :
    handleFollowPathResult s sc = Res.nullDeref s := by
  have hd : (deref s.follow_path_result_ : M FollowPathResult) = deref none := by rw [hres]
  simp only [handleFollowPathResult, bind_run, getSys_run, hd, deref_none_run]

/-! ## The replan loop -/

/-- One turn of the replan loop written out on outcomes. -/
theorem replanLoop_run (fuel : Nat) (s : Sys) (sc : Script) :
    replanLoop (fuel + 1) s sc
      = match processGoal s sc with
        | Res.ret false s1 sc1 => Res.ret false s1 sc1
        | Res.ret true s1 sc1 =>
          (match s1.follow_path_result_ with
           | none => Res.nullDeref s1
           | some r =>
             if r.status = FollowResultStatus.MOTION_STATUS_SUCCESS then Res.ret true s1 sc1
             else
               replanLoop fuel
                 ((s1.emit (Call.rosLog LogMsg.warnReplan)).emit
                   (Call.publishFeedback { status := NavFeedbackStatus.STATUS_REPLAN })) sc1)
        | Res.nullDeref s1 => Res.nullDeref s1
        | Res.waiting s1 => Res.waiting s1 := by
  simp only [replanLoop, bind_run]
  cases processGoal s sc with
  | nullDeref s1 => rfl
  | waiting s1 => rfl
  | ret b s1 sc1 =>
    cases b with
    | false => simp
    | true =>
      simp only [Bool.not_true, Bool.false_eq_true, if_false, ite_run, bind_run, getSys_run]
      cases hr : s1.follow_path_result_ with
      | none => simp
      | some r =>
        by_cases hs : r.status = FollowResultStatus.MOTION_STATUS_SUCCESS
        · simp [hs]
        · simp [hs]

theorem navToGoalActionCallback_abort (goal : NavigateToGoalGoal) (s : Sys) (sc : Script)
    (hmode : goal.failure_mode = FailureMode.FAILURE_MODE_ABORT) :
    navToGoalActionCallback goal s sc
      = match processGoal (entered goal s) sc with
        | Res.ret _ s1 sc1 => handleFollowPathResult s1 sc1
        | Res.nullDeref s1 => Res.nullDeref s1
        | Res.waiting s1 => Res.waiting s1 := by
  cases hu : s.unexpected_path_ <;>
    simp only [navToGoalActionCallback, bind_run, getSys_run, ite_run, call_run, pure_run,
      modifySys_run, hmode, hu, entered, if_true, if_false, Bool.false_eq_true] <;>
    split <;> simp [*]

theorem navToGoalActionCallback_replan (goal : NavigateToGoalGoal) (s : Sys) (sc : Script)
    (hmode : goal.failure_mode = FailureMode.FAILURE_MODE_REPLAN) :
    navToGoalActionCallback goal s sc
      = match replanLoop (sc.length + 1) (entered goal s) sc with
        | Res.ret true s1 sc1 => handleFollowPathResult s1 sc1
        | Res.ret false s1 sc1 => Res.ret () s1 sc1
        | Res.nullDeref s1 => Res.nullDeref s1
        | Res.waiting s1 => Res.waiting s1 := by
  cases hu : s.unexpected_path_ <;>
    simp only [navToGoalActionCallback, bind_run, getSys_run, ite_run, call_run, pure_run,
      modifySys_run, hmode, hu, entered, if_true, if_false, Bool.false_eq_true] <;>
    split <;> simp only [*] <;> first | rfl | (rename_i b _ _ _; cases b <;> rfl)

/-! ## Counting the calls of the replan loop -/

theorem entered_calls (goal : NavigateToGoalGoal) (s : Sys) :
    ownCalls (entered goal s).calls
      = ownCalls s.calls ++ (if s.unexpected_path_ = true then [Call.cancelGoal] else []) := by
  cases hu : s.unexpected_path_ <;> simp [entered, hu, Sys.emit, ownCalls, Call.isRelayed]

theorem entered_active (goal : NavigateToGoalGoal) (s : Sys) :
    (entered goal s).server_active = s.server_active := by
  cases hu : s.unexpected_path_ <;> simp [entered, hu, Sys.emit]

theorem NoRequests.nil : NoRequests [] := ⟨rfl, rfl⟩

/-- The follow loop while the goal is active: it makes no plan request and no
follow request, and dereferences nothing; when it is left by its condition the
goal is still active. -/
theorem followLoop_spec (sc : Script) (s : Sys) (h : s.server_active = true) :
    (∃ tail, ownCalls (followLoop sc s).sys.calls = ownCalls s.calls ++ tail ∧ NoRequests tail)
      ∧ (∀ s1 sc1, followLoop sc s = Res.ret none s1 sc1 →
          s1.server_active = true ∧ ownCalls s1.calls = ownCalls s.calls)
      ∧ (∀ s1, followLoop sc s ≠ Res.nullDeref s1) := by
  induction sc generalizing s with
  | nil =>
    by_cases hd : s.client_done = true
    · rw [followLoop_done [] s hd]
      exact ⟨⟨[], by simp [Res.sys], NoRequests.nil⟩,
        fun s1 sc1 h1 => by injection h1 with _ h1 _; subst h1; exact ⟨h, rfl⟩,
        fun s1 => by simp⟩
    · have hd' : s.client_done = false := by simpa using hd
      by_cases hp : s.server_preempt_request = true
      · rw [followLoop_preempt [] s hd' hp]
        have hl := waitForFollowPathDoneLoop_spec (s.now + Duration 10) []
          (s.emit Call.cancelGoal) h
        cases hw : waitForFollowPathDoneLoop (s.now + Duration 10) [] (s.emit Call.cancelGoal) with
        | nullDeref s4 => exact absurd hw (hl.2.1 s4)
        | waiting s4 =>
          rw [hw] at hl
          refine ⟨⟨[Call.cancelGoal], ?_, by simp [NoRequests, Call.isPublishGoal, Call.isSendGoal]⟩,
            fun s1 sc1 h1 => by simp at h1, fun s1 => by simp⟩
          simp only [Res.sys] at hl ⊢
          rw [hl.1.2.2]
          exact ownCalls_own s.calls Call.cancelGoal rfl
        | ret a s4 sc4 =>
          rw [hw] at hl
          simp only [Res.sys] at hl ⊢
          have h4 : ownCalls s4.calls = ownCalls s.calls ++ [Call.cancelGoal] := by
            rw [hl.1.2.2]
            exact ownCalls_own s.calls Call.cancelGoal rfl
          refine ⟨?_, fun s1 sc1 h1 => by simp at h1, fun s1 => by simp⟩
          cases hd4 : s4.follow_path_done_
          · refine ⟨[Call.cancelGoal, Call.rosLog LogMsg.warnNoReactionToCancel,
              Call.setPreempted], ?_, by simp [NoRequests, Call.isPublishGoal, Call.isSendGoal]⟩
            simp only [Bool.false_eq_true, if_false, Sys.terminate, Sys.emit, ownCalls_append, h4]
            simp [ownCalls, Call.isRelayed]
          · refine ⟨[Call.cancelGoal, Call.setPreempted], ?_,
              by simp [NoRequests, Call.isPublishGoal, Call.isSendGoal]⟩
            simp only [if_true, Sys.terminate, ownCalls_append, h4]
            simp [ownCalls, Call.isRelayed]
      · have hp' : s.server_preempt_request = false := by simpa using hp
        rw [followLoop_end s hd' hp']
        exact ⟨⟨[], by simp [Res.sys], NoRequests.nil⟩, fun s1 sc1 h1 => by simp at h1,
          fun s1 => by simp⟩
  | cons b rest ih =>
    by_cases hd : s.client_done = true
    · rw [followLoop_done (b :: rest) s hd]
      exact ⟨⟨[], by simp [Res.sys], NoRequests.nil⟩,
        fun s1 sc1 h1 => by injection h1 with _ h1 _; subst h1; exact ⟨h, rfl⟩,
        fun s1 => by simp⟩
    · have hd' : s.client_done = false := by simpa using hd
      by_cases hp : s.server_preempt_request = true
      · rw [followLoop_preempt (b :: rest) s hd' hp]
        have hl := waitForFollowPathDoneLoop_spec (s.now + Duration 10) (b :: rest)
          (s.emit Call.cancelGoal) h
        cases hw : waitForFollowPathDoneLoop (s.now + Duration 10) (b :: rest)
            (s.emit Call.cancelGoal) with
        | nullDeref s4 => exact absurd hw (hl.2.1 s4)
        | waiting s4 =>
          rw [hw] at hl
          refine ⟨⟨[Call.cancelGoal], ?_, by simp [NoRequests, Call.isPublishGoal, Call.isSendGoal]⟩,
            fun s1 sc1 h1 => by simp at h1, fun s1 => by simp⟩
          simp only [Res.sys] at hl ⊢
          rw [hl.1.2.2]
          exact ownCalls_own s.calls Call.cancelGoal rfl
        | ret a s4 sc4 =>
          rw [hw] at hl
          simp only [Res.sys] at hl ⊢
          have h4 : ownCalls s4.calls = ownCalls s.calls ++ [Call.cancelGoal] := by
            rw [hl.1.2.2]
            exact ownCalls_own s.calls Call.cancelGoal rfl
          refine ⟨?_, fun s1 sc1 h1 => by simp at h1, fun s1 => by simp⟩
          cases hd4 : s4.follow_path_done_
          · refine ⟨[Call.cancelGoal, Call.rosLog LogMsg.warnNoReactionToCancel,
              Call.setPreempted], ?_, by simp [NoRequests, Call.isPublishGoal, Call.isSendGoal]⟩
            simp only [Bool.false_eq_true, if_false, Sys.terminate, Sys.emit, ownCalls_append, h4]
            simp [ownCalls, Call.isRelayed]
          · refine ⟨[Call.cancelGoal, Call.setPreempted], ?_,
              by simp [NoRequests, Call.isPublishGoal, Call.isSendGoal]⟩
            simp only [if_true, Sys.terminate, ownCalls_append, h4]
            simp [ownCalls, Call.isRelayed]
      · have hp' : s.server_preempt_request = false := by simpa using hp
        rw [followLoop_step b rest s hd' hp']
        have hu := deliverAll_undisturbed b s h
        obtain ⟨⟨tail, h1, h2⟩, h3, h4⟩ := ih (deliverAll b s) hu.1
        refine ⟨⟨tail, ?_, h2⟩, ?_, h4⟩
        · rw [h1, hu.2.2]
        · intro s1 sc1 hs1
          have := h3 s1 sc1 hs1
          exact ⟨this.1, this.2.trans hu.2.2⟩

theorem finalCalls_noRequests (st : GoalState) (r : NavigateToGoalResult) :
    NoRequests (finalCalls st r) := by
  cases st <;> simp [NoRequests, finalCalls, Call.isPublishGoal, Call.isSendGoal]

theorem finalCalls_own (st : GoalState) (r : NavigateToGoalResult) :
    ownCalls (finalCalls st r) = finalCalls st r := by
  cases st <;> simp [finalCalls, ownCalls, Call.isRelayed]

/-- What `handleFollowPathResult` adds to the record: no plan request and no follow
request. -/
theorem handleFollowPathResult_calls (s : Sys) (sc : Script) :
    ∃ extra, (handleFollowPathResult s sc).sys.calls = s.calls ++ extra ∧ NoRequests extra := by
  cases hres : s.follow_path_result_ with
  | none =>
    rw [handleFollowPathResult_null s sc hres]
    exact ⟨[], by simp [Res.sys], NoRequests.nil⟩
  | some r =>
    rw [handleFollowPathResult_run s sc r hres]
    exact ⟨_, rfl, finalCalls_noRequests _ _⟩

/-- Counterexample to C5 as stated. A goal in replan mode; the planner answers with
a path of one pose and the goal is cancelled before the execute-callback polls
again, so before any follow request.  The size of the path is tested first: the
goal is answered `setAborted` with `STATUS_NO_PATH_FOUND`, not `setPreempted`. -/
theorem cancel_with_short_path_answered_aborted :
    navToGoalActionCallback goalReplan secondGoalAccepted
        [[Event.path path1, Event.cancelRequest]]
      = Res.ret ()
          { secondGoalAccepted with
            current_goal_ := some goalReplan
            requested_path_ := some path1
            follow_path_done_ := false
            server_active := false
            server_preempt_request := true
            calls := secondGoalAccepted.calls ++
              [Call.publishGoal pose5, Call.rosLog LogMsg.warnInvalidPath,
               Call.setAborted
                 { reached_goal := false, status := NavResultStatus.STATUS_NO_PATH_FOUND }] }
          [] :=
  rfl

/-- C5, amended. When preemption has been requested by the time the planning wait
of `processGoal` ends (during the wait, or together with the arrival of the path)
and the stored path has at least two poses, `processGoal` answers `setPreempted`
as the one terminal result, returns false and sends no follow request.  Whenever
preemption has been requested by then, no follow request is sent, whatever the
stored path is. -/
theorem processGoal_preempted_before_dispatch (s : Sys) (sc : Script)
    (g : NavigateToGoalGoal) (s1 : Sys) (sc1 : Script)
    (hgoal : s.current_goal_ = some g) (hactive : s.server_active = true)
    (hwait : waitForPath g.goal_pose { s with follow_path_done_ := false } sc
      = Res.ret () s1 sc1)
    (hpreempt : s1.server_preempt_request = true) :
    (processGoal s sc).sys.calls.filter Call.isSendGoal = s.calls.filter Call.isSendGoal
      ∧ (∀ p, s1.requested_path_ = some p → 2 ≤ p.poses.length →
          processGoal s sc = Res.ret false (s1.terminate Call.setPreempted) sc1
            ∧ (processGoal s sc).sys.calls.filter Call.isTerminal
              = s.calls.filter Call.isTerminal ++ [Call.setPreempted]) := by
  have hs := waitForPath_spec g.goal_pose { s with follow_path_done_ := false } sc hactive
  rw [hwait] at hs
  have hown1 : ownCalls s1.calls = ownCalls s.calls ++ [Call.publishGoal g.goal_pose] :=
    hs.2.2.1
  have hsend1 : s1.calls.filter Call.isSendGoal = s.calls.filter Call.isSendGoal := by
    rw [← filter_ownCalls _ isSendGoal_own, hown1, List.filter_append,
      filter_ownCalls _ isSendGoal_own]
    simp [Call.isSendGoal]
  refine ⟨?_, ?_⟩
  · rw [processGoal_run s sc g hgoal, hwait]
    dsimp only
    cases hp : s1.requested_path_ with
    | none => exact hsend1
    | some p =>
      dsimp only
      by_cases hlen : p.poses.length < 2
      · rw [if_pos hlen]
        simp only [Res.sys, Sys.terminate, Sys.emit, List.filter_append, hsend1]
        simp [Call.isSendGoal]
      · rw [if_neg hlen, if_pos hpreempt]
        simp only [Res.sys, Sys.terminate, List.filter_append, hsend1]
        simp [Call.isSendGoal]
  · intro p hp hlen
    have hlen' : ¬ p.poses.length < 2 := by omega
    have hrun : processGoal s sc = Res.ret false (s1.terminate Call.setPreempted) sc1 := by
      rw [processGoal_run s sc g hgoal, hwait]
      dsimp only
      rw [hp]
      dsimp only
      rw [if_neg hlen', if_pos hpreempt]
    refine ⟨hrun, ?_⟩
    rw [hrun]
    simp only [Res.sys, Sys.terminate, List.filter_append]
    rw [← filter_ownCalls _ isTerminal_own s1.calls, hown1, List.filter_append,
      filter_ownCalls _ isTerminal_own]
    simp [Call.isTerminal]

/-- Witness of C5, amended: the second goal is cancelled while the planner is still
working; the path of the goal before has two poses. -/
theorem processGoal_preempted_before_dispatch_witness :
    processGoal { secondGoalAccepted with current_goal_ := some goalReplan }
        [[Event.cancelRequest]]
      = Res.ret false
          { secondGoalAccepted with
            goal_timestamp_ := 5
            current_goal_ := some goalReplan
            follow_path_done_ := false
            server_active := false
            server_preempt_request := true
            calls := secondGoalAccepted.calls ++ [Call.publishGoal pose5, Call.setPreempted] }
          [] :=
  ((processGoal_preempted_before_dispatch
    { secondGoalAccepted with current_goal_ := some goalReplan } [[Event.cancelRequest]]
    goalReplan
    { secondGoalAccepted with
      goal_timestamp_ := 5
      current_goal_ := some goalReplan
      follow_path_done_ := false
      server_preempt_request := true
      calls := secondGoalAccepted.calls ++ [Call.publishGoal pose5] }
    [] rfl rfl rfl rfl).2 path2 rfl (by decide)).1

/-! ## The fuel of the replan loop is never used up -/

theorem waitForPathLoop_rest (sc : Script) (s : Sys) (a : Unit) (s1 : Sys) (sc1 : Script)
    (h : waitForPathLoop sc s = Res.ret a s1 sc1) : sc1.length ≤ sc.length := by
  induction sc generalizing s with
  | nil =>
    rw [waitForPathLoop_nil] at h
    by_cases hc : waitForPathCond s = true
    · simp [hc] at h
    · simp only [hc, Bool.false_eq_true, if_false] at h
      injection h with _ _ h3
      rw [← h3]
  | cons b rest ih =>
    rw [waitForPathLoop_cons] at h
    by_cases hc : waitForPathCond s = true
    · simp only [hc, if_true] at h
      have := ih _ h
      simp only [List.length_cons]
      omega
    · simp only [hc, Bool.false_eq_true, if_false] at h
      injection h with _ _ h3
      rw [← h3]

theorem waitForFollowPathDoneLoop_rest (x : Time) (sc : Script) (s : Sys) (a : Unit)
    (s1 : Sys) (sc1 : Script) (h : waitForFollowPathDoneLoop x sc s = Res.ret a s1 sc1) :
    sc1.length ≤ sc.length := by
  induction sc generalizing s with
  | nil =>
    rw [waitForFollowPathDoneLoop_nil] at h
    by_cases hc : (!s.follow_path_done_ && decide (x > s.now)) = true
    · simp [hc] at h
    · simp only [hc, Bool.false_eq_true, if_false] at h
      injection h with _ _ h3
      rw [← h3]
  | cons b rest ih =>
    rw [waitForFollowPathDoneLoop_cons] at h
    by_cases hc : (!s.follow_path_done_ && decide (x > s.now)) = true
    · simp only [hc, if_true] at h
      have := ih _ h
      simp only [List.length_cons]
      omega
    · simp only [hc, Bool.false_eq_true, if_false] at h
      injection h with _ _ h3
      rw [← h3]

/-- After `sendGoal` the follow loop is left by its condition only after at least
one batch has happened. -/
theorem followLoop_consumes (sc : Script) (s : Sys) (s1 : Sys) (sc1 : Script)
    (hd : s.client_done = false) (h : followLoop sc s = Res.ret none s1 sc1) :
    sc1.length < sc.length := by
  induction sc generalizing s with
  | nil =>
    by_cases hp : s.server_preempt_request = true
    · rw [followLoop_preempt [] s hd hp] at h
      cases hw : waitForFollowPathDoneLoop (s.now + Duration 10) [] (s.emit Call.cancelGoal) <;>
        simp [hw] at h
    · rw [followLoop_end s hd (by simpa using hp)] at h
      simp at h
  | cons b rest ih =>
    by_cases hp : s.server_preempt_request = true
    · rw [followLoop_preempt (b :: rest) s hd hp] at h
      cases hw : waitForFollowPathDoneLoop (s.now + Duration 10) (b :: rest)
          (s.emit Call.cancelGoal) <;> simp [hw] at h
    · rw [followLoop_step b rest s hd (by simpa using hp)] at h
      by_cases hd1 : (deliverAll b s).client_done = true
      · rw [followLoop_done rest _ hd1] at h
        injection h with _ _ h3
        rw [← h3]
        simp
      · have := ih (deliverAll b s) (by simpa using hd1) h
        simp only [List.length_cons]
        omega

/-- The follow loop returns from inside only with false. -/
theorem followLoop_some_false (sc : Script) (s : Sys) (r : Bool) (s1 : Sys) (sc1 : Script)
    (h : followLoop sc s = Res.ret (some r) s1 sc1) : r = false := by
  induction sc generalizing s with
  | nil =>
    by_cases hd : s.client_done = true
    · rw [followLoop_done [] s hd] at h
      simp at h
    · have hd' : s.client_done = false := by simpa using hd
      by_cases hp : s.server_preempt_request = true
      · rw [followLoop_preempt [] s hd' hp] at h
        cases hw : waitForFollowPathDoneLoop (s.now + Duration 10) [] (s.emit Call.cancelGoal) <;>
          simp [hw] at h
        exact h.1
      · rw [followLoop_end s hd' (by simpa using hp)] at h
        simp at h
  | cons b rest ih =>
    by_cases hd : s.client_done = true
    · rw [followLoop_done (b :: rest) s hd] at h
      simp at h
    · have hd' : s.client_done = false := by simpa using hd
      by_cases hp : s.server_preempt_request = true
      · rw [followLoop_preempt (b :: rest) s hd' hp] at h
        cases hw : waitForFollowPathDoneLoop (s.now + Duration 10) (b :: rest)
            (s.emit Call.cancelGoal) <;> simp [hw] at h
        exact h.1
      · rw [followLoop_step b rest s hd' (by simpa using hp)] at h
        exact ih _ h

/-- A call of `processGoal` that returns true has let at least one batch happen. -/
theorem processGoal_consumes (s : Sys) (sc : Script) (s1 : Sys) (sc1 : Script)
    (h : processGoal s sc = Res.ret true s1 sc1) : sc1.length < sc.length := by
  cases hg : s.current_goal_ with
  | none =>
    have hd : (deref s.current_goal_ : M NavigateToGoalGoal) = deref none := by rw [hg]
    simp [processGoal, hd] at h
  | some g =>
    rw [processGoal_run s sc g hg] at h
    cases hw : waitForPath g.goal_pose { s with follow_path_done_ := false } sc with
    | nullDeref s2 => simp [hw] at h
    | waiting s2 => simp [hw] at h
    | ret a s2 sc2 =>
      rw [waitForPath_run] at hw
      have hl2 := waitForPathLoop_rest _ _ a s2 sc2 hw
      rw [← waitForPath_run] at hw
      rw [hw] at h
      dsimp only at h
      cases hp : s2.requested_path_ with
      | none => simp [hp] at h
      | some p =>
        rw [hp] at h
        dsimp only at h
        by_cases hlen : p.poses.length < 2
        · simp [hlen] at h
        · by_cases hpre : s2.server_preempt_request = true
          · simp [hlen, hpre] at h
          · rw [if_neg hlen, if_neg hpre] at h
            cases hf : followLoop sc2 (dispatched g p s2) with
            | nullDeref s3 => simp [hf] at h
            | waiting s3 => simp [hf] at h
            | ret r s3 sc3 =>
              rw [hf] at h
              cases r with
              | some r =>
                dsimp only at h
                injection h with h1 h2 h3
                subst h1
                exact absurd (followLoop_some_false sc2 _ true s3 sc3 hf) (by decide)
              | none =>
                have hl3 := followLoop_consumes sc2 (dispatched g p s2) s3 sc3 rfl hf
                dsimp only at h
                cases hw4 : waitForFollowPathDoneLoop (s3.now + Duration 10) sc3 s3 with
                | nullDeref s4 => simp [hw4] at h
                | waiting s4 => simp [hw4] at h
                | ret a4 s4 sc4 =>
                  have hl4 := waitForFollowPathDoneLoop_rest _ _ _ a4 s4 sc4 hw4
                  rw [hw4] at h
                  dsimp only at h
                  by_cases hd4 : s4.follow_path_done_ = true
                  · rw [if_pos hd4] at h
                    injection h with _ _ h3
                    rw [← h3]
                    omega
                  · rw [if_neg hd4] at h
                    simp at h

/-- With more fuel than the script has batches, the replan loop does what it does
with any other such fuel: an outcome `Res.waiting` always comes from a wait loop
that the script left waiting. -/
theorem replanLoop_fuel (n : Nat) (s : Sys) (sc : Script) (h : sc.length < n) :
    replanLoop n s sc = replanLoop (sc.length + 1) s sc := by
  induction n using Nat.strong_induction_on generalizing s sc with
  | _ n ih =>
    cases n with
    | zero => omega
    | succ m =>
      rw [replanLoop_run m, replanLoop_run sc.length]
      cases hp : processGoal s sc with
      | nullDeref s1 => rfl
      | waiting s1 => rfl
      | ret b s1 sc1 =>
        cases b with
        | false => rfl
        | true =>
          have hl := processGoal_consumes s sc s1 sc1 hp
          dsimp only
          cases hr : s1.follow_path_result_ with
          | none => rfl
          | some r =>
            dsimp only
            by_cases hs : r.status = FollowResultStatus.MOTION_STATUS_SUCCESS
            · rw [if_pos hs, if_pos hs]
            · rw [if_neg hs, if_neg hs, ih m (by omega) _ sc1 (by omega),
                ih sc.length (by omega) _ sc1 hl]

/-! ## The result of the goal -/

/-- C13. With a follower result recorded, `handleFollowPathResult` returns after
one terminal call whose kind depends on the recorded lifecycle state only:
`setSucceeded` for SUCCEEDED, `setAborted` for REJECTED, RECALLED, ABORTED,
PREEMPTED and every other state, whatever the status of the follower result is. -/
theorem handleFollowPathResult_kind_by_lifecycle (s : Sys) (sc : Script)
    (r : FollowPathResult) (hres : s.follow_path_result_ = some r) :
    (∃ s1, handleFollowPathResult s sc = Res.ret () s1 sc)
      ∧ (s.follow_path_final_state_ = GoalState.SUCCEEDED →
          (handleFollowPathResult s sc).sys.calls.filter Call.isTerminal
            = s.calls.filter Call.isTerminal ++ [Call.setSucceeded (navResultOf r)])
      ∧ (s.follow_path_final_state_ ≠ GoalState.SUCCEEDED →
          (handleFollowPathResult s sc).sys.calls.filter Call.isTerminal
            = s.calls.filter Call.isTerminal ++ [Call.setAborted (navResultOf r)]) := by
  rw [handleFollowPathResult_run s sc r hres]
  refine ⟨⟨_, rfl⟩, ?_, ?_⟩
  · intro hst
    simp [Res.sys, hst, finalCalls, Call.isTerminal]
  · intro hst
    cases h : s.follow_path_final_state_ <;>
      simp [Res.sys, h, finalCalls, Call.isTerminal] at hst ⊢

/-- Witness of C13: status success with lifecycle ABORTED ends the goal by
`setAborted`, a collision with lifecycle SUCCEEDED by `setSucceeded`. -/
theorem handleFollowPathResult_kind_by_lifecycle_witness :
    (handleFollowPathResult
        (followerFinished GoalState.ABORTED FollowResultStatus.MOTION_STATUS_SUCCESS)
        []).sys.calls.filter Call.isTerminal
        = [Call.setAborted
            { reached_goal := true, status := NavResultStatus.STATUS_SUCCESS, debug_test := 3 }]
      ∧ (handleFollowPathResult
          (followerFinished GoalState.SUCCEEDED FollowResultStatus.MOTION_STATUS_COLLISION)
          []).sys.calls.filter Call.isTerminal
        = [Call.setSucceeded
            { reached_goal := false, status := NavResultStatus.STATUS_COLLISION,
              debug_test := 3 }] :=
  ⟨(handleFollowPathResult_kind_by_lifecycle
      (followerFinished GoalState.ABORTED FollowResultStatus.MOTION_STATUS_SUCCESS) []
      (followResult FollowResultStatus.MOTION_STATUS_SUCCESS) rfl).2.2 (by decide),
   (handleFollowPathResult_kind_by_lifecycle
      (followerFinished GoalState.SUCCEEDED FollowResultStatus.MOTION_STATUS_COLLISION) []
      (followResult FollowResultStatus.MOTION_STATUS_COLLISION) rfl).2.1 rfl⟩

theorem finalCalls_navResult (st : GoalState) (nr : NavigateToGoalResult) :
    (finalCalls st nr).filterMap Call.navResult = [nr] := by
  cases st <;> rfl

/-- C14. With a follower result recorded, `handleFollowPathResult` gives the goal
exactly one result.  Its `reached_goal` is true exactly when the follower status is
success; its status is the translation success to `STATUS_SUCCESS`, collision to
`STATUS_COLLISION`, path lost to `STATUS_LOST_PATH`, timeout to `STATUS_TIMEOUT`,
every other code to `STATUS_OTHER_ERROR`; its `debug_test` is the one of the
follower result. -/
theorem handleFollowPathResult_translates_result (s : Sys) (sc : Script)
    (r : FollowPathResult) (hres : s.follow_path_result_ = some r) :
    ∃ nr, (handleFollowPathResult s sc).sys.calls.filterMap Call.navResult
        = s.calls.filterMap Call.navResult ++ [nr]
      ∧ (nr.reached_goal = true ↔ r.status = FollowResultStatus.MOTION_STATUS_SUCCESS)
      ∧ nr.status
        = (match r.status with
           | FollowResultStatus.MOTION_STATUS_SUCCESS => NavResultStatus.STATUS_SUCCESS
           | FollowResultStatus.MOTION_STATUS_COLLISION => NavResultStatus.STATUS_COLLISION
           | FollowResultStatus.MOTION_STATUS_PATH_LOST => NavResultStatus.STATUS_LOST_PATH
           | FollowResultStatus.MOTION_STATUS_TIMEOUT => NavResultStatus.STATUS_TIMEOUT
           | FollowResultStatus.other _ => NavResultStatus.STATUS_OTHER_ERROR)
      ∧ nr.debug_test = r.debug_test := by
  refine ⟨navResultOf r, ?_, ?_, ?_, rfl⟩
  · rw [handleFollowPathResult_run s sc r hres]
    simp only [Res.sys, List.filterMap_append, finalCalls_navResult]
  · simp [navResultOf]
  · rcases r with ⟨st, d⟩
    cases st <;> simp [navResultOf]

/-- Witness of C14: the follower lost the path. -/
theorem handleFollowPathResult_translates_result_witness :
    ∃ nr, (handleFollowPathResult
          (followerFinished GoalState.ABORTED FollowResultStatus.MOTION_STATUS_PATH_LOST)
          []).sys.calls.filterMap Call.navResult = [nr]
      ∧ nr.reached_goal = false
      ∧ nr.status = NavResultStatus.STATUS_LOST_PATH
      ∧ nr.debug_test = 3 := by
  obtain ⟨nr, h1, h2, h3, h4⟩ := handleFollowPathResult_translates_result
    (followerFinished GoalState.ABORTED FollowResultStatus.MOTION_STATUS_PATH_LOST) []
    (followResult FollowResultStatus.MOTION_STATUS_PATH_LOST) rfl
  refine ⟨nr, h1, ?_, h3, h4⟩
  cases hr : nr.reached_goal
  · rfl
  · exact absurd (h2.1 hr) (by decide)

/-! ## Invalid failure mode, follower feedback -/

theorem navToGoalActionCallback_invalid (goal : NavigateToGoalGoal) (s : Sys) (sc : Script)
    (code : Nat) (hmode : goal.failure_mode = FailureMode.invalid code) :
    navToGoalActionCallback goal s sc
      = Res.ret ()
          (((entered goal s).emit (Call.rosLog LogMsg.errorInvalidFailureMode)).terminate
            (Call.setAborted { status := NavResultStatus.STATUS_OTHER_ERROR })) sc := by
  cases hu : s.unexpected_path_ <;>
    simp only [navToGoalActionCallback, bind_run, getSys_run, ite_run, call_run, pure_run,
      modifySys_run, setAborted_run, hmode, hu, entered, if_true, if_false,
      Bool.false_eq_true]

/-- C15. For a goal whose failure mode is neither abort nor replan the
execute-callback returns at once, without letting anything of the script happen:
it logs the error and answers `setAborted` with `STATUS_OTHER_ERROR` as the one
terminal result; no pose is published to the planner and no follow request is
sent. -/
theorem invalid_failure_mode_aborts_at_once (goal : NavigateToGoalGoal) (s : Sys)
    (sc : Script) (code : Nat) (hmode : goal.failure_mode = FailureMode.invalid code) :
    (∃ s1, navToGoalActionCallback goal s sc = Res.ret () s1 sc)
      ∧ (navToGoalActionCallback goal s sc).sys.calls.filter Call.isTerminal
        = s.calls.filter Call.isTerminal ++
          [Call.setAborted
            { reached_goal := false, status := NavResultStatus.STATUS_OTHER_ERROR,
              debug_test := 0 }]
      ∧ (navToGoalActionCallback goal s sc).sys.calls.filter Call.isPublishGoal
        = s.calls.filter Call.isPublishGoal
      ∧ (navToGoalActionCallback goal s sc).sys.calls.filter Call.isSendGoal
        = s.calls.filter Call.isSendGoal := by
  rw [navToGoalActionCallback_invalid goal s sc code hmode]
  refine ⟨⟨_, rfl⟩, ?_, ?_, ?_⟩ <;>
    cases hu : s.unexpected_path_ <;>
    simp [Res.sys, Sys.terminate, Sys.emit, entered, hu, Call.isTerminal, Call.isPublishGoal,
      Call.isSendGoal]

/-- Witness of C15: the first goal of a fresh controller has failure mode 7. -/
theorem invalid_failure_mode_aborts_at_once_witness :
    (navToGoalActionCallback goalInvalid firstGoalAccepted
        [[Event.path path2]]).sys.calls.filter Call.isTerminal
        = [Call.setAborted
            { reached_goal := false, status := NavResultStatus.STATUS_OTHER_ERROR,
              debug_test := 0 }]
      ∧ (navToGoalActionCallback goalInvalid firstGoalAccepted
          [[Event.path path2]]).sys.calls.filter Call.isPublishGoal = []
      ∧ (navToGoalActionCallback goalInvalid firstGoalAccepted
          [[Event.path path2]]).sys.calls.filter Call.isSendGoal = [] :=
  (invalid_failure_mode_aborts_at_once goalInvalid firstGoalAccepted [[Event.path path2]] 7
    rfl).2

/-- C16 fails on the code. `followPathFeedbackCB` publishes goal feedback for every
follower feedback: `STATUS_MOVING` for moving, `STATUS_COLLISION` for collision,
and for every other status code, after logging the error, a feedback whose status
was never assigned.  The `default` branch of the `switch` only logs; the
`publishFeedback` after the `switch` runs in every case. -/
theorem followPathFeedbackCB_publishes_unknown_status (s : Sys) (debug_test code : Nat) :
    (followPathFeedbackCB
        { status := FollowFeedbackStatus.other code, debug_test := debug_test } s).calls
        = s.calls ++
          [Call.rosLog (LogMsg.errorUnknownFeedbackStatus code),
           Call.publishFeedback
             { status := NavFeedbackStatus.unassigned, debug_test := debug_test }]
      ∧ (followPathFeedbackCB
          { status := FollowFeedbackStatus.MOTION_STATUS_MOVING, debug_test := debug_test }
          s).calls
        = s.calls ++
          [Call.publishFeedback
            { status := NavFeedbackStatus.STATUS_MOVING, debug_test := debug_test }]
      ∧ (followPathFeedbackCB
          { status := FollowFeedbackStatus.MOTION_STATUS_COLLISION, debug_test := debug_test }
          s).calls
        = s.calls ++
          [Call.publishFeedback
            { status := NavFeedbackStatus.STATUS_COLLISION, debug_test := debug_test }] := by
  refine ⟨?_, ?_, ?_⟩ <;> simp [followPathFeedbackCB, Sys.emit]

/-! ## The tracked follow request stays done -/

/-- While the goal is active no event makes the follow client track a new request:
a request that is done stays done. -/
theorem deliver_keeps_done (e : Event) (s : Sys) (h : s.server_active = true)
    (hd : s.client_done = true) : (deliver e s).client_done = true := by
  cases e with
  | path p =>
    simp only [deliver, pathCallback, h]
    by_cases h0 : isZero s.goal_timestamp_ = true
    · simp [h0, hd]
    · by_cases h1 : p.header.stamp = s.goal_timestamp_ <;> simp [h0, h1, hd]
  | followFeedback fb =>
    simp only [deliver]
    by_cases hcb : s.client_feedback_cb = true
    · have hf := congrArg Sys.client_done (followPathFeedbackCB_frame fb s).1
      simp only [Sys.frame] at hf
      simp [hcb, hf, hd]
    · simp [hcb, hd]
  | followStateDone => rfl
  | followDone st r =>
    simp only [deliver]
    cases s.client_done_cb <;> rfl
  | cancelRequest => exact hd
  | newGoal => exact hd
  | shutdown => exact hd
  | clock dt => exact hd

theorem deliverAll_keeps_done (b : Batch) (s : Sys) (h : s.server_active = true)
    (hd : s.client_done = true) : (deliverAll b s).client_done = true := by
  induction b generalizing s with
  | nil => exact hd
  | cons e b ih =>
    exact ih (deliver e s) (deliver_undisturbed e s h).1 (deliver_keeps_done e s h hd)

theorem waitForPathLoop_keeps_done (sc : Script) (s : Sys) (h : s.server_active = true)
    (hd : s.client_done = true) : (waitForPathLoop sc s).sys.client_done = true := by
  induction sc generalizing s with
  | nil =>
    rw [waitForPathLoop_nil]
    by_cases hc : waitForPathCond s = true <;> simp [hc, Res.sys, hd]
  | cons b rest ih =>
    rw [waitForPathLoop_cons]
    by_cases hc : waitForPathCond s = true
    · simp only [hc, if_true]
      exact ih _ (deliverAll_undisturbed b s h).1 (deliverAll_keeps_done b s h hd)
    · simp [hc, Res.sys, hd]

theorem waitForFollowPathDoneLoop_keeps_done (x : Time) (sc : Script) (s : Sys)
    (h : s.server_active = true) (hd : s.client_done = true) :
    (waitForFollowPathDoneLoop x sc s).sys.client_done = true := by
  induction sc generalizing s with
  | nil =>
    rw [waitForFollowPathDoneLoop_nil]
    by_cases hc : (!s.follow_path_done_ && decide (x > s.now)) = true <;>
      simp [hc, Res.sys, hd]
  | cons b rest ih =>
    rw [waitForFollowPathDoneLoop_cons]
    by_cases hc : (!s.follow_path_done_ && decide (x > s.now)) = true
    · simp only [hc, if_true]
      exact ih _ (deliverAll_undisturbed b s h).1 (deliverAll_keeps_done b s h hd)
    · simp [hc, Res.sys, hd]

/-- The follow loop is left by its condition only with the tracked request done,
the goal still active and stored. -/
theorem followLoop_none (sc : Script) (s : Sys) (s1 : Sys) (sc1 : Script)
    (h : s.server_active = true) (hf : followLoop sc s = Res.ret none s1 sc1) :
    Undisturbed s s1 ∧ s1.client_done = true := by
  induction sc generalizing s with
  | nil =>
    by_cases hd : s.client_done = true
    · rw [followLoop_done [] s hd] at hf
      injection hf with _ h2 _
      subst h2
      exact ⟨Undisturbed.refl s h, hd⟩
    · have hd' : s.client_done = false := by simpa using hd
      by_cases hp : s.server_preempt_request = true
      · rw [followLoop_preempt [] s hd' hp] at hf
        cases hw : waitForFollowPathDoneLoop (s.now + Duration 10) [] (s.emit Call.cancelGoal) <;>
          simp [hw] at hf
      · rw [followLoop_end s hd' (by simpa using hp)] at hf
        simp at hf
  | cons b rest ih =>
    by_cases hd : s.client_done = true
    · rw [followLoop_done (b :: rest) s hd] at hf
      injection hf with _ h2 _
      subst h2
      exact ⟨Undisturbed.refl s h, hd⟩
    · have hd' : s.client_done = false := by simpa using hd
      by_cases hp : s.server_preempt_request = true
      · rw [followLoop_preempt (b :: rest) s hd' hp] at hf
        cases hw : waitForFollowPathDoneLoop (s.now + Duration 10) (b :: rest)
            (s.emit Call.cancelGoal) <;> simp [hw] at hf
      · rw [followLoop_step b rest s hd' (by simpa using hp)] at hf
        have hu := deliverAll_undisturbed b s h
        have := ih (deliverAll b s) hu.1 hf
        exact ⟨hu.trans this.1, this.2⟩

/-- When `processGoal` returns true the goal is still active and stored, the follow
request it sent is done in the client and its done-callback has run. -/
theorem processGoal_true_state (s : Sys) (sc : Script) (g : NavigateToGoalGoal)
    (s1 : Sys) (sc1 : Script) (hgoal : s.current_goal_ = some g)
    (hactive : s.server_active = true) (h : processGoal s sc = Res.ret true s1 sc1) :
    s1.server_active = true ∧ s1.current_goal_ = some g ∧ s1.client_done = true
      ∧ s1.follow_path_done_ = true := by
  have hs := waitForPath_spec g.goal_pose { s with follow_path_done_ := false } sc hactive
  rw [processGoal_run s sc g hgoal] at h
  cases hw : waitForPath g.goal_pose { s with follow_path_done_ := false } sc with
  | nullDeref s2 => simp [hw] at h
  | waiting s2 => simp [hw] at h
  | ret a s2 sc2 =>
    rw [hw] at h hs
    dsimp only at h
    cases hp : s2.requested_path_ with
    | none => simp [hp] at h
    | some p =>
      rw [hp] at h
      dsimp only at h
      by_cases hlen : p.poses.length < 2
      · simp [hlen] at h
      · by_cases hpre : s2.server_preempt_request = true
        · simp [hlen, hpre] at h
        · rw [if_neg hlen, if_neg hpre] at h
          have hact2 : (dispatched g p s2).server_active = true := hs.1
          cases hf : followLoop sc2 (dispatched g p s2) with
          | nullDeref s3 => simp [hf] at h
          | waiting s3 => simp [hf] at h
          | ret r s3 sc3 =>
            rw [hf] at h
            cases r with
            | some r =>
              dsimp only at h
              injection h with h1 h2 h3
              subst h1
              exact absurd (followLoop_some_false sc2 _ true s3 sc3 hf) (by decide)
            | none =>
              have h3 := followLoop_none sc2 (dispatched g p s2) s3 sc3 hact2 hf
              have hl := waitForFollowPathDoneLoop_spec (s3.now + Duration 10) sc3 s3 h3.1.1
              have hk := waitForFollowPathDoneLoop_keeps_done (s3.now + Duration 10) sc3 s3
                h3.1.1 h3.2
              dsimp only at h
              cases hw4 : waitForFollowPathDoneLoop (s3.now + Duration 10) sc3 s3 with
              | nullDeref s4 => simp [hw4] at h
              | waiting s4 => simp [hw4] at h
              | ret a4 s4 sc4 =>
                rw [hw4] at h hl hk
                dsimp only at h
                by_cases hd4 : s4.follow_path_done_ = true
                · rw [if_pos hd4] at h
                  injection h with _ h2 _
                  subst h2
                  exact ⟨hl.1.1, hl.1.2.1.trans (h3.1.2.1.trans (hs.2.1.trans hgoal)), hk, hd4⟩
                · rw [if_neg hd4] at h
                  simp at h

/-! ## The requests of an execution -/

/-- The requests of `processGoal` while the goal is active, whatever the other
threads do: the plan request for the pose of the stored goal comes first, no other
plan request is made, and the at most one follow request is the one `processGoal`
builds for the stored goal and a path. -/
theorem processGoal_sends (s : Sys) (sc : Script) (g : NavigateToGoalGoal)
    (hgoal : s.current_goal_ = some g) (hactive : s.server_active = true) :
    ∃ (tail : List Call) (ps : List Path), ownCalls (processGoal s sc).sys.calls
        = ownCalls s.calls ++ Call.publishGoal g.goal_pose :: tail
      ∧ tail.filter Call.isPublishGoal = []
      ∧ tail.filter Call.isSendGoal = ps.map (fun p => Call.sendGoal (followRequest g p))
      ∧ ps.length ≤ 1 := by
  have hs := waitForPath_spec g.goal_pose { s with follow_path_done_ := false } sc hactive
  rw [processGoal_run s sc g hgoal]
  cases hw : waitForPath g.goal_pose { s with follow_path_done_ := false } sc with
  | nullDeref s1 => exact absurd hw (hs.2.2.2 s1)
  | waiting s1 =>
    rw [hw] at hs
    exact ⟨[], [], by simpa [Res.sys] using hs.2.2.1, rfl, rfl, by simp⟩
  | ret a s1 sc1 =>
    rw [hw] at hs
    have hown1 : ownCalls s1.calls = ownCalls s.calls ++ [Call.publishGoal g.goal_pose] :=
      hs.2.2.1
    have hact1 : s1.server_active = true := hs.1
    dsimp only
    cases hp : s1.requested_path_ with
    | none => exact ⟨[], [], by simpa [Res.sys] using hown1, rfl, rfl, by simp⟩
    | some p =>
      dsimp only
      by_cases hlen : p.poses.length < 2
      · rw [if_pos hlen]
        refine ⟨[Call.rosLog LogMsg.warnInvalidPath,
          Call.setAborted
            { reached_goal := false, status := NavResultStatus.STATUS_NO_PATH_FOUND }], [], ?_,
          rfl, by simp [Call.isSendGoal], by simp⟩
        simp only [Res.sys, Sys.terminate, Sys.emit, ownCalls_append, hown1]
        simp [ownCalls, Call.isRelayed]
      · rw [if_neg hlen]
        by_cases hpre : s1.server_preempt_request = true
        · rw [if_pos hpre]
          refine ⟨[Call.setPreempted], [], ?_, rfl, by simp [Call.isSendGoal], by simp⟩
          simp only [Res.sys, Sys.terminate, ownCalls_append, hown1]
          simp [ownCalls, Call.isRelayed]
        · rw [if_neg hpre]
          have hact2 : (dispatched g p s1).server_active = true := hact1
          obtain ⟨⟨tail, ht1, ht2⟩, hnone, hnull⟩ := followLoop_spec sc1 (dispatched g p s1) hact2
          have hown2 : ownCalls (dispatched g p s1).calls
              = ownCalls s.calls ++ Call.publishGoal g.goal_pose ::
                [Call.publishFeedback { status := NavFeedbackStatus.STATUS_PATH_READY },
                 Call.sendGoal (followRequest g p)] := by
            rw [dispatched_calls, hown1]
            simp
          cases hf : followLoop sc1 (dispatched g p s1) with
          | nullDeref s3 => exact absurd hf (hnull s3)
          | waiting s3 =>
            rw [hf] at ht1
            refine ⟨[Call.publishFeedback { status := NavFeedbackStatus.STATUS_PATH_READY },
              Call.sendGoal (followRequest g p)] ++ tail, [p], ?_, ?_, ?_, by simp⟩
            · simp only [Res.sys] at ht1 ⊢
              rw [ht1, hown2]
              simp
            · simp [List.filter_append, ht2.1, Call.isPublishGoal]
            · simp [List.filter_append, ht2.2, Call.isSendGoal]
          | ret r s3 sc3 =>
            rw [hf] at ht1
            simp only [Res.sys] at ht1
            cases r with
            | some r =>
              refine ⟨[Call.publishFeedback { status := NavFeedbackStatus.STATUS_PATH_READY },
                Call.sendGoal (followRequest g p)] ++ tail, [p], ?_, ?_, ?_, by simp⟩
              · simp only [Res.sys]
                rw [ht1, hown2]
                simp
              · simp [List.filter_append, ht2.1, Call.isPublishGoal]
              · simp [List.filter_append, ht2.2, Call.isSendGoal]
            | none =>
              have h3 := hnone s3 sc3 hf
              have hown3 : ownCalls s3.calls
                  = ownCalls s.calls ++ Call.publishGoal g.goal_pose ::
                    [Call.publishFeedback { status := NavFeedbackStatus.STATUS_PATH_READY },
                     Call.sendGoal (followRequest g p)] := by
                rw [h3.2, hown2]
              have hl := waitForFollowPathDoneLoop_spec (s3.now + Duration 10) sc3 s3 h3.1
              dsimp only
              cases hw4 : waitForFollowPathDoneLoop (s3.now + Duration 10) sc3 s3 with
              | nullDeref s4 => exact absurd hw4 (hl.2.1 s4)
              | waiting s4 =>
                rw [hw4] at hl
                refine ⟨[Call.publishFeedback { status := NavFeedbackStatus.STATUS_PATH_READY },
                  Call.sendGoal (followRequest g p)], [p], ?_, rfl, by simp [Call.isSendGoal], by simp⟩
                simp only [Res.sys] at hl ⊢
                rw [hl.1.2.2, hown3]
              | ret a4 s4 sc4 =>
                rw [hw4] at hl
                simp only [Res.sys] at hl
                dsimp only
                cases hd4 : s4.follow_path_done_
                · refine ⟨[Call.publishFeedback
                      { status := NavFeedbackStatus.STATUS_PATH_READY },
                    Call.sendGoal (followRequest g p),
                    Call.rosLog LogMsg.warnFollowDoneTimeout,
                    Call.setAborted { status := NavResultStatus.STATUS_TIMEOUT }], [p], ?_,
                    rfl, by simp [Call.isSendGoal], by simp⟩
                  simp only [Bool.false_eq_true, if_false, Res.sys, Sys.terminate, Sys.emit,
                    ownCalls_append, hl.1.2.2, hown3]
                  simp [ownCalls, Call.isRelayed]
                · refine ⟨[Call.publishFeedback
                      { status := NavFeedbackStatus.STATUS_PATH_READY },
                    Call.sendGoal (followRequest g p)], [p], ?_, rfl, by simp [Call.isSendGoal], by simp⟩
                  simp only [if_true, Res.sys]
                  rw [hl.1.2.2, hown3]

/-- The requests of the replan loop while the goal is active, whatever the other
threads do: every plan request is for the pose of the stored goal, every follow
request is one `processGoal` builds for the stored goal, and a plan request comes
first. -/
theorem replanLoop_trace (n : Nat) (s : Sys) (sc : Script) (g : NavigateToGoalGoal)
    (hgoal : s.current_goal_ = some g) (hactive : s.server_active = true) :
    ∃ (tail : List Call) (k : Nat) (ps : List Path),
      ownCalls (replanLoop n s sc).sys.calls = ownCalls s.calls ++ tail
      ∧ tail.filter Call.isPublishGoal = List.replicate k (Call.publishGoal g.goal_pose)
      ∧ tail.filter Call.isSendGoal = ps.map (fun p => Call.sendGoal (followRequest g p))
      ∧ (n ≠ 0 → ∃ tail1, tail = Call.publishGoal g.goal_pose :: tail1) := by
  induction n generalizing s sc with
  | zero => exact ⟨[], 0, [], by simp [replanLoop, Res.sys], rfl, rfl, fun h => absurd rfl h⟩
  | succ n ih =>
    obtain ⟨tail, ps, ht1, ht2, ht3, -⟩ := processGoal_sends s sc g hgoal hactive
    have hone : ∀ s1 : Sys, ownCalls s1.calls
          = ownCalls s.calls ++ Call.publishGoal g.goal_pose :: tail →
        ∃ (tail0 : List Call) (k : Nat) (ps0 : List Path),
          ownCalls s1.calls = ownCalls s.calls ++ tail0
          ∧ tail0.filter Call.isPublishGoal = List.replicate k (Call.publishGoal g.goal_pose)
          ∧ tail0.filter Call.isSendGoal
            = ps0.map (fun p => Call.sendGoal (followRequest g p))
          ∧ (n + 1 ≠ 0 → ∃ tail1, tail0 = Call.publishGoal g.goal_pose :: tail1) := by
      intro s1 h1
      refine ⟨Call.publishGoal g.goal_pose :: tail, 1, ps, h1, ?_, ?_, fun _ => ⟨tail, rfl⟩⟩
      · simp [List.filter_cons, Call.isPublishGoal, ht2]
      · simp [List.filter_cons, Call.isSendGoal, ht3]
    rw [replanLoop_run]
    cases hp : processGoal s sc with
    | nullDeref s1 => rw [hp] at ht1; exact hone s1 ht1
    | waiting s1 => rw [hp] at ht1; exact hone s1 ht1
    | ret b s1 sc1 =>
      rw [hp] at ht1
      simp only [Res.sys] at ht1
      cases b with
      | false => exact hone s1 ht1
      | true =>
        have hst := processGoal_true_state s sc g s1 sc1 hgoal hactive hp
        dsimp only
        cases hr : s1.follow_path_result_ with
        | none => exact hone s1 ht1
        | some r =>
          dsimp only
          by_cases hsucc : r.status = FollowResultStatus.MOTION_STATUS_SUCCESS
          · rw [if_pos hsucc]
            exact hone s1 ht1
          · rw [if_neg hsucc]
            obtain ⟨tail2, k2, ps2, h1, h2, h3, -⟩ :=
              ih ((s1.emit (Call.rosLog LogMsg.warnReplan)).emit
                (Call.publishFeedback { status := NavFeedbackStatus.STATUS_REPLAN })) sc1
                hst.2.1 hst.1
            refine ⟨Call.publishGoal g.goal_pose :: (tail ++
                ([Call.rosLog LogMsg.warnReplan,
                  Call.publishFeedback { status := NavFeedbackStatus.STATUS_REPLAN }] ++ tail2)),
              k2 + 1, ps ++ ps2, ?_, ?_, ?_, fun _ => ⟨_, rfl⟩⟩
            · rw [h1]
              simp only [Sys.emit, ownCalls_append, ht1]
              simp [ownCalls, Call.isRelayed]
            · simp [List.filter_cons, List.filter_append, Call.isPublishGoal, ht2, h2,
                List.replicate_succ]
            · simp [List.filter_cons, List.filter_append, Call.isSendGoal, ht3, h3]

/-- The requests of one execution of the execute-callback for a goal in abort or
replan mode, started while the goal is active, whatever the other threads do: a
running unsolicited run is cancelled first, then comes a plan request; every plan
request is for the pose of the goal and every follow request is one `processGoal`
builds for the goal. -/
theorem navToGoalActionCallback_trace (goal : NavigateToGoalGoal) (s : Sys) (sc : Script)
    (hactive : s.server_active = true)
    (hvalid : goal.failure_mode = FailureMode.FAILURE_MODE_ABORT
      ∨ goal.failure_mode = FailureMode.FAILURE_MODE_REPLAN) :
    ∃ (tail : List Call) (k : Nat) (ps : List Path),
      ownCalls (navToGoalActionCallback goal s sc).sys.calls
        = ownCalls s.calls ++
          ((if s.unexpected_path_ = true then [Call.cancelGoal] else []) ++
            Call.publishGoal goal.goal_pose :: tail)
      ∧ tail.filter Call.isPublishGoal = List.replicate k (Call.publishGoal goal.goal_pose)
      ∧ tail.filter Call.isSendGoal
        = ps.map (fun p => Call.sendGoal (followRequest goal p)) := by
  have hent : (entered goal s).current_goal_ = some goal := rfl
  have hact : (entered goal s).server_active = true := by rw [entered_active]; exact hactive
  have hfinish : ∀ (r : Res Unit) (s1 : Sys) (tail : List Call) (k : Nat) (ps : List Path),
      (∃ extra, r.sys.calls = s1.calls ++ extra ∧ NoRequests extra) →
      ownCalls s1.calls
        = ownCalls (entered goal s).calls ++ Call.publishGoal goal.goal_pose :: tail →
      tail.filter Call.isPublishGoal = List.replicate k (Call.publishGoal goal.goal_pose) →
      tail.filter Call.isSendGoal = ps.map (fun p => Call.sendGoal (followRequest goal p)) →
      ∃ (tail0 : List Call) (k0 : Nat) (ps0 : List Path),
        ownCalls r.sys.calls
          = ownCalls s.calls ++
            ((if s.unexpected_path_ = true then [Call.cancelGoal] else []) ++
              Call.publishGoal goal.goal_pose :: tail0)
        ∧ tail0.filter Call.isPublishGoal
          = List.replicate k0 (Call.publishGoal goal.goal_pose)
        ∧ tail0.filter Call.isSendGoal
          = ps0.map (fun p => Call.sendGoal (followRequest goal p)) := by
    intro r s1 tail k ps ⟨extra, he1, he2⟩ h1 h2 h3
    refine ⟨tail ++ ownCalls extra, k, ps, ?_, ?_, ?_⟩
    · rw [he1, ownCalls_append, h1, entered_calls]
      simp
    · rw [List.filter_append, filter_ownCalls _ isPublishGoal_own, he2.1, h2, List.append_nil]
    · rw [List.filter_append, filter_ownCalls _ isSendGoal_own, he2.2, h3, List.append_nil]
  rcases hvalid with hmode | hmode
  · obtain ⟨tail, ps, ht1, ht2, ht3, -⟩ := processGoal_sends (entered goal s) sc goal hent hact
    rw [navToGoalActionCallback_abort goal s sc hmode]
    cases hp : processGoal (entered goal s) sc with
    | nullDeref s1 =>
      rw [hp] at ht1
      exact hfinish _ s1 tail 0 ps ⟨[], by simp [Res.sys], NoRequests.nil⟩ ht1
        (by simpa using ht2) ht3
    | waiting s1 =>
      rw [hp] at ht1
      exact hfinish _ s1 tail 0 ps ⟨[], by simp [Res.sys], NoRequests.nil⟩ ht1
        (by simpa using ht2) ht3
    | ret b s1 sc1 =>
      rw [hp] at ht1
      exact hfinish _ s1 tail 0 ps (handleFollowPathResult_calls s1 sc1) ht1
        (by simpa using ht2) ht3
  · obtain ⟨tail, k, ps, ht1, ht2, ht3, ht4⟩ :=
      replanLoop_trace (sc.length + 1) (entered goal s) sc goal hent hact
    obtain ⟨tail1, rfl⟩ := ht4 (by omega)
    have ht2' : tail1.filter Call.isPublishGoal
        = List.replicate (k - 1) (Call.publishGoal goal.goal_pose) := by
      cases k with
      | zero => simp [List.filter_cons, Call.isPublishGoal] at ht2
      | succ k =>
        simp only [List.filter_cons, Call.isPublishGoal, if_true, List.replicate_succ] at ht2
        injection ht2
    have ht3' : tail1.filter Call.isSendGoal
        = ps.map (fun p => Call.sendGoal (followRequest goal p)) := by
      simpa [List.filter_cons, Call.isSendGoal] using ht3
    rw [navToGoalActionCallback_replan goal s sc hmode]
    cases hp : replanLoop (sc.length + 1) (entered goal s) sc with
    | nullDeref s1 =>
      rw [hp] at ht1
      exact hfinish _ s1 tail1 _ ps ⟨[], by simp [Res.sys], NoRequests.nil⟩ ht1 ht2' ht3'
    | waiting s1 =>
      rw [hp] at ht1
      exact hfinish _ s1 tail1 _ ps ⟨[], by simp [Res.sys], NoRequests.nil⟩ ht1 ht2' ht3'
    | ret b s1 sc1 =>
      rw [hp] at ht1
      cases b with
      | false =>
        exact hfinish _ s1 tail1 _ ps ⟨[], by simp [Res.sys], NoRequests.nil⟩ ht1 ht2' ht3'
      | true =>
        exact hfinish _ s1 tail1 _ ps (handleFollowPathResult_calls s1 sc1) ht1 ht2' ht3'

/-! ## Plan tokens -/

theorem filterMap_token (l : List Call) :
    l.filterMap Call.token = (l.filter Call.isPublishGoal).filterMap Call.token := by
  induction l with
  | nil => rfl
  | cons c l ih =>
    cases c <;> simp [List.filter_cons, List.filterMap_cons, Call.token, Call.isPublishGoal, ih]

theorem filterMap_token_replicate (n : Nat) (pose : PoseStamped) :
    (List.replicate n (Call.publishGoal pose)).filterMap Call.token
      = List.replicate n pose.header.stamp := by
  induction n with
  | zero => rfl
  | succ n ih => simp [List.replicate_succ, List.filterMap_cons, Call.token, ih]

/-- Counterexample to C17 as stated. A goal in replan mode whose follower reports
Collision, Collision, Success: the three plan requests carry the same token, the
stamp 5 of the goal pose. -/
theorem replan_requests_share_one_token :
    (navToGoalActionCallback goalReplan firstGoalAccepted
        (cyclesScript
          [promptCycle GoalState.ABORTED FollowResultStatus.MOTION_STATUS_COLLISION,
           promptCycle GoalState.ABORTED FollowResultStatus.MOTION_STATUS_COLLISION,
           promptCycle GoalState.SUCCEEDED
             FollowResultStatus.MOTION_STATUS_SUCCESS])).sys.calls.filterMap Call.token
      = [5, 5, 5] := by
  decide

/-- C17, amended. The token of a plan request is the stamp of the goal pose:
`waitForPath` stores the stamp of the pose it publishes in `goal_timestamp_`.  In
one execution of the execute-callback started while the goal is active, whatever
the other threads do, every plan request is for the pose of the goal, so all of
them carry the same token; in abort and replan mode there is at least one. -/
theorem plan_requests_carry_goal_stamp (goal : NavigateToGoalGoal) (s : Sys) (sc : Script)
    (hactive : s.server_active = true) :
    (∃ n, (navToGoalActionCallback goal s sc).sys.calls.filter Call.isPublishGoal
          = s.calls.filter Call.isPublishGoal ++
            List.replicate n (Call.publishGoal goal.goal_pose)
        ∧ (navToGoalActionCallback goal s sc).sys.calls.filterMap Call.token
          = s.calls.filterMap Call.token ++ List.replicate n goal.goal_pose.header.stamp
        ∧ (goal.failure_mode = FailureMode.FAILURE_MODE_ABORT
            ∨ goal.failure_mode = FailureMode.FAILURE_MODE_REPLAN → 1 ≤ n))
      ∧ (∀ (pose : PoseStamped) (s0 : Sys) (sc0 : Script),
          waitForPath pose s0 sc0
            = waitForPathLoop sc0
                (({ s0 with goal_timestamp_ := pose.header.stamp }).emit
                  (Call.publishGoal pose))) := by
  refine ⟨?_, fun pose s0 sc0 => waitForPath_run pose s0 sc0⟩
  have hkey : ∀ n, (navToGoalActionCallback goal s sc).sys.calls.filter Call.isPublishGoal
        = s.calls.filter Call.isPublishGoal ++
          List.replicate n (Call.publishGoal goal.goal_pose) →
      (navToGoalActionCallback goal s sc).sys.calls.filterMap Call.token
        = s.calls.filterMap Call.token ++ List.replicate n goal.goal_pose.header.stamp := by
    intro n h
    rw [filterMap_token, h, List.filterMap_append, filterMap_token_replicate,
      ← filterMap_token]
  cases hm : goal.failure_mode with
  | invalid code =>
    have h0 : (navToGoalActionCallback goal s sc).sys.calls.filter Call.isPublishGoal
        = s.calls.filter Call.isPublishGoal ++
          List.replicate 0 (Call.publishGoal goal.goal_pose) := by
      rw [navToGoalActionCallback_invalid goal s sc code hm]
      cases hu : s.unexpected_path_ <;>
        simp [Res.sys, Sys.terminate, Sys.emit, entered, hu, Call.isPublishGoal]
    exact ⟨0, h0, hkey 0 h0, fun h => by simp at h⟩
  | FAILURE_MODE_ABORT =>
    obtain ⟨tail, k, ps, h1, h2, -⟩ :=
      navToGoalActionCallback_trace goal s sc hactive (Or.inl hm)
    have hn : (navToGoalActionCallback goal s sc).sys.calls.filter Call.isPublishGoal
        = s.calls.filter Call.isPublishGoal ++
          List.replicate (k + 1) (Call.publishGoal goal.goal_pose) := by
      rw [← filter_ownCalls _ isPublishGoal_own, h1, List.filter_append, List.filter_append,
        filter_ownCalls _ isPublishGoal_own]
      cases s.unexpected_path_ <;>
        simp [List.filter_cons, Call.isPublishGoal, h2, List.replicate_succ]
    exact ⟨k + 1, hn, hkey _ hn, fun _ => by omega⟩
  | FAILURE_MODE_REPLAN =>
    obtain ⟨tail, k, ps, h1, h2, -⟩ :=
      navToGoalActionCallback_trace goal s sc hactive (Or.inr hm)
    have hn : (navToGoalActionCallback goal s sc).sys.calls.filter Call.isPublishGoal
        = s.calls.filter Call.isPublishGoal ++
          List.replicate (k + 1) (Call.publishGoal goal.goal_pose) := by
      rw [← filter_ownCalls _ isPublishGoal_own, h1, List.filter_append, List.filter_append,
        filter_ownCalls _ isPublishGoal_own]
      cases s.unexpected_path_ <;>
        simp [List.filter_cons, Call.isPublishGoal, h2, List.replicate_succ]
    exact ⟨k + 1, hn, hkey _ hn, fun _ => by omega⟩

/-- Witness of C17, amended: the follower reports a collision, then success; both
plan requests carry the stamp 5. -/
theorem plan_requests_carry_goal_stamp_witness :
    ∃ n, (navToGoalActionCallback goalReplan firstGoalAccepted
          (cyclesScript
            [promptCycle GoalState.ABORTED FollowResultStatus.MOTION_STATUS_COLLISION,
             promptCycle GoalState.SUCCEEDED
               FollowResultStatus.MOTION_STATUS_SUCCESS])).sys.calls.filterMap Call.token
        = List.replicate n 5
      ∧ 1 ≤ n := by
  obtain ⟨n, -, h2, h3⟩ := (plan_requests_carry_goal_stamp goalReplan firstGoalAccepted
    (cyclesScript
      [promptCycle GoalState.ABORTED FollowResultStatus.MOTION_STATUS_COLLISION,
       promptCycle GoalState.SUCCEEDED FollowResultStatus.MOTION_STATUS_SUCCESS]) rfl).1
  exact ⟨n, h2, h3 (Or.inr rfl)⟩

/-! ## Unsolicited runs and supervised goals -/

/-- C18. For a goal accepted while the goal server is active: when
`unexpected_path_` is true the first call of the execute-callback is `cancelGoal`,
before the plan request that precedes every follow request of the goal; when it is
false the first call is the plan request (or, for an invalid failure mode, the
error log), not a cancel. -/
theorem unsolicited_run_cancelled_on_entry (goal : NavigateToGoalGoal) (s : Sys)
    (sc : Script) (hactive : s.server_active = true) :
    ∃ tail, ownCalls (navToGoalActionCallback goal s sc).sys.calls
        = ownCalls s.calls ++
          ((if s.unexpected_path_ = true then [Call.cancelGoal] else []) ++ tail)
      ∧ ((∃ tail1, tail = Call.publishGoal goal.goal_pose :: tail1
            ∧ (goal.failure_mode = FailureMode.FAILURE_MODE_ABORT
              ∨ goal.failure_mode = FailureMode.FAILURE_MODE_REPLAN))
          ∨ (tail = [Call.rosLog LogMsg.errorInvalidFailureMode,
                Call.setAborted { status := NavResultStatus.STATUS_OTHER_ERROR }]
            ∧ ∃ code, goal.failure_mode = FailureMode.invalid code)) := by
  cases hm : goal.failure_mode with
  | invalid code =>
    refine ⟨_, ?_, Or.inr ⟨rfl, code, rfl⟩⟩
    rw [navToGoalActionCallback_invalid goal s sc code hm]
    cases hu : s.unexpected_path_ <;>
      simp [Res.sys, Sys.terminate, Sys.emit, entered, hu, ownCalls, Call.isRelayed]
  | FAILURE_MODE_ABORT =>
    obtain ⟨tail, k, ps, h1, -, -⟩ :=
      navToGoalActionCallback_trace goal s sc hactive (Or.inl hm)
    exact ⟨_, h1, Or.inl ⟨tail, rfl, Or.inl rfl⟩⟩
  | FAILURE_MODE_REPLAN =>
    obtain ⟨tail, k, ps, h1, -, -⟩ :=
      navToGoalActionCallback_trace goal s sc hactive (Or.inr hm)
    exact ⟨_, h1, Or.inl ⟨tail, rfl, Or.inr rfl⟩⟩

/-- Witness of C18: a goal is accepted while an unsolicited run is driven. -/
theorem unsolicited_run_cancelled_on_entry_witness :
    ∃ tail, ownCalls (navToGoalActionCallback goalAbort unsolicitedRun.acceptNewGoal
          [[Event.path path2]]).sys.calls
        = ownCalls unsolicitedRun.calls ++ ([Call.cancelGoal] ++ tail)
      ∧ ((∃ tail1, tail = Call.publishGoal goalAbort.goal_pose :: tail1
            ∧ (goalAbort.failure_mode = FailureMode.FAILURE_MODE_ABORT
              ∨ goalAbort.failure_mode = FailureMode.FAILURE_MODE_REPLAN))
          ∨ (tail = [Call.rosLog LogMsg.errorInvalidFailureMode,
                Call.setAborted { status := NavResultStatus.STATUS_OTHER_ERROR }]
            ∧ ∃ code, goalAbort.failure_mode = FailureMode.invalid code)) :=
  unsolicited_run_cancelled_on_entry goalAbort unsolicitedRun.acceptNewGoal
    [[Event.path path2]] rfl

theorem waitForPath_keeps_done (pose : PoseStamped) (s : Sys) (sc : Script)
    (h : s.server_active = true) (hd : s.client_done = true) :
    (waitForPath pose s sc).sys.client_done = true := by
  rw [waitForPath_run]
  exact waitForPathLoop_keeps_done sc _ h hd

/-- Counterexample to C11 as stated. A second unsolicited path arrives while the
follow request of the first is not done: `pathCallback` sends a second follow
request.  A goal accepted during an unsolicited run cancels it and, once the
planner has answered, sends its own follow request although no done event of the
unsolicited run has happened. -/
theorem second_follow_request_while_first_outstanding :
    unsolicitedRun.client_done = false
      ∧ (pathCallback path2 unsolicitedRun).calls
        = [Call.sendGoal { debug_test := 255, path := path9, velocity := 1 / 2 },
           Call.sendGoal { debug_test := 255, path := path2, velocity := 1 / 2 }]
      ∧ (navToGoalActionCallback goalAbort unsolicitedRun.acceptNewGoal
          [[Event.path path2]]).sys.calls
        = [Call.sendGoal { debug_test := 255, path := path9, velocity := 1 / 2 },
           Call.cancelGoal, Call.publishGoal pose5,
           Call.publishFeedback { status := NavFeedbackStatus.STATUS_PATH_READY },
           Call.sendGoal (followRequest goalAbort path2)] :=
  ⟨rfl, rfl, rfl⟩

/-- C11, amended. Follow requests are serialised only while a supervised goal is
active.  In one execution of the execute-callback started while the goal is active,
whatever the other threads do, every follow request sent is one `processGoal`
builds for this goal; no event makes `pathCallback` send one while the goal is
active; `processGoal` returns true, after which alone a further request is sent,
only when the request it sent is done in the client and its done-callback has run;
and a request that is done when a planning wait starts is still done when it ends.
Whether a request sent before the goal was accepted has finished is not tested. -/
theorem follow_requests_serialised_while_goal_active (goal : NavigateToGoalGoal) (s : Sys)
    (sc : Script) (hactive : s.server_active = true) :
    (∃ ps : List Path, (navToGoalActionCallback goal s sc).sys.calls.filter Call.isSendGoal
        = s.calls.filter Call.isSendGoal ++
          ps.map (fun p => Call.sendGoal (followRequest goal p)))
      ∧ (∀ (e : Event) (s0 : Sys), s0.server_active = true →
          (deliver e s0).calls.filter Call.isSendGoal = s0.calls.filter Call.isSendGoal)
      ∧ (∀ (s0 : Sys) (sc0 : Script) (g : NavigateToGoalGoal) (s1 : Sys) (sc1 : Script),
          s0.current_goal_ = some g → s0.server_active = true →
          processGoal s0 sc0 = Res.ret true s1 sc1 →
          s1.client_done = true ∧ s1.follow_path_done_ = true)
      ∧ (∀ (pose : PoseStamped) (s0 : Sys) (sc0 : Script), s0.server_active = true →
          s0.client_done = true → (waitForPath pose s0 sc0).sys.client_done = true) := by
  refine ⟨?_, ?_, ?_, ?_⟩
  · cases hm : goal.failure_mode with
    | invalid code =>
      refine ⟨[], ?_⟩
      rw [navToGoalActionCallback_invalid goal s sc code hm]
      cases hu : s.unexpected_path_ <;>
        simp [Res.sys, Sys.terminate, Sys.emit, entered, hu, Call.isSendGoal]
    | FAILURE_MODE_ABORT =>
      obtain ⟨tail, k, ps, h1, -, h3⟩ :=
        navToGoalActionCallback_trace goal s sc hactive (Or.inl hm)
      refine ⟨ps, ?_⟩
      rw [← filter_ownCalls _ isSendGoal_own, h1, List.filter_append, List.filter_append,
        filter_ownCalls _ isSendGoal_own]
      cases s.unexpected_path_ <;> simp [List.filter_cons, Call.isSendGoal, h3]
    | FAILURE_MODE_REPLAN =>
      obtain ⟨tail, k, ps, h1, -, h3⟩ :=
        navToGoalActionCallback_trace goal s sc hactive (Or.inr hm)
      refine ⟨ps, ?_⟩
      rw [← filter_ownCalls _ isSendGoal_own, h1, List.filter_append, List.filter_append,
        filter_ownCalls _ isSendGoal_own]
      cases s.unexpected_path_ <;> simp [List.filter_cons, Call.isSendGoal, h3]
  · intro e s0 h0
    rw [← filter_ownCalls _ isSendGoal_own, (deliver_undisturbed e s0 h0).2.2,
      filter_ownCalls _ isSendGoal_own]
  · intro s0 sc0 g s1 sc1 hg h0 hp
    have := processGoal_true_state s0 sc0 g s1 sc1 hg h0 hp
    exact ⟨this.2.2.1, this.2.2.2⟩
  · intro pose s0 sc0 h0 hd
    exact waitForPath_keeps_done pose s0 sc0 h0 hd

/-- Witness of C11, amended: a goal in replan mode whose follower reports a
collision and then success sends the two supervised follow requests and no other. -/
theorem follow_requests_serialised_while_goal_active_witness :
    ∃ ps : List Path, (navToGoalActionCallback goalReplan firstGoalAccepted
          (cyclesScript
            [promptCycle GoalState.ABORTED FollowResultStatus.MOTION_STATUS_COLLISION,
             promptCycle GoalState.SUCCEEDED
               FollowResultStatus.MOTION_STATUS_SUCCESS])).sys.calls.filter Call.isSendGoal
        = ps.map (fun p => Call.sendGoal (followRequest goalReplan p)) :=
  (follow_requests_serialised_while_goal_active goalReplan firstGoalAccepted
    (cyclesScript
      [promptCycle GoalState.ABORTED FollowResultStatus.MOTION_STATUS_COLLISION,
       promptCycle GoalState.SUCCEEDED FollowResultStatus.MOTION_STATUS_SUCCESS]) rfl).1

/-! ## End to end -/

theorem processGoal_short (s : Sys) (sc : Script) (g : NavigateToGoalGoal) (s1 : Sys)
    (sc1 : Script) (p : Path) (hgoal : s.current_goal_ = some g)
    (hwait : waitForPath g.goal_pose { s with follow_path_done_ := false } sc
      = Res.ret () s1 sc1)
    (hpath : s1.requested_path_ = some p) (hshort : p.poses.length < 2) :
    processGoal s sc
      = Res.ret false
          ((s1.emit (Call.rosLog LogMsg.warnInvalidPath)).terminate
            (Call.setAborted
              { reached_goal := false, status := NavResultStatus.STATUS_NO_PATH_FOUND }))
          sc1 := by
  rw [processGoal_run s sc g hgoal, hwait]
  simp [hpath, hshort]

/-- Counterexample to C19 as stated. A goal in replan mode; the planner answers with
a path of one pose and would answer a second request with two poses.  The
execute-callback returns after the first plan request with `setAborted` and
`STATUS_NO_PATH_FOUND`; the rest of the script never happens for it. -/
theorem replan_mode_short_path_not_retried :
    navToGoalActionCallback goalReplan firstGoalAccepted
        [[Event.path path1], [Event.path path2],
         [Event.followDone GoalState.SUCCEEDED
           (followResult FollowResultStatus.MOTION_STATUS_SUCCESS)]]
      = Res.ret ()
          { firstGoalAccepted with
            current_goal_ := some goalReplan
            requested_path_ := some path1
            server_active := false
            calls := [Call.publishGoal pose5, Call.rosLog LogMsg.warnInvalidPath,
              Call.setAborted
                { reached_goal := false, status := NavResultStatus.STATUS_NO_PATH_FOUND }] }
          [[Event.path path2],
           [Event.followDone GoalState.SUCCEEDED
             (followResult FollowResultStatus.MOTION_STATUS_SUCCESS)]] :=
  rfl

/-- C19, amended. A path of fewer than two poses is retried in neither mode.  For a
goal in abort or replan mode started while the goal is active, when the path held
after the first planning wait has fewer than two poses, the execution makes exactly
one plan request and no follow request; in replan mode the execute-callback returns
right after `processGoal` has answered `setAborted` with `STATUS_NO_PATH_FOUND`. -/
theorem short_path_retried_in_neither_mode (goal : NavigateToGoalGoal) (s : Sys)
    (sc : Script) (s1 : Sys) (sc1 : Script) (p : Path)
    (hvalid : goal.failure_mode = FailureMode.FAILURE_MODE_ABORT
      ∨ goal.failure_mode = FailureMode.FAILURE_MODE_REPLAN)
    (hactive : s.server_active = true)
    (hwait : waitForPath goal.goal_pose { entered goal s with follow_path_done_ := false } sc
      = Res.ret () s1 sc1)
    (hpath : s1.requested_path_ = some p) (hshort : p.poses.length < 2) :
    (navToGoalActionCallback goal s sc).sys.calls.filter Call.isPublishGoal
        = s.calls.filter Call.isPublishGoal ++ [Call.publishGoal goal.goal_pose]
      ∧ (navToGoalActionCallback goal s sc).sys.calls.filter Call.isSendGoal
        = s.calls.filter Call.isSendGoal
      ∧ (goal.failure_mode = FailureMode.FAILURE_MODE_REPLAN →
          navToGoalActionCallback goal s sc
            = Res.ret ()
                ((s1.emit (Call.rosLog LogMsg.warnInvalidPath)).terminate
                  (Call.setAborted
                    { reached_goal := false,
                      status := NavResultStatus.STATUS_NO_PATH_FOUND })) sc1) := by
  have hent : (entered goal s).current_goal_ = some goal := rfl
  have hact : (entered goal s).server_active = true := by rw [entered_active]; exact hactive
  have hproc := processGoal_short (entered goal s) sc goal s1 sc1 p hent hwait hpath hshort
  have hs := waitForPath_spec goal.goal_pose
    { entered goal s with follow_path_done_ := false } sc hact
  rw [hwait] at hs
  have hown1 : ownCalls s1.calls
      = ownCalls (entered goal s).calls ++ [Call.publishGoal goal.goal_pose] := hs.2.2.1
  have hcalls : ∃ extra, (navToGoalActionCallback goal s sc).sys.calls
      = ((s1.emit (Call.rosLog LogMsg.warnInvalidPath)).terminate
          (Call.setAborted
            { reached_goal := false,
              status := NavResultStatus.STATUS_NO_PATH_FOUND })).calls ++ extra
      ∧ NoRequests extra := by
    rcases hvalid with hmode | hmode
    · rw [navToGoalActionCallback_abort goal s sc hmode, hproc]
      exact handleFollowPathResult_calls _ sc1
    · rw [navToGoalActionCallback_replan goal s sc hmode, replanLoop_run, hproc]
      exact ⟨[], by simp [Res.sys], NoRequests.nil⟩
  obtain ⟨extra, he1, he2⟩ := hcalls
  refine ⟨?_, ?_, ?_⟩
  · rw [he1, List.filter_append, he2.1, List.append_nil]
    simp only [Sys.terminate, Sys.emit, List.filter_append]
    rw [← filter_ownCalls _ isPublishGoal_own s1.calls, hown1, entered_calls,
      List.filter_append, List.filter_append, filter_ownCalls _ isPublishGoal_own]
    cases s.unexpected_path_ <;> simp [Call.isPublishGoal]
  · rw [he1, List.filter_append, he2.2, List.append_nil]
    simp only [Sys.terminate, Sys.emit, List.filter_append]
    rw [← filter_ownCalls _ isSendGoal_own s1.calls, hown1, entered_calls,
      List.filter_append, List.filter_append, filter_ownCalls _ isSendGoal_own]
    cases s.unexpected_path_ <;> simp [Call.isSendGoal]
  · intro hmode
    rw [navToGoalActionCallback_replan goal s sc hmode, replanLoop_run, hproc]

/-- Witness of C19, amended: the first goal, in replan mode; the planner answers
with one pose. -/
theorem short_path_retried_in_neither_mode_witness :
    (navToGoalActionCallback goalReplan firstGoalAccepted
        [[Event.path path1], [Event.path path2]]).sys.calls.filter Call.isPublishGoal
        = [Call.publishGoal pose5]
      ∧ (navToGoalActionCallback goalReplan firstGoalAccepted
          [[Event.path path1], [Event.path path2]]).sys.calls.filter Call.isSendGoal = [] :=
  have h := short_path_retried_in_neither_mode goalReplan firstGoalAccepted
    [[Event.path path1], [Event.path path2]]
    { firstGoalAccepted with
      current_goal_ := some goalReplan
      requested_path_ := some path1
      calls := [Call.publishGoal pose5] }
    [[Event.path path2]] path1 (Or.inr rfl) rfl rfl rfl (by decide)
  ⟨h.1, h.2.1⟩

/-- C20 fails on the code. In abort mode `handleFollowPathResult` runs whatever
`processGoal` returns.  A goal in abort mode is cancelled while the follower
drives: `processGoal` cancels, answers `setPreempted` and returns false, then
`handleFollowPathResult` reads the result of the cancelled request, logs that it
should never receive a preempted goal and calls `setAborted`.  For a second goal
whose planner answers with one pose, `handleFollowPathResult` runs with
`follow_path_done_` false and answers from the follower result of the goal
before. -/
theorem abort_mode_handles_result_after_processGoal_failed :
    (navToGoalActionCallback goalAbort firstGoalAccepted
        [[Event.path path2], [Event.cancelRequest],
         [Event.followDone GoalState.PREEMPTED
           (followResult (FollowResultStatus.other 9))]]).sys.calls
        = [Call.publishGoal pose5,
           Call.publishFeedback { status := NavFeedbackStatus.STATUS_PATH_READY },
           Call.sendGoal (followRequest goalAbort path2), Call.cancelGoal,
           Call.setPreempted, Call.rosLog LogMsg.errorPreemptedFinalState,
           Call.setAborted
             { reached_goal := false, status := NavResultStatus.STATUS_OTHER_ERROR,
               debug_test := 3 }]
      ∧ (navToGoalActionCallback goalAbort secondGoalAccepted
          [[Event.path path1]]).sys.follow_path_done_ = false
      ∧ (navToGoalActionCallback goalAbort secondGoalAccepted
          [[Event.path path1]]).sys.calls
        = secondGoalAccepted.calls ++
          [Call.publishGoal pose5, Call.rosLog LogMsg.warnInvalidPath,
           Call.setAborted
             { reached_goal := false, status := NavResultStatus.STATUS_NO_PATH_FOUND },
           Call.setSucceeded
             { reached_goal := true, status := NavResultStatus.STATUS_SUCCESS,
               debug_test := 3 }] :=
  ⟨rfl, rfl, rfl⟩

/-! ## The token after the planning wait -/

theorem answers_zero (e : Event) : e.answers 0 = false := by
  cases e <;> simp [Event.answers]

theorem noAnswer_zero (sc : Script) : noAnswer 0 sc = true := by
  simp [noAnswer, answers_zero]

theorem noAnswer_cons (t : Time) (b : Batch) (sc : Script) :
    noAnswer t (b :: sc) = ((b.all (fun e => !e.answers t)) && noAnswer t sc) := by
  simp [noAnswer]

/-- An event other than the answer to the plan request leaves token, stored path
and stored goal as they are. -/
theorem deliver_kept (t : Time) (rp : Option Path) (cg : Option NavigateToGoalGoal)
    (e : Event) (s : Sys) (he : e.answers t = false) (h : Kept t rp cg s) :
    Kept t rp cg (deliver e s) := by
  obtain ⟨h1, h2, h3⟩ := h
  cases e with
  | path p =>
    subst h1 h2 h3
    simp only [deliver, pathCallback]
    by_cases h0 : isZero s.goal_timestamp_ = true
    · cases ha : s.server_active <;> simp [h0, ha, Kept, Sys.sendGoal]
    · have ht : s.goal_timestamp_ ≠ 0 := by
        intro h
        apply h0
        rw [h]
        rfl
      have hne : p.header.stamp ≠ s.goal_timestamp_ := by
        simpa [Event.answers, ht] using he
      simp [h0, hne, Kept]
  | followFeedback fb =>
    simp only [deliver]
    by_cases hcb : s.client_feedback_cb = true
    · have hf := frame_fields (followPathFeedbackCB_frame fb s).1
      simp only [hcb, if_true]
      exact ⟨hf.1.trans h1, hf.2.2.2.1.trans h2, hf.2.2.1.trans h3⟩
    · simp only [hcb, Bool.false_eq_true, if_false]
      exact ⟨h1, h2, h3⟩
  | followStateDone => exact ⟨h1, h2, h3⟩
  | followDone st r =>
    simp only [deliver]
    cases s.client_done_cb <;> exact ⟨h1, h2, h3⟩
  | cancelRequest => exact ⟨h1, h2, h3⟩
  | newGoal => exact ⟨h1, h2, h3⟩
  | shutdown => exact ⟨h1, h2, h3⟩
  | clock dt => exact ⟨h1, h2, h3⟩

theorem deliverAll_kept (t : Time) (rp : Option Path) (cg : Option NavigateToGoalGoal)
    (b : Batch) (s : Sys) (hb : b.all (fun e => !e.answers t) = true) (h : Kept t rp cg s) :
    Kept t rp cg (deliverAll b s) := by
  induction b generalizing s with
  | nil => exact h
  | cons e b ih =>
    simp only [List.all_cons, Bool.and_eq_true, Bool.not_eq_true'] at hb
    exact ih (deliver e s) (by simpa using hb.2) (deliver_kept t rp cg e s hb.1 h)

/-- No event changes the token to anything but zero. -/
theorem deliver_token (e : Event) (s : Sys) :
    (deliver e s).goal_timestamp_ = s.goal_timestamp_ ∨ (deliver e s).goal_timestamp_ = 0 := by
  cases e with
  | path p =>
    simp only [deliver, pathCallback]
    by_cases h0 : isZero s.goal_timestamp_ = true
    · cases ha : s.server_active <;> simp [h0, ha, Sys.sendGoal]
    · by_cases h1 : p.header.stamp = s.goal_timestamp_ <;> simp [h0, h1]
  | followFeedback fb =>
    simp only [deliver]
    by_cases hcb : s.client_feedback_cb = true
    · have hf := frame_fields (followPathFeedbackCB_frame fb s).1
      simp only [hcb, if_true]
      exact Or.inl hf.1
    · simp [hcb]
  | followStateDone => exact Or.inl rfl
  | followDone st r =>
    simp only [deliver]
    cases s.client_done_cb <;> exact Or.inl rfl
  | cancelRequest => exact Or.inl rfl
  | newGoal => exact Or.inl rfl
  | shutdown => exact Or.inl rfl
  | clock dt => exact Or.inl rfl

theorem deliverAll_token (b : Batch) (s : Sys) :
    (deliverAll b s).goal_timestamp_ = s.goal_timestamp_
      ∨ (deliverAll b s).goal_timestamp_ = 0 := by
  induction b generalizing s with
  | nil => exact Or.inl rfl
  | cons e b ih =>
    rcases ih (deliver e s) with h | h
    · rcases deliver_token e s with h1 | h1
      · exact Or.inl (h.trans h1)
      · exact Or.inr (h.trans h1)
    · exact Or.inr h

theorem waitForPathLoop_token (sc : Script) (s : Sys) :
    (waitForPathLoop sc s).sys.goal_timestamp_ = s.goal_timestamp_
      ∨ (waitForPathLoop sc s).sys.goal_timestamp_ = 0 := by
  induction sc generalizing s with
  | nil =>
    rw [waitForPathLoop_nil]
    by_cases hc : waitForPathCond s = true <;> simp [hc, Res.sys]
  | cons b rest ih =>
    rw [waitForPathLoop_cons]
    by_cases hc : waitForPathCond s = true
    · simp only [hc, if_true]
      rcases ih (deliverAll b s) with h | h
      · rcases deliverAll_token b s with h1 | h1
        · exact Or.inl (h.trans h1)
        · exact Or.inr (h.trans h1)
      · exact Or.inr h
    · simp [hc, Res.sys]

theorem waitForPathLoop_kept (t : Time) (rp : Option Path) (cg : Option NavigateToGoalGoal)
    (sc : Script) (s : Sys) (hn : noAnswer t sc = true) (h : Kept t rp cg s) :
    Kept t rp cg (waitForPathLoop sc s).sys
      ∧ ∀ a s1 sc1, waitForPathLoop sc s = Res.ret a s1 sc1 → noAnswer t sc1 = true := by
  induction sc generalizing s with
  | nil =>
    rw [waitForPathLoop_nil]
    by_cases hc : waitForPathCond s = true
    · simp [hc, Res.sys, h]
    · simp only [hc, Bool.false_eq_true, if_false, Res.sys]
      refine ⟨h, ?_⟩
      intro a s1 sc1 h1
      injection h1 with _ _ h3
      rw [← h3]
      exact hn
  | cons b rest ih =>
    rw [waitForPathLoop_cons]
    rw [noAnswer_cons, Bool.and_eq_true] at hn
    by_cases hc : waitForPathCond s = true
    · simp only [hc, if_true]
      exact ih (deliverAll b s) hn.2 (deliverAll_kept t rp cg b s hn.1 h)
    · simp only [hc, Bool.false_eq_true, if_false, Res.sys]
      refine ⟨h, ?_⟩
      intro a s1 sc1 h1
      injection h1 with _ _ h3
      rw [← h3, noAnswer_cons, Bool.and_eq_true]
      exact hn

theorem waitForFollowPathDoneLoop_kept (t : Time) (rp : Option Path)
    (cg : Option NavigateToGoalGoal) (x : Time) (sc : Script) (s : Sys)
    (hn : noAnswer t sc = true) (h : Kept t rp cg s) :
    Kept t rp cg (waitForFollowPathDoneLoop x sc s).sys
      ∧ ∀ a s1 sc1, waitForFollowPathDoneLoop x sc s = Res.ret a s1 sc1 →
          noAnswer t sc1 = true := by
  induction sc generalizing s with
  | nil =>
    rw [waitForFollowPathDoneLoop_nil]
    by_cases hc : (!s.follow_path_done_ && decide (x > s.now)) = true
    · simp [hc, Res.sys, h]
    · simp only [hc, Bool.false_eq_true, if_false, Res.sys]
      refine ⟨h, ?_⟩
      intro a s1 sc1 h1
      injection h1 with _ _ h3
      rw [← h3]
      exact hn
  | cons b rest ih =>
    rw [waitForFollowPathDoneLoop_cons]
    rw [noAnswer_cons, Bool.and_eq_true] at hn
    by_cases hc : (!s.follow_path_done_ && decide (x > s.now)) = true
    · simp only [hc, if_true]
      exact ih (deliverAll b s) hn.2 (deliverAll_kept t rp cg b s hn.1 h)
    · simp only [hc, Bool.false_eq_true, if_false, Res.sys]
      refine ⟨h, ?_⟩
      intro a s1 sc1 h1
      injection h1 with _ _ h3
      rw [← h3, noAnswer_cons, Bool.and_eq_true]
      exact hn

theorem kept_emit {t : Time} {rp : Option Path} {cg : Option NavigateToGoalGoal} {s : Sys}
    (h : Kept t rp cg s) (c : Call) : Kept t rp cg (s.emit c) := h

theorem kept_terminate {t : Time} {rp : Option Path} {cg : Option NavigateToGoalGoal}
    {s : Sys} (h : Kept t rp cg s) (c : Call) : Kept t rp cg (s.terminate c) := h

theorem followLoop_kept (t : Time) (rp : Option Path) (cg : Option NavigateToGoalGoal)
    (sc : Script) (s : Sys) (hn : noAnswer t sc = true) (h : Kept t rp cg s) :
    Kept t rp cg (followLoop sc s).sys
      ∧ ∀ a s1 sc1, followLoop sc s = Res.ret a s1 sc1 → noAnswer t sc1 = true := by
  have hpre : ∀ (sc : Script) (s : Sys), noAnswer t sc = true → Kept t rp cg s →
      s.client_done = false → s.server_preempt_request = true →
      Kept t rp cg (followLoop sc s).sys
        ∧ ∀ a s1 sc1, followLoop sc s = Res.ret a s1 sc1 → noAnswer t sc1 = true := by
    intro sc s hn h hd hp
    rw [followLoop_preempt sc s hd hp]
    have hw := waitForFollowPathDoneLoop_kept t rp cg (s.now + Duration 10) sc
      (s.emit Call.cancelGoal) hn (kept_emit h _)
    cases hl : waitForFollowPathDoneLoop (s.now + Duration 10) sc (s.emit Call.cancelGoal) with
    | nullDeref s1 =>
      rw [hl] at hw
      exact ⟨hw.1, by simp⟩
    | waiting s1 =>
      rw [hl] at hw
      exact ⟨hw.1, by simp⟩
    | ret a s1 sc1 =>
      rw [hl] at hw
      have hk : Kept t rp cg s1 := hw.1
      refine ⟨?_, ?_⟩
      · dsimp only [Res.sys]
        cases hdone : s1.follow_path_done_
        · rw [if_neg (by decide)]
          exact kept_terminate (kept_emit hk _) _
        · rw [if_pos rfl]
          exact kept_terminate hk _
      · intro a2 s2 sc2 h2
        injection h2 with _ _ h3
        rw [← h3]
        exact hw.2 a s1 sc1 rfl
  induction sc generalizing s with
  | nil =>
    by_cases hd : s.client_done = true
    · rw [followLoop_done [] s hd]
      exact ⟨h, fun a s1 sc1 h1 => by injection h1 with _ _ h3; rw [← h3]; exact hn⟩
    · have hd' : s.client_done = false := by simpa using hd
      by_cases hp : s.server_preempt_request = true
      · exact hpre [] s hn h hd' hp
      · rw [followLoop_end s hd' (by simpa using hp)]
        exact ⟨h, by simp⟩
  | cons b rest ih =>
    by_cases hd : s.client_done = true
    · rw [followLoop_done (b :: rest) s hd]
      exact ⟨h, fun a s1 sc1 h1 => by injection h1 with _ _ h3; rw [← h3]; exact hn⟩
    · have hd' : s.client_done = false := by simpa using hd
      by_cases hp : s.server_preempt_request = true
      · exact hpre (b :: rest) s hn h hd' hp
      · rw [followLoop_step b rest s hd' (by simpa using hp)]
        rw [noAnswer_cons, Bool.and_eq_true] at hn
        exact ih (deliverAll b s) hn.2 (deliverAll_kept t rp cg b s hn.1 h)

/-- The follow loop returns from inside only after it has answered `setPreempted`. -/
theorem followLoop_some_inactive (sc : Script) (s : Sys) (r : Bool) (s1 : Sys) (sc1 : Script)
    (h : followLoop sc s = Res.ret (some r) s1 sc1) : s1.server_active = false := by
  have hpre : ∀ (sc : Script) (s : Sys), s.client_done = false →
      s.server_preempt_request = true → followLoop sc s = Res.ret (some r) s1 sc1 →
      s1.server_active = false := by
    intro sc s hd hp h
    rw [followLoop_preempt sc s hd hp] at h
    cases hw : waitForFollowPathDoneLoop (s.now + Duration 10) sc (s.emit Call.cancelGoal) with
    | nullDeref s2 => simp [hw] at h
    | waiting s2 => simp [hw] at h
    | ret a s2 sc2 =>
      rw [hw] at h
      dsimp only at h
      injection h with _ h2 _
      rw [← h2]
      rfl
  induction sc generalizing s with
  | nil =>
    by_cases hd : s.client_done = true
    · rw [followLoop_done [] s hd] at h
      simp at h
    · have hd' : s.client_done = false := by simpa using hd
      by_cases hp : s.server_preempt_request = true
      · exact hpre [] s hd' hp h
      · rw [followLoop_end s hd' (by simpa using hp)] at h
        simp at h
  | cons b rest ih =>
    by_cases hd : s.client_done = true
    · rw [followLoop_done (b :: rest) s hd] at h
      simp at h
    · have hd' : s.client_done = false := by simpa using hd
      by_cases hp : s.server_preempt_request = true
      · exact hpre (b :: rest) s hd' hp h
      · rw [followLoop_step b rest s hd' (by simpa using hp)] at h
        exact ih _ h

/-- What `processGoal` does after its planning wait has ended in `s1` with `sc1`
left: when preemption is requested there, or no later event answers the plan
request, token, stored path and stored goal stay as they are in `s1`. -/
theorem processGoal_kept_after_wait (t : Time) (rp : Option Path)
    (cg : Option NavigateToGoalGoal) (s : Sys) (sc : Script) (g : NavigateToGoalGoal)
    (s1 : Sys) (sc1 : Script) (hg : s.current_goal_ = some g)
    (hwait : waitForPath g.goal_pose { s with follow_path_done_ := false } sc
      = Res.ret () s1 sc1)
    (hk : Kept t rp cg s1)
    (hend : s1.server_preempt_request = true ∨ noAnswer t sc1 = true) :
    Kept t rp cg (processGoal s sc).sys
      ∧ (∀ s2 sc2, processGoal s sc = Res.ret true s2 sc2 → noAnswer t sc2 = true)
      ∧ (∀ s2 sc2, processGoal s sc = Res.ret false s2 sc2 → s2.server_active = false) := by
  rw [processGoal_run s sc g hg, hwait]
  dsimp only
  cases hp : s1.requested_path_ with
  | none => exact ⟨hk, by simp, by simp⟩
  | some p =>
    dsimp only
    by_cases hlen : p.poses.length < 2
    · rw [if_pos hlen]
      refine ⟨kept_terminate (kept_emit hk _) _, by simp, ?_⟩
      intro s2 sc2 h2
      injection h2 with _ h2 _
      rw [← h2]
      rfl
    · rw [if_neg hlen]
      by_cases hpre : s1.server_preempt_request = true
      · rw [if_pos hpre]
        refine ⟨kept_terminate hk _, by simp, ?_⟩
        intro s2 sc2 h2
        injection h2 with _ h2 _
        rw [← h2]
        rfl
      · rw [if_neg hpre]
        have hn : noAnswer t sc1 = true := by
          rcases hend with h | h
          · exact absurd h hpre
          · exact h
        have hkd : Kept t rp cg (dispatched g p s1) := hk
        have hf := followLoop_kept t rp cg sc1 (dispatched g p s1) hn hkd
        cases hfl : followLoop sc1 (dispatched g p s1) with
        | nullDeref s3 =>
          rw [hfl] at hf
          exact ⟨hf.1, by simp, by simp⟩
        | waiting s3 =>
          rw [hfl] at hf
          exact ⟨hf.1, by simp, by simp⟩
        | ret r s3 sc3 =>
          rw [hfl] at hf
          cases r with
          | some r =>
            dsimp only
            have hr := followLoop_some_false sc1 _ r s3 sc3 hfl
            subst hr
            refine ⟨hf.1, by simp, ?_⟩
            intro s2 sc2 h2
            injection h2 with _ h2 _
            rw [← h2]
            exact followLoop_some_inactive sc1 _ false s3 sc3 hfl
          | none =>
            dsimp only
            have hk3 : Kept t rp cg s3 := hf.1
            have hn3 := hf.2 none s3 sc3 rfl
            have hw := waitForFollowPathDoneLoop_kept t rp cg (s3.now + Duration 10) sc3 s3
              hn3 hk3
            cases hwl : waitForFollowPathDoneLoop (s3.now + Duration 10) sc3 s3 with
            | nullDeref s4 =>
              rw [hwl] at hw
              exact ⟨hw.1, by simp, by simp⟩
            | waiting s4 =>
              rw [hwl] at hw
              exact ⟨hw.1, by simp, by simp⟩
            | ret a4 s4 sc4 =>
              rw [hwl] at hw
              dsimp only
              have hk4 : Kept t rp cg s4 := hw.1
              by_cases hd4 : s4.follow_path_done_ = true
              · rw [if_pos hd4]
                refine ⟨hk4, ?_, by simp⟩
                intro s2 sc2 h2
                injection h2 with _ _ h3
                rw [← h3]
                exact hw.2 a4 s4 sc4 rfl
              · rw [if_neg hd4]
                refine ⟨kept_terminate (kept_emit hk4 _) _, by simp, ?_⟩
                intro s2 sc2 h2
                injection h2 with _ h2 _
                rw [← h2]
                rfl

/-- When no event answers the plan request of the stored goal, `processGoal` leaves
the token at the stamp of the goal pose and the stored path and goal as they are. -/
theorem processGoal_kept (s : Sys) (sc : Script) (g : NavigateToGoalGoal)
    (hg : s.current_goal_ = some g) (hn : noAnswer g.goal_pose.header.stamp sc = true) :
    Kept g.goal_pose.header.stamp s.requested_path_ (some g) (processGoal s sc).sys
      ∧ (∀ s2 sc2, processGoal s sc = Res.ret true s2 sc2 →
          noAnswer g.goal_pose.header.stamp sc2 = true)
      ∧ (∀ s2 sc2, processGoal s sc = Res.ret false s2 sc2 → s2.server_active = false) := by
  have hk0 : Kept g.goal_pose.header.stamp s.requested_path_ (some g)
      (({ s with follow_path_done_ := false,
                 goal_timestamp_ := g.goal_pose.header.stamp }).emit
        (Call.publishGoal g.goal_pose)) := ⟨rfl, rfl, hg⟩
  have hw := waitForPathLoop_kept g.goal_pose.header.stamp s.requested_path_ (some g) sc _ hn hk0
  cases hwl : waitForPath g.goal_pose { s with follow_path_done_ := false } sc with
  | ret a s1 sc1 =>
    rw [waitForPath_run] at hwl
    rw [hwl] at hw
    rw [← waitForPath_run] at hwl
    exact processGoal_kept_after_wait _ _ _ s sc g s1 sc1 hg hwl hw.1
      (Or.inr (hw.2 a s1 sc1 rfl))
  | nullDeref s1 =>
    rw [processGoal_run s sc g hg, hwl]
    rw [waitForPath_run] at hwl
    rw [hwl] at hw
    exact ⟨hw.1, by simp, by simp⟩
  | waiting s1 =>
    rw [processGoal_run s sc g hg, hwl]
    rw [waitForPath_run] at hwl
    rw [hwl] at hw
    exact ⟨hw.1, by simp, by simp⟩

theorem handleFollowPathResult_kept (t : Time) (rp : Option Path)
    (cg : Option NavigateToGoalGoal) (s : Sys) (sc : Script) (h : Kept t rp cg s) :
    Kept t rp cg (handleFollowPathResult s sc).sys
      ∧ ∀ a s1 sc1, handleFollowPathResult s sc = Res.ret a s1 sc1 →
          s1.server_active = false := by
  cases hr : s.follow_path_result_ with
  | none =>
    rw [handleFollowPathResult_null s sc hr]
    exact ⟨h, by simp⟩
  | some r =>
    rw [handleFollowPathResult_run s sc r hr]
    refine ⟨h, ?_⟩
    intro a s1 sc1 h1
    injection h1 with _ h2 _
    rw [← h2]

/-- When no event answers the plan request, the replan loop leaves the token at the
stamp of the goal pose however often it goes round; it returns false only after
the goal has been answered. -/
theorem replanLoop_kept (g : NavigateToGoalGoal) (rp : Option Path) (n : Nat) (s : Sys)
    (sc : Script) (hk : Kept g.goal_pose.header.stamp rp (some g) s)
    (hn : noAnswer g.goal_pose.header.stamp sc = true) :
    Kept g.goal_pose.header.stamp rp (some g) (replanLoop n s sc).sys
      ∧ ∀ s2 sc2, replanLoop n s sc = Res.ret false s2 sc2 → s2.server_active = false := by
  induction n generalizing s sc with
  | zero => exact ⟨hk, by simp [replanLoop]⟩
  | succ n ih =>
    rw [replanLoop_run]
    have hp := processGoal_kept s sc g hk.2.2 hn
    rw [hk.2.1] at hp
    cases hpg : processGoal s sc with
    | nullDeref s1 =>
      rw [hpg] at hp
      exact ⟨hp.1, by simp⟩
    | waiting s1 =>
      rw [hpg] at hp
      exact ⟨hp.1, by simp⟩
    | ret b s1 sc1 =>
      rw [hpg] at hp
      have hk1 : Kept g.goal_pose.header.stamp rp (some g) s1 := hp.1
      cases b with
      | false =>
        refine ⟨hk1, ?_⟩
        intro s2 sc2 h2
        injection h2 with _ h2 _
        rw [← h2]
        exact hp.2.2 s1 sc1 rfl
      | true =>
        dsimp only
        cases hr : s1.follow_path_result_ with
        | none => exact ⟨hk1, by simp⟩
        | some r =>
          dsimp only
          by_cases hs : r.status = FollowResultStatus.MOTION_STATUS_SUCCESS
          · rw [if_pos hs]
            exact ⟨hk1, by simp⟩
          · rw [if_neg hs]
            exact ih _ sc1 (kept_emit (kept_emit hk1 _) _) (hp.2.1 s1 sc1 rfl)

theorem entered_kept (goal : NavigateToGoalGoal) (s : Sys) :
    (entered goal s).requested_path_ = s.requested_path_
      ∧ (entered goal s).goal_timestamp_ = s.goal_timestamp_ := by
  cases h : s.unexpected_path_ <;> simp [entered, h, Sys.emit]

/-- The token and the stored path at the end of an execution in which what
`processGoal` does first leaves them as `t` and `rp` and leaves no answer to the
plan request in the rest of the script whenever it returns true. -/
theorem navToGoalActionCallback_kept_of (goal : NavigateToGoalGoal) (rp : Option Path)
    (s : Sys) (sc : Script)
    (hvalid : goal.failure_mode = FailureMode.FAILURE_MODE_ABORT
      ∨ goal.failure_mode = FailureMode.FAILURE_MODE_REPLAN)
    (hp : Kept goal.goal_pose.header.stamp rp (some goal) (processGoal (entered goal s) sc).sys
      ∧ (∀ s2 sc2, processGoal (entered goal s) sc = Res.ret true s2 sc2 →
          noAnswer goal.goal_pose.header.stamp sc2 = true)
      ∧ (∀ s2 sc2, processGoal (entered goal s) sc = Res.ret false s2 sc2 →
          s2.server_active = false)) :
    Kept goal.goal_pose.header.stamp rp (some goal) (navToGoalActionCallback goal s sc).sys
      ∧ ∀ a s2 sc2, navToGoalActionCallback goal s sc = Res.ret a s2 sc2 →
          s2.server_active = false := by
  rcases hvalid with hmode | hmode
  · rw [navToGoalActionCallback_abort goal s sc hmode]
    cases hpg : processGoal (entered goal s) sc with
    | nullDeref s1 =>
      rw [hpg] at hp
      exact ⟨hp.1, by simp⟩
    | waiting s1 =>
      rw [hpg] at hp
      exact ⟨hp.1, by simp⟩
    | ret b s1 sc1 =>
      rw [hpg] at hp
      exact handleFollowPathResult_kept _ _ _ s1 sc1 hp.1
  · rw [navToGoalActionCallback_replan goal s sc hmode]
    have hloop : Kept goal.goal_pose.header.stamp rp (some goal)
          (replanLoop (sc.length + 1) (entered goal s) sc).sys
        ∧ ∀ s2 sc2, replanLoop (sc.length + 1) (entered goal s) sc = Res.ret false s2 sc2 →
            s2.server_active = false := by
      rw [replanLoop_run]
      cases hpg : processGoal (entered goal s) sc with
      | nullDeref s1 =>
        rw [hpg] at hp
        exact ⟨hp.1, by simp⟩
      | waiting s1 =>
        rw [hpg] at hp
        exact ⟨hp.1, by simp⟩
      | ret b s1 sc1 =>
        rw [hpg] at hp
        have hk1 : Kept goal.goal_pose.header.stamp rp (some goal) s1 := hp.1
        cases b with
        | false =>
          refine ⟨hk1, ?_⟩
          intro s2 sc2 h2
          injection h2 with _ h2 _
          rw [← h2]
          exact hp.2.2 s1 sc1 rfl
        | true =>
          dsimp only
          cases hr : s1.follow_path_result_ with
          | none => exact ⟨hk1, by simp⟩
          | some r =>
            dsimp only
            by_cases hs : r.status = FollowResultStatus.MOTION_STATUS_SUCCESS
            · rw [if_pos hs]
              exact ⟨hk1, by simp⟩
            · rw [if_neg hs]
              exact replanLoop_kept goal rp _ _ sc1 (kept_emit (kept_emit hk1 _) _)
                (hp.2.1 s1 sc1 rfl)
    cases hrl : replanLoop (sc.length + 1) (entered goal s) sc with
    | nullDeref s1 =>
      rw [hrl] at hloop
      exact ⟨hloop.1, by simp⟩
    | waiting s1 =>
      rw [hrl] at hloop
      exact ⟨hloop.1, by simp⟩
    | ret b s1 sc1 =>
      rw [hrl] at hloop
      cases b with
      | true => exact handleFollowPathResult_kept _ _ _ s1 sc1 hloop.1
      | false =>
        refine ⟨hloop.1, ?_⟩
        intro a s2 sc2 h2
        injection h2 with _ h2 _
        rw [← h2]
        exact hloop.2 s1 sc1 rfl

/-- When no event answers the plan request of the goal, the execute-callback ends
with the token at the stamp of the goal pose and the stored path untouched. -/
theorem navToGoalActionCallback_kept (goal : NavigateToGoalGoal) (s : Sys) (sc : Script)
    (hvalid : goal.failure_mode = FailureMode.FAILURE_MODE_ABORT
      ∨ goal.failure_mode = FailureMode.FAILURE_MODE_REPLAN)
    (hn : noAnswer goal.goal_pose.header.stamp sc = true) :
    Kept goal.goal_pose.header.stamp s.requested_path_ (some goal)
        (navToGoalActionCallback goal s sc).sys := by
  have hp := processGoal_kept (entered goal s) sc goal rfl hn
  rw [(entered_kept goal s).1] at hp
  exact (navToGoalActionCallback_kept_of goal s.requested_path_ s sc hvalid hp).1

/-- The only event that changes the token is a path that carries the outstanding
non-zero token; it clears the token. -/
theorem deliver_token_change (e : Event) (s : Sys)
    (h : (deliver e s).goal_timestamp_ ≠ s.goal_timestamp_) :
    ∃ p, e = Event.path p ∧ s.goal_timestamp_ ≠ 0 ∧ p.header.stamp = s.goal_timestamp_
      ∧ (deliver e s).goal_timestamp_ = 0 := by
  by_cases ha : e.answers s.goal_timestamp_ = true
  · cases e with
    | path p =>
      simp only [Event.answers, Bool.and_eq_true, decide_eq_true_eq] at ha
      refine ⟨p, rfl, ha.1, ha.2, ?_⟩
      have h0 : isZero s.goal_timestamp_ = false := by simpa [isZero] using ha.1
      simp [deliver, pathCallback, h0, ha.2]
    | followFeedback fb => simp [Event.answers] at ha
    | followStateDone => simp [Event.answers] at ha
    | followDone st r => simp [Event.answers] at ha
    | cancelRequest => simp [Event.answers] at ha
    | newGoal => simp [Event.answers] at ha
    | shutdown => simp [Event.answers] at ha
    | clock dt => simp [Event.answers] at ha
  · have hk := deliver_kept s.goal_timestamp_ s.requested_path_ s.current_goal_ e s
      (by simpa using ha) ⟨rfl, rfl, rfl⟩
    exact absurd hk.1 h

/-- With a token outstanding `pathCallback` sends nothing to the follower: a path
that carries the token is stored and clears the token, any other path changes
nothing. -/
theorem pathCallback_token_set (s : Sys) (p : Path) (h0 : s.goal_timestamp_ ≠ 0) :
    (pathCallback p s).calls = s.calls
      ∧ (pathCallback p s).unexpected_path_ = s.unexpected_path_
      ∧ (p.header.stamp = s.goal_timestamp_ →
          pathCallback p s = { s with requested_path_ := some p, goal_timestamp_ := 0 })
      ∧ (p.header.stamp ≠ s.goal_timestamp_ → pathCallback p s = s) := by
  by_cases hs : p.header.stamp = s.goal_timestamp_
  · have h : pathCallback p s = { s with requested_path_ := some p, goal_timestamp_ := 0 } := by
      simp [pathCallback, isZero, h0, hs]
    exact ⟨by rw [h], by rw [h], fun _ => h, fun hne => absurd hs hne⟩
  · have h : pathCallback p s = s := by
      simp [pathCallback, isZero, h0, hs]
    exact ⟨by rw [h], by rw [h], fun he => absurd he hs, fun _ => h⟩

/-- Without a token outstanding `pathCallback` stores nothing: while a goal is
active the path is dropped, otherwise it is sent to the follower as an unsolicited
run. -/
theorem pathCallback_token_zero (s : Sys) (p : Path) (h0 : s.goal_timestamp_ = 0) :
    (pathCallback p s).requested_path_ = s.requested_path_
      ∧ (pathCallback p s).goal_timestamp_ = 0
      ∧ (s.server_active = true → pathCallback p s = s)
      ∧ (s.server_active = false →
          pathCallback p s
            = ({ s with unexpected_path_ := true }).sendGoal
                { debug_test := 255, path := p, velocity := s.opt_.unexpected_path_velocity }
                DoneCallback.followUnexpectedPathDoneCB false) := by
  by_cases ha : s.server_active = true
  · have h : pathCallback p s = s := by
      simp [pathCallback, isZero, h0, ha]
    exact ⟨by rw [h], by rw [h]; exact h0, fun _ => h, fun hf => by rw [ha] at hf; cases hf⟩
  · have ha' : s.server_active = false := by simpa using ha
    have h : pathCallback p s
        = ({ s with unexpected_path_ := true }).sendGoal
            { debug_test := 255, path := p, velocity := s.opt_.unexpected_path_velocity }
            DoneCallback.followUnexpectedPathDoneCB false := by
      simp [pathCallback, isZero, h0, ha']
    exact ⟨by rw [h]; rfl, by rw [h]; exact h0, fun ht => absurd ht ha, fun _ => h⟩

/-- The token after the wait of `waitForPath` is the stamp of the pose or zero. -/
theorem waitForPath_token (pose : PoseStamped) (s : Sys) (sc : Script) :
    (waitForPath pose s sc).sys.goal_timestamp_ = pose.header.stamp
      ∨ (waitForPath pose s sc).sys.goal_timestamp_ = 0 := by
  rw [waitForPath_run]
  exact waitForPathLoop_token sc _

/-- When `waitForPath` returns, the condition of its wait loop is false. -/
theorem waitForPath_cond (pose : PoseStamped) (s : Sys) (sc : Script) (s1 : Sys)
    (sc1 : Script) (hactive : s.server_active = true)
    (h : waitForPath pose s sc = Res.ret () s1 sc1) : waitForPathCond s1 = false := by
  rw [waitForPath_run] at h
  exact (waitForPathLoop_spec sc _ (by exact hactive)).2.2 () s1 sc1 h

/-- While the goal is active a new goal comes with a preemption request: no event
leaves `isNewGoalAvailable()` true and `isPreemptRequested()` false. -/
theorem deliver_new_goal_preempts (e : Event) (s : Sys) (ha : s.server_active = true)
    (h : s.server_new_goal = true → s.server_preempt_request = true) :
    (deliver e s).server_new_goal = true → (deliver e s).server_preempt_request = true := by
  cases e with
  | path p =>
    simp only [deliver, pathCallback, ha]
    by_cases h0 : isZero s.goal_timestamp_ = true
    · simpa [h0] using h
    · by_cases h1 : p.header.stamp = s.goal_timestamp_ <;> simpa [h0, h1] using h
  | followFeedback fb =>
    simp only [deliver]
    by_cases hcb : s.client_feedback_cb = true
    · have hf := frame_fields (followPathFeedbackCB_frame fb s).1
      simp only [hcb, if_true]
      rw [hf.2.2.2.2.2.2.2.2.1, hf.2.2.2.2.2.2.2.2.2.1]
      exact h
    · simpa [hcb] using h
  | followStateDone => exact h
  | followDone st r =>
    simp only [deliver]
    cases s.client_done_cb <;> exact h
  | cancelRequest => exact fun _ => rfl
  | newGoal =>
    intro _
    simp [deliver, ha]
  | shutdown => exact h
  | clock dt => exact h

theorem deliverAll_new_goal_preempts (b : Batch) (s : Sys) (ha : s.server_active = true)
    (h : s.server_new_goal = true → s.server_preempt_request = true) :
    (deliverAll b s).server_new_goal = true → (deliverAll b s).server_preempt_request = true := by
  induction b generalizing s with
  | nil => exact h
  | cons e b ih =>
    exact ih (deliver e s) (deliver_undisturbed e s ha).1 (deliver_new_goal_preempts e s ha h)

theorem waitForPathLoop_new_goal_preempts (sc : Script) (s : Sys)
    (ha : s.server_active = true)
    (h : s.server_new_goal = true → s.server_preempt_request = true) :
    (waitForPathLoop sc s).sys.server_new_goal = true →
      (waitForPathLoop sc s).sys.server_preempt_request = true := by
  induction sc generalizing s with
  | nil =>
    rw [waitForPathLoop_nil]
    by_cases hc : waitForPathCond s = true <;> simpa [hc, Res.sys] using h
  | cons b rest ih =>
    rw [waitForPathLoop_cons]
    by_cases hc : waitForPathCond s = true
    · simp only [hc, if_true]
      exact ih (deliverAll b s) (deliverAll_undisturbed b s ha).1
        (deliverAll_new_goal_preempts b s ha h)
    · simpa [hc, Res.sys] using h

/-- A planning wait that starts while the goal is active and ends with a new goal
available ends with preemption requested. -/
theorem waitForPath_new_goal_preempts (pose : PoseStamped) (s : Sys) (sc : Script)
    (ha : s.server_active = true)
    (h : s.server_new_goal = true → s.server_preempt_request = true) :
    (waitForPath pose s sc).sys.server_new_goal = true →
      (waitForPath pose s sc).sys.server_preempt_request = true := by
  rw [waitForPath_run]
  exact waitForPathLoop_new_goal_preempts sc _ (by exact ha) (by exact h)

/-- C21. The plan token is cleared only by a matching path.  For a goal in abort or
replan mode started while the goal is active: when the wait loop of `waitForPath`
ends with the token still set, it ended because of preemption, a new goal or
shutdown, and a new goal that arrived during the wait has requested preemption.
If preemption is requested at that point, or no path carrying the token
arrives in the rest of the execution, `goal_timestamp_` still holds the non-zero
stamp of the goal pose at the end of the execute-callback, whatever its outcome;
when the callback returns, no goal is active.  In that state `pathCallback` sends
nothing to the follower and leaves `unexpected_path_` as it is, for every path: a
path with the stale stamp is stored as `requested_path_` and clears the token,
every other path changes nothing.  The only event that changes the token at all is
a path that carries it. -/
theorem stale_token_survives_interrupted_wait (goal : NavigateToGoalGoal) (s : Sys)
    (sc : Script) (s1 : Sys) (sc1 : Script)
    (hvalid : goal.failure_mode = FailureMode.FAILURE_MODE_ABORT
      ∨ goal.failure_mode = FailureMode.FAILURE_MODE_REPLAN)
    (hactive : s.server_active = true)
    (hwait : waitForPath goal.goal_pose { entered goal s with follow_path_done_ := false } sc
      = Res.ret () s1 sc1)
    (htoken : s1.goal_timestamp_ ≠ 0)
    (hend : s1.server_preempt_request = true
      ∨ noAnswer goal.goal_pose.header.stamp sc1 = true) :
    (s1.server_preempt_request = true ∨ s1.server_new_goal = true ∨ s1.ros_ok = false)
      ∧ ((s.server_new_goal = true → s.server_preempt_request = true) →
          s1.server_new_goal = true → s1.server_preempt_request = true)
      ∧ (navToGoalActionCallback goal s sc).sys.goal_timestamp_ = goal.goal_pose.header.stamp
      ∧ (navToGoalActionCallback goal s sc).sys.goal_timestamp_ ≠ 0
      ∧ (∀ a s2 sc2, navToGoalActionCallback goal s sc = Res.ret a s2 sc2 →
          s2.server_active = false)
      ∧ (∀ p : Path,
          (pathCallback p (navToGoalActionCallback goal s sc).sys).calls
              = (navToGoalActionCallback goal s sc).sys.calls
            ∧ (pathCallback p (navToGoalActionCallback goal s sc).sys).unexpected_path_
              = (navToGoalActionCallback goal s sc).sys.unexpected_path_
            ∧ (p.header.stamp = goal.goal_pose.header.stamp →
                pathCallback p (navToGoalActionCallback goal s sc).sys
                  = { (navToGoalActionCallback goal s sc).sys with
                      requested_path_ := some p, goal_timestamp_ := 0 })
            ∧ (p.header.stamp ≠ goal.goal_pose.header.stamp →
                pathCallback p (navToGoalActionCallback goal s sc).sys
                  = (navToGoalActionCallback goal s sc).sys))
      ∧ (∀ (e : Event) (s0 : Sys), (deliver e s0).goal_timestamp_ ≠ s0.goal_timestamp_ →
          ∃ p, e = Event.path p ∧ s0.goal_timestamp_ ≠ 0
            ∧ p.header.stamp = s0.goal_timestamp_ ∧ (deliver e s0).goal_timestamp_ = 0) := by
  have hact : (entered goal s).server_active = true := by rw [entered_active]; exact hactive
  have hcond : waitForPathCond s1 = false :=
    waitForPath_cond goal.goal_pose { entered goal s with follow_path_done_ := false } sc s1 sc1
      hact hwait
  have hgoal1 : s1.current_goal_ = some goal := by
    have := (waitForPath_spec goal.goal_pose
      { entered goal s with follow_path_done_ := false } sc hact).2.1
    rw [hwait] at this
    exact this
  have htok : s1.goal_timestamp_ = goal.goal_pose.header.stamp := by
    have := waitForPath_token goal.goal_pose
      { entered goal s with follow_path_done_ := false } sc
    rw [hwait] at this
    rcases this with h | h
    · exact h
    · exact absurd h htoken
  have hk1 : Kept goal.goal_pose.header.stamp s1.requested_path_ (some goal) s1 :=
    ⟨htok, rfl, hgoal1⟩
  have hp := processGoal_kept_after_wait _ _ _ (entered goal s) sc goal s1 sc1 rfl hwait hk1 hend
  have hcb := navToGoalActionCallback_kept_of goal s1.requested_path_ s sc hvalid hp
  have hfin : (navToGoalActionCallback goal s sc).sys.goal_timestamp_
      = goal.goal_pose.header.stamp := hcb.1.1
  have hne : (navToGoalActionCallback goal s sc).sys.goal_timestamp_ ≠ 0 := by
    rw [hfin, ← htok]
    exact htoken
  have hnew : (s.server_new_goal = true → s.server_preempt_request = true) →
      s1.server_new_goal = true → s1.server_preempt_request = true := by
    intro h
    have hflags : (entered goal s).server_new_goal = true →
        (entered goal s).server_preempt_request = true := by
      cases hu : s.unexpected_path_ <;> simpa [entered, hu, Sys.emit] using h
    have := waitForPath_new_goal_preempts goal.goal_pose
      { entered goal s with follow_path_done_ := false } sc hact hflags
    rw [hwait] at this
    exact this
  refine ⟨?_, hnew, hfin, hne, hcb.2, ?_, deliver_token_change⟩
  · have h0 : isZero s1.goal_timestamp_ = false := by simpa [isZero] using htoken
    simp only [waitForPathCond, h0, Bool.not_false, Bool.true_and] at hcond
    cases hpre : s1.server_preempt_request
    · cases hnew : s1.server_new_goal
      · cases hok : s1.ros_ok
        · exact Or.inr (Or.inr rfl)
        · simp [hpre, hnew, hok] at hcond
      · exact Or.inr (Or.inl rfl)
    · exact Or.inl rfl
  · intro p
    have h := pathCallback_token_set (navToGoalActionCallback goal s sc).sys p hne
    rw [hfin] at h
    exact h

/-- Witness of C21: a second goal is cancelled while the planner still works; the
execute-callback returns with the token 5 still set. -/
theorem stale_token_survives_interrupted_wait_witness :
    (navToGoalActionCallback goalReplan secondGoalAccepted
        [[Event.cancelRequest]]).sys.goal_timestamp_ = 5
      ∧ (navToGoalActionCallback goalReplan secondGoalAccepted
          [[Event.cancelRequest]]).sys.goal_timestamp_ ≠ 0
      ∧ (∀ a s2 sc2,
          navToGoalActionCallback goalReplan secondGoalAccepted [[Event.cancelRequest]]
            = Res.ret a s2 sc2 → s2.server_active = false) :=
  have h := stale_token_survives_interrupted_wait goalReplan secondGoalAccepted
    [[Event.cancelRequest]]
    (waitForPath goalReplan.goal_pose
      { entered goalReplan secondGoalAccepted with follow_path_done_ := false }
      [[Event.cancelRequest]]).sys
    [] (Or.inr rfl) rfl rfl (by decide) (Or.inl rfl)
  ⟨h.2.2.1, h.2.2.2.1, h.2.2.2.2.1⟩

/-- C22. For a goal whose pose carries the stamp zero, `waitForPath` publishes the
pose and returns at once: the token it sets is zero, so the condition of the wait
loop is false at the first test and nothing of the script has happened.
`requested_path_` is as it was, so `processGoal` dereferences, validates and follows
the path stored before: a null pointer is dereferenced, a path of fewer than two
poses is answered `setAborted` with `STATUS_NO_PATH_FOUND`, and otherwise (no
preemption requested) the follow request for the stored path is sent and the follow
loop starts.  In abort and replan mode the token is zero and the stored path the
same at the end of the execution, whatever happens.  With the token zero
`pathCallback` treats every path, the planner's answer included, as unsolicited: it
stores nothing, drops the path while a goal is active and starts an unsolicited run
otherwise. -/
theorem zero_stamp_goal_is_not_awaited (goal : NavigateToGoalGoal) (s : Sys) (sc : Script)
    (hzero : goal.goal_pose.header.stamp = 0) :
    waitForPath goal.goal_pose s sc
        = Res.ret () (({ s with goal_timestamp_ := 0 }).emit (Call.publishGoal goal.goal_pose))
            sc
      ∧ (s.current_goal_ = some goal →
          (s.requested_path_ = none →
            processGoal s sc
              = Res.nullDeref
                  (({ s with follow_path_done_ := false, goal_timestamp_ := 0 }).emit
                    (Call.publishGoal goal.goal_pose)))
          ∧ (∀ p, s.requested_path_ = some p → p.poses.length < 2 →
              processGoal s sc
                = Res.ret false
                    (((({ s with follow_path_done_ := false, goal_timestamp_ := 0 }).emit
                        (Call.publishGoal goal.goal_pose)).emit
                        (Call.rosLog LogMsg.warnInvalidPath)).terminate
                      (Call.setAborted
                        { reached_goal := false,
                          status := NavResultStatus.STATUS_NO_PATH_FOUND })) sc)
          ∧ (∀ p, s.requested_path_ = some p → 2 ≤ p.poses.length →
              s.server_preempt_request = false →
              processGoal s sc
                = match followLoop sc
                    (dispatched goal p
                      (({ s with follow_path_done_ := false, goal_timestamp_ := 0 }).emit
                        (Call.publishGoal goal.goal_pose))) with
                  | Res.ret (some r) s3 sc3 => Res.ret r s3 sc3
                  | Res.ret none s3 sc3 =>
                    (match waitForFollowPathDoneLoop (s3.now + Duration 10) sc3 s3 with
                     | Res.ret _ s4 sc4 =>
                       if s4.follow_path_done_ = true then Res.ret true s4 sc4
                       else
                         Res.ret false
                           ((s4.emit (Call.rosLog LogMsg.warnFollowDoneTimeout)).terminate
                             (Call.setAborted { status := NavResultStatus.STATUS_TIMEOUT })) sc4
                     | Res.nullDeref s4 => Res.nullDeref s4
                     | Res.waiting s4 => Res.waiting s4)
                  | Res.nullDeref s3 => Res.nullDeref s3
                  | Res.waiting s3 => Res.waiting s3))
      ∧ (goal.failure_mode = FailureMode.FAILURE_MODE_ABORT
          ∨ goal.failure_mode = FailureMode.FAILURE_MODE_REPLAN →
          (navToGoalActionCallback goal s sc).sys.goal_timestamp_ = 0
            ∧ (navToGoalActionCallback goal s sc).sys.requested_path_ = s.requested_path_)
      ∧ (∀ (p : Path) (s2 : Sys), s2.goal_timestamp_ = 0 →
          (pathCallback p s2).requested_path_ = s2.requested_path_
            ∧ (pathCallback p s2).goal_timestamp_ = 0
            ∧ (s2.server_active = true → pathCallback p s2 = s2)
            ∧ (s2.server_active = false →
                pathCallback p s2
                  = ({ s2 with unexpected_path_ := true }).sendGoal
                      { debug_test := 255, path := p,
                        velocity := s2.opt_.unexpected_path_velocity }
                      DoneCallback.followUnexpectedPathDoneCB false)) := by
  have hw : ∀ s : Sys, waitForPath goal.goal_pose s sc
      = Res.ret () (({ s with goal_timestamp_ := 0 }).emit (Call.publishGoal goal.goal_pose))
          sc := by
    intro s
    rw [waitForPath_run, hzero]
    exact waitForPathLoop_exit sc _ (by simp [waitForPathCond, isZero, Sys.emit])
  refine ⟨hw s, ?_, ?_, fun p s2 h => pathCallback_token_zero s2 p h⟩
  · intro hg
    have hrun := processGoal_run s sc goal hg
    rw [hw] at hrun
    refine ⟨?_, ?_, ?_⟩
    · intro hnone
      rw [hrun]
      have : (({ s with follow_path_done_ := false, goal_timestamp_ := 0 }).emit
          (Call.publishGoal goal.goal_pose)).requested_path_ = none := hnone
      simp [this]
    · intro p hsome hlen
      rw [hrun]
      have : (({ s with follow_path_done_ := false, goal_timestamp_ := 0 }).emit
          (Call.publishGoal goal.goal_pose)).requested_path_ = some p := hsome
      simp [this, hlen]
    · intro p hsome hlen hpre
      rw [hrun]
      have h1 : (({ s with follow_path_done_ := false, goal_timestamp_ := 0 }).emit
          (Call.publishGoal goal.goal_pose)).requested_path_ = some p := hsome
      have h2 : (({ s with follow_path_done_ := false, goal_timestamp_ := 0 }).emit
          (Call.publishGoal goal.goal_pose)).server_preempt_request = false := hpre
      have hlen2 : ¬ p.poses.length < 2 := by omega
      dsimp only
      rw [h1]
      dsimp only
      rw [if_neg hlen2, h2, if_neg (by decide)]
  · intro hvalid
    have hk := navToGoalActionCallback_kept goal s sc hvalid (by rw [hzero]; exact noAnswer_zero sc)
    rw [hzero] at hk
    exact ⟨hk.1, hk.2.1⟩

/-- Witness of C22: a goal stamped zero on a controller that completed a goal
before; the planner's answer is still to come when the planning wait is over. -/
theorem zero_stamp_goal_is_not_awaited_witness :
    waitForPath goalZeroStamp.goal_pose secondGoalAccepted [[Event.path path2]]
        = Res.ret ()
            (({ secondGoalAccepted with goal_timestamp_ := 0 }).emit
              (Call.publishGoal goalZeroStamp.goal_pose))
            [[Event.path path2]]
      ∧ (navToGoalActionCallback goalZeroStamp secondGoalAccepted
          [[Event.path path2]]).sys.requested_path_ = secondGoalAccepted.requested_path_ :=
  have h := zero_stamp_goal_is_not_awaited goalZeroStamp secondGoalAccepted
    [[Event.path path2]] rfl
  ⟨h.1, (h.2.2.1 (Or.inr rfl)).2⟩

end PathControl

/-! # Scan filters: the theorems -/

namespace ScanProcessor

/-! ## Machine integers -/

theorem wrapInt_id (x : Int) (h1 : -2147483648 ≤ x) (h2 : x < 2147483648) : wrapInt x = x := by
  unfold wrapInt
  omega

theorem wrapInt_lt (x : Int) : wrapInt x < 2147483648 := by
  unfold wrapInt
  omega

theorem toSize_id (x : Int) (h1 : 0 ≤ x) (h2 : x < 18446744073709551616) : toSize x = x := by
  unfold toSize
  omega

theorem elemAt_nat {P : Type} (v : List P) (i : Nat) (h : i < v.length) (d : P) :
    elemAt v (i : Int) = some (v.getD i d) := by
  simp [elemAt, List.getD_eq_getElem?_getD, List.getElem?_eq_getElem h]

/-! ## The window of `GetWeight` -/

/-- The loop of `GetWeight` adds the terms of the indices `i`, `i + 1`, ...,
`i + fuel - 1` in this order when they all lie below `end_` and inside the vector. -/
theorem weightLoop_range {F P : Type} (o : Arith F P) (points : List P) (pc : P) (k : F)
    (end_ : Int) (fuel i : Nat) (sumW : F) (hlen : i + fuel ≤ points.length)
    (hend : ((i + fuel : Nat) : Int) ≤ end_) :
    weightLoop o points pc k end_ fuel (i : Int) sumW
      = some ((List.range' i fuel).foldl
          (fun sumW j => o.add sumW (tukey o (norm o (o.psub (points.getD j pc) pc)) k))
          sumW) := by
  induction fuel generalizing i sumW with
  | zero => rfl
  | succ fuel ih =>
    have hi : (i : Int) < end_ := by omega
    simp only [weightLoop]
    rw [if_pos hi, elemAt_nat points i (by omega) pc]
    dsimp only
    have h := ih (i + 1) (o.add sumW (tukey o (norm o (o.psub (points.getD i pc) pc)) k))
      (by omega) (by omega)
    rw [Nat.cast_succ] at h
    rw [h, List.range'_succ, List.foldl_cons]

theorem filter_range'_interval (lo hi m s : Nat) :
    (List.range' s m).filter (fun i => decide (lo ≤ i ∧ i < hi))
      = List.range' (max lo s) (min hi (s + m) - max lo s) := by
  induction m generalizing s with
  | zero =>
    have : min hi (s + 0) - max lo s = 0 := by omega
    simp [this]
  | succ m ih =>
    rw [List.range'_succ, List.filter_cons, ih (s + 1)]
    by_cases hp : lo ≤ s ∧ s < hi
    · have h1 : max lo (s + 1) = s + 1 := by omega
      have h2 : max lo s = s := by omega
      have h3 : min hi (s + (m + 1)) - s = (min hi (s + 1 + m) - (s + 1)) + 1 := by omega
      simp only [hp, and_self, decide_True, if_true, h1, h2, h3, List.range'_succ]
    · by_cases hlo : s < lo
      · have h1 : max lo (s + 1) = max lo s := by omega
        have h2 : min hi (s + 1 + m) = min hi (s + (m + 1)) := by omega
        simp only [hp, decide_False, Bool.false_eq_true, if_false, h1, h2]
      · have h1 : min hi (s + 1 + m) - max lo (s + 1) = 0 := by omega
        have h2 : min hi (s + (m + 1)) - max lo s = 0 := by omega
        simp only [hp, decide_False, Bool.false_eq_true, if_false, h1, h2, List.range'_zero]

/-- The window in words is a run of consecutive indices. -/
theorem windowIndices_range (n : Nat) (windowSize idx : Int) (lo hi : Nat)
    (hlo : max 0 (idx - windowSize) = (lo : Int))
    (hhi : min ((n : Int) - 1) (idx + windowSize + 1) = (hi : Int)) :
    windowIndices n windowSize idx = List.range' lo (hi - lo) := by
  unfold windowIndices
  rw [hlo, hhi, List.range_eq_range']
  have hcongr : (List.range' 0 n).filter
        (fun (i : Nat) => decide ((lo : Int) ≤ (i : Int) ∧ (i : Int) < (hi : Int)))
      = (List.range' 0 n).filter (fun (i : Nat) => decide (lo ≤ i ∧ i < hi)) := by
    apply List.filter_congr
    intro x _
    simp only [Nat.cast_le, Nat.cast_lt]
  rw [hcongr, filter_range'_interval]
  have h1 : max lo 0 = lo := by omega
  have h2 : min hi (0 + n) - lo = hi - lo := by omega
  rw [h1, h2]

theorem mem_windowIndices (n : Nat) (windowSize idx : Int) (i : Nat) :
    i ∈ windowIndices n windowSize idx
      ↔ max 0 (idx - windowSize) ≤ (i : Int)
        ∧ (i : Int) < min ((n : Int) - 1) (idx + windowSize + 1) := by
  unfold windowIndices
  simp only [List.mem_filter, List.mem_range, decide_eq_true_eq]
  constructor
  · exact fun h => h.2
  · intro h
    refine ⟨?_, h⟩
    omega

/-- Counterexample to C23 as stated.  Two points at the origin, `k = 1`, `idx = 0`
and `windowSize = 2147483647`: the sum `idx+windowSize+1` does not fit an `int` and
wraps to a negative value, `end` is that value and the loop body never runs, so the
weight is 0.  The window in words is the index 0, whose term is 1. -/
theorem GetWeight_window_wraps :
    GetWeight intArith [origin, origin] 1 2147483647 0 = some 0
      ∧ windowIndices 2 2147483647 0 = [0]
      ∧ sumTerms intArith [origin, origin] origin 1 (windowIndices 2 2147483647 0) = 1 := by
  decide

/-- C23, amended.  For a list of `n` points whose size fits an `int`, a window size
`windowSize >= 0` and an index `0 <= idx < n` such that `idx + windowSize + 1` fits
an `int`, `GetWeight` returns the sum of the tukey terms, added to zero in
increasing order of the index, over exactly the indices `i` with
`max(0, idx - windowSize) <= i < min(n - 1, idx + windowSize + 1)`.  Every such
index lies before the last one: the last point is a summand of no weight, not of
its own either, while every other point is in its own window. -/
theorem GetWeight_sums_window {F P : Type} (o : Arith F P) (points : List P) (k : F)
    (windowSize idx : Int) (hw : 0 ≤ windowSize) (hidx0 : 0 ≤ idx)
    (hidx : idx < (points.length : Int)) (hsize : (points.length : Int) < 2147483648)
    (hover : idx + windowSize + 1 < 2147483648) :
    (∃ pc, elemAt points idx = some pc
        ∧ GetWeight o points k windowSize idx
          = some (sumTerms o points pc k (windowIndices points.length windowSize idx)))
      ∧ (∀ i : Nat, i ∈ windowIndices points.length windowSize idx
          ↔ max 0 (idx - windowSize) ≤ (i : Int)
            ∧ (i : Int) < min ((points.length : Int) - 1) (idx + windowSize + 1))
      ∧ (∀ i ∈ windowIndices points.length windowSize idx, i + 1 < points.length)
      ∧ (∀ w j : Int, points.length - 1 ∉ windowIndices points.length w j)
      ∧ (idx < (points.length : Int) - 1 →
          idx.toNat ∈ windowIndices points.length windowSize idx)
      ∧ (idx = (points.length : Int) - 1 →
          idx.toNat ∉ windowIndices points.length windowSize idx) := by
  have hlt : idx.toNat < points.length := by omega
  obtain ⟨lo, hlo⟩ : ∃ lo : Nat, max 0 (idx - windowSize) = (lo : Int) :=
    ⟨(max 0 (idx - windowSize)).toNat, by omega⟩
  obtain ⟨hi, hhi⟩ : ∃ hi : Nat,
      min ((points.length : Int) - 1) (idx + windowSize + 1) = (hi : Int) :=
    ⟨(min ((points.length : Int) - 1) (idx + windowSize + 1)).toNat, by omega⟩
  have helem : elemAt points idx = some (points.get ⟨idx.toNat, hlt⟩) := by
    simp [elemAt, hidx0, List.getElem?_eq_getElem hlt]
  refine ⟨⟨points.get ⟨idx.toNat, hlt⟩, helem, ?_⟩, mem_windowIndices _ _ _, ?_, ?_, ?_, ?_⟩
  · simp only [GetWeight]
    rw [wrapInt_id (idx + windowSize) (by omega) (by omega),
      wrapInt_id (idx + windowSize + 1) (by omega) (by omega),
      wrapInt_id (idx - windowSize) (by omega) (by omega),
      wrapInt_id (points.length : Int) (by omega) (by omega),
      wrapInt_id ((points.length : Int) - 1) (by omega) (by omega), hlo, hhi, helem]
    dsimp only
    have hcnt : ((hi : Int) - (lo : Int)).toNat = hi - lo := by omega
    rw [hcnt, weightLoop_range o points _ k hi (hi - lo) lo o.zero (by omega) (by omega),
      windowIndices_range points.length windowSize idx lo hi hlo hhi]
    rfl
  · intro i hi
    rw [mem_windowIndices] at hi
    omega
  · intro w j hmem
    rw [mem_windowIndices] at hmem
    omega
  · intro h
    rw [mem_windowIndices]
    omega
  · intro h hmem
    rw [mem_windowIndices] at hmem
    omega

/-- Witness of C23, amended: three points, window size 1, the middle index. -/
theorem GetWeight_sums_window_witness :
    ∃ pc, elemAt [origin, origin, origin] 1 = some pc
      ∧ GetWeight intArith [origin, origin, origin] 1 1 1
        = some (sumTerms intArith [origin, origin, origin] pc 1
            (windowIndices [origin, origin, origin].length 1 1)) :=
  (GetWeight_sums_window intArith [origin, origin, origin] 1 1 1 (by decide) (by decide)
    (by decide) (by decide) (by decide)).1

/-! ## The window of `SegmentFilter` -/

theorem addInt_some (a b : Int) (h1 : -2147483648 ≤ a + b) (h2 : a + b < 2147483648) :
    addInt a b = some (a + b) := by
  unfold addInt
  rw [if_pos ⟨h1, h2⟩]

theorem addInt_none (a b : Int) (h : 2147483648 ≤ a + b) : addInt a b = none := by
  unfold addInt
  rw [if_neg (by omega)]

theorem addInt_eq_some (a b l : Int) (h : addInt a b = some l) :
    l = a + b ∧ -2147483648 ≤ a + b ∧ a + b < 2147483648 := by
  unfold addInt at h
  by_cases hc : -2147483648 ≤ a + b ∧ a + b < 2147483648
  · rw [if_pos hc] at h
    injection h with h
    exact ⟨h.symm, hc⟩
  · rw [if_neg hc] at h
    cases h

theorem getLast?_ne_nil {P : Type} (l : List P) (h : l ≠ []) : ∃ b, l.getLast? = some b := by
  cases hl : l.getLast? with
  | none => exact absurd (List.getLast?_eq_none_iff.mp hl) h
  | some b => exact ⟨b, rfl⟩

theorem windowLoop_step {F P : Type} (o : Arith F P) (curSegment : List P) (curP : P)
    (distThresh : F) (useDist : Bool) (limit : Int) (size fuel : Nat) (k : Int) :
    windowLoop o curSegment curP distThresh useDist limit size (fuel + 1) k
      = if k < limit ∧ toSize k < (size : Int) then
          match curSegment.getLast? with
          | none => none
          | some back =>
            if TestSegmentDist o back curP distThresh useDist then some true
            else windowLoop o curSegment curP distThresh useDist limit size fuel (k + 1)
        else some false := by
  rw [windowLoop]

/-- Once the test of the inner loop has failed it fails in every later iteration:
the loop ends with `found` false. -/
theorem windowLoop_false {F P : Type} (o : Arith F P) (curSegment : List P) (curP back : P)
    (distThresh : F) (useDist : Bool) (limit : Int) (size fuel : Nat) (k : Int)
    (hback : curSegment.getLast? = some back)
    (htest : TestSegmentDist o back curP distThresh useDist = false) :
    windowLoop o curSegment curP distThresh useDist limit size fuel k = some false := by
  induction fuel generalizing k with
  | zero => rfl
  | succ fuel ih =>
    rw [windowLoop_step, hback]
    dsimp only
    rw [htest, ih (k + 1)]
    simp

/-- The inner loop entered with its condition true gives the outcome of the one
test of the last point of the segment against the current point. -/
theorem windowLoop_entered {F P : Type} (o : Arith F P) (curSegment : List P)
    (curP back : P) (distThresh : F) (useDist : Bool) (limit : Int) (size fuel : Nat)
    (k : Int) (hback : curSegment.getLast? = some back)
    (hcond : k < limit ∧ toSize k < (size : Int)) :
    windowLoop o curSegment curP distThresh useDist limit size (fuel + 1) k
      = some (TestSegmentDist o back curP distThresh useDist) := by
  rw [windowLoop_step, if_pos hcond, hback]
  dsimp only
  cases htest : TestSegmentDist o back curP distThresh useDist with
  | true => simp
  | false =>
    rw [windowLoop_false o curSegment curP back distThresh useDist limit size fuel (k + 1)
      hback htest]
    simp

/-- The inner loop of `SegmentFilter` for the point `i` of `size` points and a bound
`limit` above `i` that fits an `int`. -/
theorem windowLoop_test {F P : Type} (o : Arith F P) (curSegment : List P) (curP back : P)
    (distThresh : F) (useDist : Bool) (limit : Int) (size : Nat) (i : Int)
    (hback : curSegment.getLast? = some back) (hi : 0 ≤ i) (hsize : i < (size : Int))
    (hlim : i < limit) (hlimit : limit ≤ 2147483648) :
    windowLoop o curSegment curP distThresh useDist limit size size i
      = some (TestSegmentDist o back curP distThresh useDist) := by
  obtain ⟨m, hm⟩ : ∃ m, size = m + 1 := ⟨size - 1, by omega⟩
  have hcond : i < limit ∧ toSize i < (size : Int) := by
    rw [toSize_id i hi (by omega)]
    exact ⟨hlim, hsize⟩
  have h := windowLoop_entered o curSegment curP back distThresh useDist limit size m i
    hback hcond
  rw [← hm] at h
  exact h

/-- The steps given to the inner loop are never used up: with any more steps the
loop does the same. -/
theorem windowLoop_fuel {F P : Type} (o : Arith F P) (curSegment : List P) (curP : P)
    (distThresh : F) (useDist : Bool) (limit : Int) (size fuel more : Nat) (k : Int)
    (hk : 0 ≤ k) (hlimit : limit ≤ 2147483648) (hfuel : (size : Int) ≤ k + fuel) :
    windowLoop o curSegment curP distThresh useDist limit size (fuel + more) k
      = windowLoop o curSegment curP distThresh useDist limit size fuel k := by
  induction fuel generalizing k with
  | zero =>
    cases more with
    | zero => rfl
    | succ more =>
      have hcond : ¬ (k < limit ∧ toSize k < (size : Int)) := by
        intro h
        have := toSize_id k hk (by omega)
        omega
      rw [Nat.zero_add, windowLoop_step, if_neg hcond]
      rfl
  | succ fuel ih =>
    have hadd : fuel + 1 + more = (fuel + more) + 1 := by omega
    rw [hadd, windowLoop_step, windowLoop_step, ih (k + 1) (by omega) (by omega)]

theorem keepSegment_defined {F P : Type} (o : Arith F P) (curSegment : List P)
    (minPoints : Int) (minSegmentSize : F) (hne : curSegment ≠ []) :
    ∃ keep, keepSegment o curSegment minPoints minSegmentSize = some keep := by
  obtain ⟨back, hback⟩ := getLast?_ne_nil curSegment hne
  cases curSegment with
  | nil => exact absurd rfl hne
  | cons front tail =>
    unfold keepSegment
    by_cases h : toSize minPoints < ((front :: tail).length : Int)
    · rw [if_pos h, hback]
      exact ⟨_, rfl⟩
    · rw [if_neg h]
      exact ⟨false, rfl⟩

theorem segmentLoop_cons {F P : Type} (o : Arith F P) (size : Nat) (distThresh : F)
    (windowSize minPoints : Int) (minSegmentSize : F) (useDist : Bool) (curP : P)
    (rest : List P) (i : Int) (curSegment out_points : List P) :
    segmentLoop o size distThresh windowSize minPoints minSegmentSize useDist (curP :: rest) i
        curSegment out_points
      = match addInt i windowSize with
        | none => none
        | some limit =>
          match windowLoop o curSegment curP distThresh useDist limit size size i with
          | none => none
          | some true =>
            segmentLoop o size distThresh windowSize minPoints minSegmentSize useDist rest
              (i + 1) (curSegment ++ [curP]) out_points
          | some false =>
            match keepSegment o curSegment minPoints minSegmentSize with
            | none => none
            | some keep =>
              segmentLoop o size distThresh windowSize minPoints minSegmentSize useDist rest
                (i + 1) [curP] (if keep then out_points ++ curSegment else out_points) := by
  rw [segmentLoop]

/-- One turn of the outer loop for a window size of at least 1 whose sum with `i`
fits an `int`: the point joins the segment exactly when the one test succeeds. -/
theorem segmentLoop_turn {F P : Type} (o : Arith F P) (size : Nat) (distThresh : F)
    (windowSize minPoints : Int) (minSegmentSize : F) (useDist : Bool) (curP back : P)
    (rest : List P) (i : Int) (curSegment out_points : List P)
    (hback : curSegment.getLast? = some back) (hi : 0 ≤ i) (hsize : i < (size : Int))
    (hw : 1 ≤ windowSize) (hover : i + windowSize < 2147483648) :
    segmentLoop o size distThresh windowSize minPoints minSegmentSize useDist (curP :: rest) i
        curSegment out_points
      = if TestSegmentDist o back curP distThresh useDist then
          segmentLoop o size distThresh windowSize minPoints minSegmentSize useDist rest
            (i + 1) (curSegment ++ [curP]) out_points
        else
          match keepSegment o curSegment minPoints minSegmentSize with
          | none => none
          | some keep =>
            segmentLoop o size distThresh windowSize minPoints minSegmentSize useDist rest
              (i + 1) [curP] (if keep then out_points ++ curSegment else out_points) := by
  rw [segmentLoop_cons, addInt_some i windowSize (by omega) hover]
  dsimp only
  rw [windowLoop_test o curSegment curP back distThresh useDist (i + windowSize) size i hback
    hi hsize (by omega) (by omega)]
  cases TestSegmentDist o back curP distThresh useDist <;> simp

/-- When no sum `i+windowSize` overflows, the outer loop never takes `back()` or
`front()` of an empty segment: it runs to its end and leaves a segment that is not
empty. -/
theorem segmentLoop_defined {F P : Type} (o : Arith F P) (size : Nat) (distThresh : F)
    (windowSize minPoints : Int) (minSegmentSize : F) (useDist : Bool) (rest : List P)
    (i : Int) (curSegment out_points : List P) (hne : curSegment ≠ []) (hi : 0 ≤ i)
    (hsize : i + (rest.length : Int) = (size : Int)) (hw : 1 ≤ windowSize)
    (hover : (size : Int) + windowSize ≤ 2147483648) :
    ∃ cur out, segmentLoop o size distThresh windowSize minPoints minSegmentSize useDist
        rest i curSegment out_points = some (cur, out) ∧ cur ≠ [] := by
  induction rest generalizing i curSegment out_points with
  | nil => exact ⟨curSegment, out_points, rfl, hne⟩
  | cons curP rest ih =>
    obtain ⟨back, hback⟩ := getLast?_ne_nil curSegment hne
    simp only [List.length_cons, Nat.cast_succ] at hsize
    rw [segmentLoop_turn o size distThresh windowSize minPoints minSegmentSize useDist curP
      back rest i curSegment out_points hback hi (by omega) hw (by omega)]
    cases TestSegmentDist o back curP distThresh useDist with
    | true =>
      exact ih (i + 1) (curSegment ++ [curP]) out_points (by simp) (by omega) (by omega)
    | false =>
      obtain ⟨keep, hkeep⟩ := keepSegment_defined o curSegment minPoints minSegmentSize hne
      simp only [Bool.false_eq_true, if_false]
      rw [hkeep]
      exact ih (i + 1) [curP] _ (by simp) (by omega) (by omega)

/-- Whatever the outer loop returns for a window size of at least 1, it returns for
the window size 1. -/
theorem segmentLoop_windowSize {F P : Type} (o : Arith F P) (size : Nat) (distThresh : F)
    (windowSize minPoints : Int) (minSegmentSize : F) (useDist : Bool) (rest : List P)
    (i : Int) (curSegment out_points : List P) (r : List P × List P)
    (hne : curSegment ≠ []) (hi : 0 ≤ i)
    (hsize : i + (rest.length : Int) = (size : Int)) (hw : 1 ≤ windowSize)
    (h : segmentLoop o size distThresh windowSize minPoints minSegmentSize useDist rest i
      curSegment out_points = some r) :
    segmentLoop o size distThresh 1 minPoints minSegmentSize useDist rest i curSegment
      out_points = some r := by
  induction rest generalizing i curSegment out_points with
  | nil => exact h
  | cons curP rest ih =>
    obtain ⟨back, hback⟩ := getLast?_ne_nil curSegment hne
    simp only [List.length_cons, Nat.cast_succ] at hsize
    have hover : i + windowSize < 2147483648 := by
      rw [segmentLoop_cons] at h
      cases ha : addInt i windowSize with
      | none => simp [ha] at h
      | some limit => exact (addInt_eq_some i windowSize limit ha).2.2
    rw [segmentLoop_turn o size distThresh windowSize minPoints minSegmentSize useDist curP
      back rest i curSegment out_points hback hi (by omega) hw hover] at h
    rw [segmentLoop_turn o size distThresh 1 minPoints minSegmentSize useDist curP
      back rest i curSegment out_points hback hi (by omega) (by omega) (by omega)]
    cases ht : TestSegmentDist o back curP distThresh useDist with
    | true =>
      rw [ht] at h
      simp only [if_true] at h ⊢
      exact ih (i + 1) (curSegment ++ [curP]) out_points (by simp) (by omega) (by omega) h
    | false =>
      rw [ht] at h
      simp only [Bool.false_eq_true, if_false] at h ⊢
      cases hk : keepSegment o curSegment minPoints minSegmentSize with
      | none => simp [hk] at h
      | some keep =>
        rw [hk] at h
        dsimp only at h ⊢
        exact ih (i + 1) [curP] _ (by simp) (by omega) (by omega) h

/-- When the sum `i+windowSize` overflows for the last point, the outer loop has no
result. -/
theorem segmentLoop_overflow {F P : Type} (o : Arith F P) (size : Nat) (distThresh : F)
    (windowSize minPoints : Int) (minSegmentSize : F) (useDist : Bool) (rest : List P)
    (i : Int) (curSegment out_points : List P) (hrest : rest ≠ [])
    (hover : 2147483648 ≤ i + (rest.length : Int) - 1 + windowSize) :
    segmentLoop o size distThresh windowSize minPoints minSegmentSize useDist rest i
      curSegment out_points = none := by
  induction rest generalizing i curSegment out_points with
  | nil => exact absurd rfl hrest
  | cons curP rest ih =>
    simp only [List.length_cons, Nat.cast_succ] at hover
    rw [segmentLoop_cons]
    cases ha : addInt i windowSize with
    | none => rfl
    | some limit =>
      have hb := addInt_eq_some i windowSize limit ha
      have hrest2 : rest ≠ [] := by
        intro hnil
        rw [hnil] at hover
        simp only [List.length_nil, Nat.cast_zero] at hover
        omega
      dsimp only
      cases windowLoop o curSegment curP distThresh useDist limit size size i with
      | none => rfl
      | some found =>
        cases found with
        | true => exact ih (i + 1) (curSegment ++ [curP]) out_points hrest2 (by omega)
        | false =>
          dsimp only
          cases keepSegment o curSegment minPoints minSegmentSize with
          | none => rfl
          | some keep => exact ih (i + 1) [curP] _ hrest2 (by omega)

theorem SegmentFilter_cons {F P : Type} (o : Arith F P) (p0 : P) (rest : List P)
    (distThresh : F) (windowSize minPoints : Int) (minSegmentSize : F) (useDist : Bool) :
    SegmentFilter o (p0 :: rest) distThresh windowSize minPoints minSegmentSize useDist
      = match segmentLoop o (p0 :: rest).length distThresh windowSize minPoints
          minSegmentSize useDist rest 1 [p0] [] with
        | none => none
        | some (curSegment, out_points) =>
          match keepSegment o curSegment minPoints minSegmentSize with
          | none => none
          | some keep => some (if keep then out_points ++ curSegment else out_points) := by
  rw [SegmentFilter]

/-- The one input range in which `SegmentFilter` has no result: a window size whose
sum with the index of the last point does not fit an `int`. -/
theorem SegmentFilter_overflow {F P : Type} (o : Arith F P) (in_points : List P)
    (distThresh : F) (windowSize minPoints : Int) (minSegmentSize : F) (useDist : Bool)
    (hsize : 2 ≤ in_points.length)
    (hover : 2147483648 < (in_points.length : Int) + windowSize) :
    SegmentFilter o in_points distThresh windowSize minPoints minSegmentSize useDist
      = none := by
  cases in_points with
  | nil => simp at hsize
  | cons p0 rest =>
    simp only [List.length_cons, Nat.cast_succ] at hover
    simp only [List.length_cons] at hsize
    have hrest : rest ≠ [] := by
      intro hnil
      rw [hnil] at hsize
      simp at hsize
    rw [SegmentFilter_cons, segmentLoop_overflow o (p0 :: rest).length distThresh windowSize
      minPoints minSegmentSize useDist rest 1 [p0] [] hrest (by omega)]

/-- C24. For every list of input points, every `distThresh`, `minPoints`,
`minSegmentSize` and `useDist`, and every `windowSize >= 1`: whatever output
`SegmentFilter` returns, it returns for `windowSize = 1` as well, so the window size
has no effect on the segmentation.  The filter does return an output whenever
`in_points.size() + windowSize` is at most 2^31; beyond that a sum `i+windowSize`
overflows the `int` range, which leaves the behaviour of the code undefined.  The
inner loop over `k`, entered with a bound above `i`, gives the outcome of the one
test of the last point of the current segment against the current point, which does
not depend on `k`. -/
theorem SegmentFilter_windowSize_irrelevant {F P : Type} (o : Arith F P)
    (in_points : List P) (distThresh : F) (windowSize minPoints : Int) (minSegmentSize : F)
    (useDist : Bool) (hw : 1 ≤ windowSize) :
    (∀ out_points,
        SegmentFilter o in_points distThresh windowSize minPoints minSegmentSize useDist
          = some out_points →
        SegmentFilter o in_points distThresh 1 minPoints minSegmentSize useDist
          = some out_points)
      ∧ ((in_points.length : Int) + windowSize ≤ 2147483648 →
          ∃ out_points,
            SegmentFilter o in_points distThresh windowSize minPoints minSegmentSize useDist
              = some out_points
            ∧ SegmentFilter o in_points distThresh 1 minPoints minSegmentSize useDist
              = some out_points)
      ∧ (∀ (curSegment : List P) (curP back : P) (i : Int),
          curSegment.getLast? = some back → 1 ≤ i → i < (in_points.length : Int) →
          i + windowSize < 2147483648 →
          addInt i windowSize = some (i + windowSize)
            ∧ windowLoop o curSegment curP distThresh useDist (i + windowSize)
                in_points.length in_points.length i
              = some (TestSegmentDist o back curP distThresh useDist)) := by
  have hsame : ∀ out_points,
      SegmentFilter o in_points distThresh windowSize minPoints minSegmentSize useDist
        = some out_points →
      SegmentFilter o in_points distThresh 1 minPoints minSegmentSize useDist
        = some out_points := by
    intro out_points h
    cases in_points with
    | nil => exact h
    | cons p0 rest =>
      rw [SegmentFilter_cons] at h
      rw [SegmentFilter_cons]
      cases hl : segmentLoop o (p0 :: rest).length distThresh windowSize minPoints
          minSegmentSize useDist rest 1 [p0] [] with
      | none =>
        rw [hl] at h
        exact absurd h (by simp)
      | some r =>
        rw [hl] at h
        rw [segmentLoop_windowSize o (p0 :: rest).length distThresh windowSize minPoints
          minSegmentSize useDist rest 1 [p0] [] r (by simp) (by omega)
          (by simp only [List.length_cons, Nat.cast_succ]; omega) hw hl]
        exact h
  refine ⟨hsame, ?_, ?_⟩
  · intro hover
    have hdef : ∃ out_points,
        SegmentFilter o in_points distThresh windowSize minPoints minSegmentSize useDist
          = some out_points := by
      cases in_points with
      | nil => exact ⟨[], rfl⟩
      | cons p0 rest =>
        obtain ⟨cur, out, hloop, hne⟩ := segmentLoop_defined o (p0 :: rest).length distThresh
          windowSize minPoints minSegmentSize useDist rest 1 [p0] [] (by simp) (by omega)
          (by simp only [List.length_cons, Nat.cast_succ]; omega) hw hover
        obtain ⟨keep, hkeep⟩ := keepSegment_defined o cur minPoints minSegmentSize hne
        rw [SegmentFilter_cons, hloop]
        dsimp only
        rw [hkeep]
        exact ⟨_, rfl⟩
    obtain ⟨out_points, hout⟩ := hdef
    exact ⟨out_points, hout, hsame out_points hout⟩
  · intro curSegment curP back i hback hi hsize hover
    exact ⟨addInt_some i windowSize (by omega) hover,
      windowLoop_test o curSegment curP back distThresh useDist (i + windowSize)
        in_points.length i hback (by omega) hsize (by omega) (by omega)⟩

/-- Witness of C24: two points at the origin within distance 1 of each other; the
output for the window size 15 is the segment of both, and so is the output for the
window size 1. -/
theorem SegmentFilter_windowSize_irrelevant_witness :
    SegmentFilter intArith [origin, origin] 1 1 1 (-1) false = some [origin, origin] :=
  (SegmentFilter_windowSize_irrelevant intArith [origin, origin] 1 15 1 (-1) false
    (by decide)).1 [origin, origin] (by decide)

end ScanProcessor
